import Mathlib

/-!
Resource lifecycle controllers of terraform-provider-cmccloudv2

A shallow embedding of the Go package `cmccloudv2`:

* `resource_cmccloud_security_group.go` (rule validation, create / read / update),
* `resource_cmccloud_database_autobackup.go`, `resource_cmccloud_volume_autobackup.go`,
* `resource_cmccloud_autoscaling_az_policy.go`, `resource_cmccloud_volume_attachment.go`,
* `datasource_cmccloud_server.go`, `datasource_cmccloud_subnet.go`.

The remote API client (`gocmcapiv2`) is an external collaborator.  It is embedded as a record of
state-passing functions over an arbitrary remote state `σ`; every call made through it is logged,
with its outcome, in a trace.  `schema.ResourceData` is embedded as a record holding the current
identity, the values returned by `d.Get`, and the answers of `d.HasChange` / `d.GetChange`.
-/

namespace Cmccloudv2

/-! ## Errors -/

/-- Error value returned by an accessor call.  `errors.Is(err, gocmcapiv2.ErrNotFound)` holds
exactly for `notFound`. -/
inductive ApiError where
  | notFound
  | other (msg : String)
  deriving DecidableEq, Repr

/-- The test `errors.Is(err, gocmcapiv2.ErrNotFound)`. -/
def ApiError.isNotFound : ApiError → Bool
  | .notFound => true
  | .other _ => false

/-! ## Security group rules -/

/-- One element of the `rule` set of a security group resource, as the map
`rawRule.(map[string]interface{})` whose keys the source reads. -/
structure RuleMap where
  id : String
  ether_type : String
  direction : String
  protocol : String
  port_range_min : Int
  port_range_max : Int
  cidr : String
  dest_securitygroup_id : String
  description : String
  deriving DecidableEq, Repr

/-- The two errors built by `checkRuleErrors`; `index` is the `%d` of the format string. -/
inductive RuleError where
  /-- Message `rule.%d: only one of cidr or dest_securitygroup_id can be set` -/
  | onlyOneTarget (index : Nat)
  /-- Message `rule.%d: port_range_max must be >= port_range_min` -/
  | portRange (index : Nat)
  deriving DecidableEq, Repr

/-- The text of a `RuleError`, as produced by `fmt.Errorf`. -/
def RuleError.message : RuleError → String
  | .onlyOneTarget index =>
      "rule." ++ toString index ++ ": only one of cidr or dest_securitygroup_id can be set"
  | .portRange index =>
      "rule." ++ toString index ++ ": port_range_max must be >= port_range_min"

/-- The index named by a `RuleError`. -/
def RuleError.index : RuleError → Nat
  | .onlyOneTarget index => index
  | .portRange index => index

/-- Body of the `for index, rawRule := range rawRules` loop of `checkRuleErrors`:
`some e` when the iteration executes a `return`, `none` when it falls through to the next
iteration. -/
def checkRule (index : Nat) (rawRuleMap : RuleMap) : Option RuleError :=
  let cidr := rawRuleMap.cidr
  let groupID := rawRuleMap.dest_securitygroup_id
  let port_range_min := rawRuleMap.port_range_min
  let port_range_max := rawRuleMap.port_range_max
  let errorMessage := RuleError.onlyOneTarget index
  if cidr ≠ "" ∧ groupID ≠ "" then some errorMessage
  else if groupID ≠ "" ∧ cidr ≠ "" then some errorMessage
  else if port_range_min ≠ 0 ∧ port_range_max ≠ 0 ∧ port_range_min > port_range_max
      ∧ cidr ≠ "" then some (RuleError.portRange index)
  else none

/-- The loop of `checkRuleErrors`, started at position `index`. -/
def checkRuleErrorsFrom : Nat → List RuleMap → Option RuleError
  | _, [] => none
  | index, rawRule :: rest =>
    match checkRule index rawRule with
    | some e => some e
    | none => checkRuleErrorsFrom (index + 1) rest

/-- The call `checkRuleErrors(d, "rule")` on `rawRules := d.Get("rule").(*schema.Set).List()`;
`none` is the `nil` error. -/
def checkRuleErrors (rawRules : List RuleMap) : Option RuleError :=
  checkRuleErrorsFrom 0 rawRules

/-! ## Accessor calls and their trace -/

/-- One accessor call as it appears in the trace: the call and the error it returned
(`none` when the call succeeded). -/
structure Event (κ : Type) where
  call : κ
  err : Option ApiError
  deriving DecidableEq, Repr

/-- The remote system together with the chronological list of accessor calls issued so far. -/
structure World (σ κ : Type) where
  remote : σ
  trace : List (Event κ)

/-- Issue one accessor call: run it on the remote state and append it to the trace.  The Go
accessor returns a pair `(value, err)`; both components are handed back to the caller. -/
def World.invoke {σ κ α : Type} (w : World σ κ) (call : κ)
    (f : σ → (α × Option ApiError) × σ) : (α × Option ApiError) × World σ κ :=
  let r := f w.remote
  (r.1, { remote := r.2, trace := w.trace ++ [{ call := call, err := r.1.2 }] })

/-- The accessor calls issued between the world `w` and a later world `w'`: what the trace of
`w'` holds beyond the trace of `w`. -/
def issued {σ κ : Type} (w w' : World σ κ) : List (Event κ) :=
  w'.trace.drop w.trace.length

/-! ## Security group resource -/

/-- The record `gocmcapiv2.SecurityGroupRule`. -/
structure SecurityGroupRule where
  ID : String
  EtherType : String
  Direction : String
  Protocol : String
  PortRangeMin : Int
  PortRangeMax : Int
  CIDR : String
  DestSecuritygroupID : String
  Description : String
  deriving DecidableEq, Repr

/-- The record `gocmcapiv2.SecurityGroup`, with the fields the source reads. -/
structure SecurityGroup where
  ID : String
  Name : String
  Description : String
  Stateful : Bool
  Rules : List SecurityGroupRule
  deriving DecidableEq, Repr

/-- The parameter map of `SecurityGroup.CreateRule`. -/
structure RuleParams where
  ether_type : String
  direction : String
  protocol : String
  port_range_min : Int
  port_range_max : Int
  cidr : String
  dest_securitygroup_id : String
  description : String
  deriving DecidableEq, Repr

/-- The map literal passed to `CreateRule`, built from one `rawRuleMap`. -/
def ruleParams (rawRuleMap : RuleMap) : RuleParams :=
  { ether_type := rawRuleMap.ether_type
    direction := rawRuleMap.direction
    protocol := rawRuleMap.protocol
    port_range_min := rawRuleMap.port_range_min
    port_range_max := rawRuleMap.port_range_max
    cidr := rawRuleMap.cidr
    dest_securitygroup_id := rawRuleMap.dest_securitygroup_id
    description := rawRuleMap.description }

/-- The parameter map of `SecurityGroup.Create` (with `default_rules`) and of
`SecurityGroup.Update` (without it). -/
structure SecurityGroupParams where
  name : String
  description : String
  stateful : Bool
  default_rules : Option String
  deriving DecidableEq, Repr

/-- The accessor calls of the security group resource. -/
inductive SGCall where
  | create (params : SecurityGroupParams)
  | get (id : String)
  | update (id : String) (params : SecurityGroupParams)
  | deleteRule (rule_id : String)
  | createRule (group_id : String) (params : RuleParams)
  deriving DecidableEq, Repr

/-- The accessor `client.SecurityGroup`, over an arbitrary remote state `σ`. -/
structure SecurityGroupClient (σ : Type) where
  Create : SecurityGroupParams → σ → (SecurityGroup × Option ApiError) × σ
  Get : String → σ → (SecurityGroup × Option ApiError) × σ
  Update : String → SecurityGroupParams → σ → (Unit × Option ApiError) × σ
  DeleteRule : String → σ → (Unit × Option ApiError) × σ
  CreateRule : String → RuleParams → σ → (Unit × Option ApiError) × σ

/-- The `schema.ResourceData` of a security group: `id` is `d.Id()`, the next four fields are
what `d.Get` returns, `ruleOld` is the old value of `d.GetChange("rule")` and `changed` is
`d.HasChange`. -/
structure SecurityGroupData where
  id : String
  name : String
  description : String
  stateful : Bool
  rule : List RuleMap
  ruleOld : List RuleMap
  changed : String → Bool

/-- The method `d.HasChange(key)`. -/
def SecurityGroupData.HasChange (d : SecurityGroupData) (key : String) : Bool :=
  d.changed key

/-- The errors returned by the security group operations, one constructor per `fmt.Errorf`. -/
inductive SGError where
  /-- Message `Invalid rule: %s` -/
  | invalidRule (err : RuleError)
  /-- Message `Error creating Security Group: %s` -/
  | creating (err : ApiError)
  /-- Message `Error receiving Security Group %s: %v` -/
  | receiving (id : String) (err : ApiError)
  /-- Message `Error creating Security Group Rule index %d rule: %s` -/
  | creatingRuleIndex (index : Nat) (err : ApiError)
  /-- Message `Error updating Security Group: %s` -/
  | updating (err : ApiError)
  /-- Message `Error removing rule %s from security group %s: %s` -/
  | removingRule (rule_id : String) (id : String) (err : ApiError)
  /-- Message `Error creating Security Group Rule %v: %v` -/
  | creatingRule (rawRule : RuleMap) (err : ApiError)
  deriving DecidableEq, Repr

/-- Result of a security group operation: the returned error (`none` is `nil`), the resource
data as the operation leaves it, and the world. -/
structure SGResult (σ : Type) where
  err : Option SGError
  d : SecurityGroupData
  world : World σ SGCall

/-- Function `convertSecurityGroupRules`: the maps stored under `rule` by Read.  The map literal
has no `description` key, so that field of the stored element is the zero value. -/
def convertSecurityGroupRules (rules : List SecurityGroupRule) : List RuleMap :=
  rules.map fun rule =>
    { id := rule.ID
      protocol := rule.Protocol
      direction := rule.Direction
      cidr := rule.CIDR
      dest_securitygroup_id := rule.DestSecuritygroupID
      ether_type := rule.EtherType
      port_range_max := rule.PortRangeMax
      port_range_min := rule.PortRangeMin
      description := "" }

/-- Function `resourceSecurityGroupRead`. -/
def resourceSecurityGroupRead {σ : Type} (client : SecurityGroupClient σ)
    (d : SecurityGroupData) (w : World σ SGCall) : SGResult σ :=
  let id := d.id
  let r := w.invoke (SGCall.get id) (client.Get id)
  let sg := r.1.1
  match r.1.2 with
  | some err => { err := some (SGError.receiving d.id err), d := d, world := r.2 }
  | none =>
    { err := none
      d := { d with name := sg.Name, description := sg.Description, stateful := sg.Stateful,
                    rule := convertSecurityGroupRules sg.Rules }
      world := r.2 }

/-- The loop `for _, rule := range sg.Rules { client.SecurityGroup.DeleteRule(rule.ID) }` of
Create; the result of each call is discarded. -/
def deleteDefaultRules {σ : Type} (client : SecurityGroupClient σ) :
    List SecurityGroupRule → World σ SGCall → World σ SGCall
  | [], w => w
  | rule :: rest, w =>
    let r := w.invoke (SGCall.deleteRule rule.ID) (client.DeleteRule rule.ID)
    deleteDefaultRules client rest r.2

/-- The loop `for i, rawRule := range rawRules` of Create, started at position `i`. -/
def createDeclaredRules {σ : Type} (client : SecurityGroupClient σ) (groupID : String) :
    Nat → List RuleMap → World σ SGCall → Option SGError × World σ SGCall
  | _, [], w => (none, w)
  | i, rawRuleMap :: rest, w =>
    let params := ruleParams rawRuleMap
    let r := w.invoke (SGCall.createRule groupID params) (client.CreateRule groupID params)
    match r.1.2 with
    | some err => (some (SGError.creatingRuleIndex (i + 1) err), r.2)
    | none => createDeclaredRules client groupID (i + 1) rest r.2

/-- Function `resourceSecurityGroupCreate`. -/
def resourceSecurityGroupCreate {σ : Type} (client : SecurityGroupClient σ)
    (d : SecurityGroupData) (w : World σ SGCall) : SGResult σ :=
  match checkRuleErrors d.rule with
  | some err => { err := some (SGError.invalidRule err), d := d, world := w }
  | none =>
    let params : SecurityGroupParams :=
      { name := d.name, description := d.description, stateful := d.stateful,
        default_rules := some "false" }
    let r1 := w.invoke (SGCall.create params) (client.Create params)
    let group := r1.1.1
    match r1.1.2 with
    | some err => { err := some (SGError.creating err), d := d, world := r1.2 }
    | none =>
      let d1 := { d with id := group.ID }
      let r2 := r1.2.invoke (SGCall.get d1.id) (client.Get d1.id)
      let sg := r2.1.1
      match r2.1.2 with
      | some err => { err := some (SGError.receiving d1.id err), d := d1, world := r2.2 }
      | none =>
        let w3 := deleteDefaultRules client sg.Rules r2.2
        let r4 := createDeclaredRules client group.ID 0 d1.rule w3
        match r4.1 with
        | some err => { err := some err, d := d1, world := r4.2 }
        | none => resourceSecurityGroupRead client d1 r4.2

/-- The loop `for _, rawRule := range rulesToRemove.List()` of Update: a `NotFound` failure is
skipped (`continue`), any other failure is returned. -/
def removeRules {σ : Type} (client : SecurityGroupClient σ) (id : String) :
    List RuleMap → World σ SGCall → Option SGError × World σ SGCall
  | [], w => (none, w)
  | rawRuleMap :: rest, w =>
    let rule_id := rawRuleMap.id
    let r := w.invoke (SGCall.deleteRule rule_id) (client.DeleteRule rule_id)
    match r.1.2 with
    | some err =>
      if err.isNotFound then removeRules client id rest r.2
      else (some (SGError.removingRule rule_id id err), r.2)
    | none => removeRules client id rest r.2

/-- The loop `for _, rawRule := range rulesToAdd.List()` of Update. -/
def addRules {σ : Type} (client : SecurityGroupClient σ) (id : String) :
    List RuleMap → World σ SGCall → Option SGError × World σ SGCall
  | [], w => (none, w)
  | rawRuleMap :: rest, w =>
    let params := ruleParams rawRuleMap
    let r := w.invoke (SGCall.createRule id params) (client.CreateRule id params)
    match r.1.2 with
    | some err => (some (SGError.creatingRule rawRuleMap err), r.2)
    | none => addRules client id rest r.2

/-- The block `if d.HasChange("rule") { ... }` of Update, given the two lists
`rulesToRemove.List()` and `rulesToAdd.List()`. -/
def reconcileRules {σ : Type} (client : SecurityGroupClient σ) (id : String)
    (rulesToRemove rulesToAdd : List RuleMap) (w : World σ SGCall) :
    Option SGError × World σ SGCall :=
  let r1 := removeRules client id rulesToRemove w
  match r1.1 with
  | some err => (some err, r1.2)
  | none => addRules client id rulesToAdd r1.2

/-- The first block of `resourceSecurityGroupUpdate`: the accessor Update, issued when
`name`, `description` or `stateful` changed.  The first component is the `err` of that block. -/
def updateGroupFields {σ : Type} (client : SecurityGroupClient σ) (d : SecurityGroupData)
    (w : World σ SGCall) : Option ApiError × World σ SGCall :=
  if d.HasChange "name" || d.HasChange "description" || d.HasChange "stateful" then
    let params : SecurityGroupParams :=
      { name := d.name, description := d.description, stateful := d.stateful,
        default_rules := none }
    let r := w.invoke (SGCall.update d.id params) (client.Update d.id params)
    (r.1.2, r.2)
  else (none, w)

/-- The second block of `resourceSecurityGroupUpdate`: the rule reconciliation, run when `rule`
changed.  The helper `getDiffSet` lives in another file of the package; it is a parameter here,
applied to the old and new value of `d.GetChange("rule")`. -/
def updateGroupRules {σ : Type}
    (getDiffSet : List RuleMap → List RuleMap → List RuleMap × List RuleMap)
    (client : SecurityGroupClient σ) (d : SecurityGroupData) (w : World σ SGCall) :
    Option SGError × World σ SGCall :=
  if d.HasChange "rule" then
    let diff := getDiffSet d.ruleOld d.rule
    reconcileRules client d.id diff.1 diff.2 w
  else (none, w)

/-- Function `resourceSecurityGroupUpdate`: the two blocks, each returning on its first error, then
Read. -/
def resourceSecurityGroupUpdate {σ : Type}
    (getDiffSet : List RuleMap → List RuleMap → List RuleMap × List RuleMap)
    (client : SecurityGroupClient σ) (d : SecurityGroupData) (w : World σ SGCall) :
    SGResult σ :=
  let r1 := updateGroupFields client d w
  match r1.1 with
  | some err => { err := some (SGError.updating err), d := d, world := r1.2 }
  | none =>
    let r2 := updateGroupRules getDiffSet client d r1.2
    match r2.1 with
    | some err => { err := some err, d := d, world := r2.2 }
    | none => resourceSecurityGroupRead client d r2.2

/-! ## Set reconciler -/

/-- Remove from `rules` the first element that is structurally equal to `key`, that is, whose
user-settable fields (every field but the identity) are those of `key`. -/
def eraseStructural (key : RuleParams) : List RuleMap → List RuleMap
  | [] => []
  | r :: rest => if ruleParams r = key then rest else r :: eraseStructural key rest

/-- Multiset difference under structural equality: `xs` with, for every element of `ys`, one
structurally equal element removed (when there is one).  Duplicates are kept apart. -/
def structuralDiff (xs ys : List RuleMap) : List RuleMap :=
  ys.foldl (fun acc y => eraseStructural (ruleParams y) acc) xs

/-- Modelled from the spec: `getDiffSet`, which is defined in a file of the package that is not
among the sources.  The Set Reconciler builds the structural-equality multiset of the observed
items `o` and of the desired items `n`, ignoring identity and keeping duplicates as distinct
entries; the items present in observed but structurally absent from desired are `toRemove`, the
items present in desired but structurally absent from observed are `toAdd`. -/
def getDiffSet (o n : List RuleMap) : List RuleMap × List RuleMap :=
  (structuralDiff o n, structuralDiff n o)

/-! ## Schedule time -/

/-- Split a list of characters at every occurrence of `sep`: the pieces between the separators,
in order (`count sep + 1` of them). -/
def splitChars (sep : Char) : List Char → List (List Char)
  | [] => [[]]
  | c :: cs =>
    if c = sep then [] :: splitChars sep cs
    else
      match splitChars sep cs with
      | [] => [[c]]
      | p :: ps => (c :: p) :: ps

/-- The call `strings.Split(s, ":")` of the Go standard library, for a one-character
separator. -/
def strings.Split (s : String) (sep : Char) : List String :=
  (splitChars sep s.data).map String.mk

/-- The prologue shared by Create and Update of both auto-backup resources:
`parts := strings.Split(scheduleTime, ":")`, then `hour := parts[0]`, `minute := parts[1]`
unless `len(parts) != 2`.  `none` is the branch that returns the format error. -/
def splitScheduleTime (scheduleTime : String) : Option (String × String) :=
  let parts := strings.Split scheduleTime ':'
  if parts.length ≠ 2 then none
  else
    match parts with
    | [hour, minute] => some (hour, minute)
    | _ => none

/-! ## Auto-backup resources (database and volume) -/

/-- The record returned by `DatabaseAutoBackup.Get` / `VolumeAutoBackup.Get`, with the fields
the source reads. -/
structure AutoBackup where
  ID : String
  Name : String
  Time : String
  Interval : Int
  MaxKeep : Int
  IsFullBackup : Bool
  Created : String
  LastRun : String
  VolumeSize : Int
  deriving DecidableEq, Repr

/-- The parameter map of `DatabaseAutoBackup.Create`; `DatabaseAutoBackup.Update` sends the
same keys without `instance_id`. -/
structure DatabaseAutoBackupParams where
  name : String
  instance_id : Option String
  hour : String
  minute : String
  interval : Int
  max_keep : Int
  is_full_backup : Bool
  deriving DecidableEq, Repr

/-- The parameter map of `VolumeAutoBackup.Create`; `VolumeAutoBackup.Update` sends the same
keys without `volume_id`. -/
structure VolumeAutoBackupParams where
  name : String
  volume_id : Option String
  hour : String
  minute : String
  interval : Int
  max_keep : Int
  incremental : Bool
  deriving DecidableEq, Repr

/-- The accessor calls of an auto-backup resource whose parameter map is `π`. -/
inductive BackupCall (π : Type) where
  | create (params : π)
  | get (id : String)
  | update (id : String) (params : π)
  deriving DecidableEq, Repr

/-- The accessor `client.DatabaseAutoBackup` (with `π := DatabaseAutoBackupParams`) or
`client.VolumeAutoBackup` (with `π := VolumeAutoBackupParams`). -/
structure AutoBackupClient (σ π : Type) where
  Create : π → σ → (AutoBackup × Option ApiError) × σ
  Get : String → σ → (AutoBackup × Option ApiError) × σ
  Update : String → π → σ → (Unit × Option ApiError) × σ

/-- The `schema.ResourceData` of an auto-backup resource.  `target_id` is `instance_id` for the
database kind and `volume_id` for the volume kind; `changed` is `d.HasChange`. -/
structure AutoBackupData where
  id : String
  name : String
  target_id : String
  schedule_time : String
  interval : Int
  max_keep : Int
  incremental : Bool
  created_at : String
  last_run : String
  volume_size : Int
  changed : String → Bool

/-- The method `d.HasChange(key)`. -/
def AutoBackupData.HasChange (d : AutoBackupData) (key : String) : Bool :=
  d.changed key

/-- The errors returned by the auto-backup operations. -/
inductive BackupError where
  /-- Message `invalid schedule time [%s], correct format is HH:mm (24-h format), eg: 19:05` -/
  | invalidScheduleTime (scheduleTime : String)
  /-- Message `error creating Database AutoBackup: %s` (or `Volume AutoBackup`) -/
  | creating (err : ApiError)
  /-- Message `error retrieving Database AutoBackup %s: %v` (or `Volume AutoBackup`) -/
  | retrieving (id : String) (err : ApiError)
  /-- Message `error when update Database AutoBackup [%s]: %v` (or `Volume AutoBackup`) -/
  | updating (id : String) (err : ApiError)
  deriving DecidableEq, Repr

/-- Result of an auto-backup operation. -/
structure BackupResult (σ π : Type) where
  err : Option BackupError
  d : AutoBackupData
  world : World σ (BackupCall π)

/-- The read `resourceDatabaseAutoBackupRead` / `resourceVolumeAutoBackupRead` (the two bodies
differ only in the accessor and the error text). -/
def resourceAutoBackupRead {σ π : Type} (client : AutoBackupClient σ π)
    (d : AutoBackupData) (w : World σ (BackupCall π)) : BackupResult σ π :=
  let r := w.invoke (BackupCall.get d.id) (client.Get d.id)
  let autobackup := r.1.1
  match r.1.2 with
  | some err => { err := some (BackupError.retrieving d.id err), d := d, world := r.2 }
  | none =>
    { err := none
      d := { d with name := autobackup.Name, schedule_time := autobackup.Time,
                    interval := autobackup.Interval, max_keep := autobackup.MaxKeep,
                    incremental := !autobackup.IsFullBackup, created_at := autobackup.Created,
                    last_run := autobackup.LastRun, volume_size := autobackup.VolumeSize }
      world := r.2 }

/-- The body shared by `resourceDatabaseAutoBackupCreate` and `resourceVolumeAutoBackupCreate`;
`mkParams hour minute` is the map literal passed to the accessor. -/
def resourceAutoBackupCreate {σ π : Type} (client : AutoBackupClient σ π)
    (mkParams : String → String → π)
    (d : AutoBackupData) (w : World σ (BackupCall π)) : BackupResult σ π :=
  let scheduleTime := d.schedule_time
  match splitScheduleTime scheduleTime with
  | none => { err := some (BackupError.invalidScheduleTime scheduleTime), d := d, world := w }
  | some (hour, minute) =>
    let params := mkParams hour minute
    let r := w.invoke (BackupCall.create params) (client.Create params)
    let vol := r.1.1
    match r.1.2 with
    | some err => { err := some (BackupError.creating err), d := d, world := r.2 }
    | none => resourceAutoBackupRead client { d with id := vol.ID } r.2

/-- The body shared by `resourceDatabaseAutoBackupUpdate` and `resourceVolumeAutoBackupUpdate`. -/
def resourceAutoBackupUpdate {σ π : Type} (client : AutoBackupClient σ π)
    (mkParams : String → String → π)
    (d : AutoBackupData) (w : World σ (BackupCall π)) : BackupResult σ π :=
  let id := d.id
  let scheduleTime := d.schedule_time
  match splitScheduleTime scheduleTime with
  | none => { err := some (BackupError.invalidScheduleTime scheduleTime), d := d, world := w }
  | some (hour, minute) =>
    if d.HasChange "name" || d.HasChange "schedule_time" || d.HasChange "interval"
        || d.HasChange "max_keep" || d.HasChange "incremental" then
      let params := mkParams hour minute
      let r := w.invoke (BackupCall.update id params) (client.Update id params)
      match r.1.2 with
      | some err => { err := some (BackupError.updating id err), d := d, world := r.2 }
      | none => resourceAutoBackupRead client d r.2
    else resourceAutoBackupRead client d w

/-- The map literal of `resourceDatabaseAutoBackupCreate`. -/
def databaseCreateParams (d : AutoBackupData) (hour minute : String) :
    DatabaseAutoBackupParams :=
  { name := d.name, instance_id := some d.target_id, hour := hour, minute := minute,
    interval := d.interval, max_keep := d.max_keep, is_full_backup := !d.incremental }

/-- The map literal of `resourceDatabaseAutoBackupUpdate`. -/
def databaseUpdateParams (d : AutoBackupData) (hour minute : String) :
    DatabaseAutoBackupParams :=
  { name := d.name, instance_id := none, hour := hour, minute := minute,
    interval := d.interval, max_keep := d.max_keep, is_full_backup := !d.incremental }

/-- The map literal of `resourceVolumeAutoBackupCreate`. -/
def volumeCreateParams (d : AutoBackupData) (hour minute : String) : VolumeAutoBackupParams :=
  { name := d.name, volume_id := some d.target_id, hour := hour, minute := minute,
    interval := d.interval, max_keep := d.max_keep, incremental := d.incremental }

/-- The map literal of `resourceVolumeAutoBackupUpdate`. -/
def volumeUpdateParams (d : AutoBackupData) (hour minute : String) : VolumeAutoBackupParams :=
  { name := d.name, volume_id := none, hour := hour, minute := minute,
    interval := d.interval, max_keep := d.max_keep, incremental := d.incremental }

/-- Function `resourceDatabaseAutoBackupCreate`. -/
def resourceDatabaseAutoBackupCreate {σ : Type}
    (client : AutoBackupClient σ DatabaseAutoBackupParams) (d : AutoBackupData)
    (w : World σ (BackupCall DatabaseAutoBackupParams)) :
    BackupResult σ DatabaseAutoBackupParams :=
  resourceAutoBackupCreate client (databaseCreateParams d) d w

/-- Function `resourceDatabaseAutoBackupUpdate`. -/
def resourceDatabaseAutoBackupUpdate {σ : Type}
    (client : AutoBackupClient σ DatabaseAutoBackupParams) (d : AutoBackupData)
    (w : World σ (BackupCall DatabaseAutoBackupParams)) :
    BackupResult σ DatabaseAutoBackupParams :=
  resourceAutoBackupUpdate client (databaseUpdateParams d) d w

/-- Function `resourceVolumeAutoBackupCreate`. -/
def resourceVolumeAutoBackupCreate {σ : Type}
    (client : AutoBackupClient σ VolumeAutoBackupParams) (d : AutoBackupData)
    (w : World σ (BackupCall VolumeAutoBackupParams)) :
    BackupResult σ VolumeAutoBackupParams :=
  resourceAutoBackupCreate client (volumeCreateParams d) d w

/-- Function `resourceVolumeAutoBackupUpdate`. -/
def resourceVolumeAutoBackupUpdate {σ : Type}
    (client : AutoBackupClient σ VolumeAutoBackupParams) (d : AutoBackupData)
    (w : World σ (BackupCall VolumeAutoBackupParams)) :
    BackupResult σ VolumeAutoBackupParams :=
  resourceAutoBackupUpdate client (volumeUpdateParams d) d w

/-! ## Autoscaling AZ policy resource -/

/-- The record returned by `AutoScalingPolicy.Get`: `Name` and the names of
`Spec.Properties.Zones`. -/
structure AutoScalingPolicy where
  ID : String
  Name : String
  Zones : List String
  deriving DecidableEq, Repr

/-- The accessor calls of `resourceAutoScalingAZPolicyRead` and
`resourceAutoScalingAZPolicyUpdate`. -/
inductive AZPolicyCall where
  | get (id : String)
  | updateAZPolicy (id : String) (name : String)
  deriving DecidableEq, Repr

/-- The accessor `client.AutoScalingPolicy`, restricted to the two methods used by Read and
Update. -/
structure AutoScalingPolicyClient (σ : Type) where
  Get : String → σ → (AutoScalingPolicy × Option ApiError) × σ
  UpdateAZPolicy : String → String → σ → (Unit × Option ApiError) × σ

/-- The `schema.ResourceData` of an AZ policy. -/
structure AZPolicyData where
  id : String
  name : String
  zones : List String
  changed : String → Bool

/-- The method `d.HasChange(key)`. -/
def AZPolicyData.HasChange (d : AZPolicyData) (key : String) : Bool :=
  d.changed key

/-- The errors returned by the AZ policy Read and Update. -/
inductive AZPolicyError where
  /-- Message `error retrieving az policy %s: %v` -/
  | retrieving (id : String) (err : ApiError)
  /-- Message `error when update az policy [%s]: %v` -/
  | updating (id : String) (err : ApiError)
  deriving DecidableEq, Repr

/-- Result of an AZ policy operation. -/
structure AZPolicyResult (σ : Type) where
  err : Option AZPolicyError
  d : AZPolicyData
  world : World σ AZPolicyCall

/-- Function `resourceAutoScalingAZPolicyRead`. -/
def resourceAutoScalingAZPolicyRead {σ : Type} (client : AutoScalingPolicyClient σ)
    (d : AZPolicyData) (w : World σ AZPolicyCall) : AZPolicyResult σ :=
  let r := w.invoke (AZPolicyCall.get d.id) (client.Get d.id)
  let policy := r.1.1
  match r.1.2 with
  | some err => { err := some (AZPolicyError.retrieving d.id err), d := d, world := r.2 }
  | none =>
    let zoneNames := policy.Zones
    { err := none, d := { d with name := policy.Name, zones := zoneNames }, world := r.2 }

/-- Function `resourceAutoScalingAZPolicyUpdate`. -/
def resourceAutoScalingAZPolicyUpdate {σ : Type} (client : AutoScalingPolicyClient σ)
    (d : AZPolicyData) (w : World σ AZPolicyCall) : AZPolicyResult σ :=
  if d.HasChange "name" then
    let r := w.invoke (AZPolicyCall.updateAZPolicy d.id d.name) (client.UpdateAZPolicy d.id d.name)
    match r.1.2 with
    | some err => { err := some (AZPolicyError.updating d.id err), d := d, world := r.2 }
    | none => resourceAutoScalingAZPolicyRead client d r.2
  else resourceAutoScalingAZPolicyRead client d w

/-! ## Data sources: server and subnet -/

/-- The function `strings.Contains(s, substr)` of the Go standard library. -/
def strings.Contains (s substr : String) : Bool :=
  decide (substr.data <:+: s.data)

/-- A value of Go type `interface{}` as decoded from JSON: `nil`, a boolean, a number, a string,
`[]interface{}` or `map[string]interface{}`.  The payload of a number is never inspected. -/
inductive Value where
  | null
  | bool (b : Bool)
  | number (n : Int)
  | string (s : String)
  | list (items : List Value)
  | map (entries : List (String × Value))

/-- The two steps `intermap := inter.(map[string]interface{})` and
`ip := intermap["addr"].(string)`; `none` when a type assertion fails (the goroutine panics). -/
def addrOf : Value → Option String
  | Value.map entries =>
    match entries.lookup "addr" with
    | some (Value.string ip) => some ip
    | _ => none
  | _ => none

/-- The inner loop `for _, inter := range value.([]interface{})`, threading `foundIp`. -/
def scanInterfaces (v : String) : List Value → Bool → Option Bool
  | [], foundIp => some foundIp
  | inter :: rest, foundIp =>
    match addrOf inter with
    | none => none
    | some ip => scanInterfaces v rest (if ip = v then true else foundIp)

/-- The outer loop `for _, value := range m`, threading `foundIp`; `none` when
`value.([]interface{})` or an assertion of the inner loop fails. -/
def scanNetworks (v : String) : List (String × Value) → Bool → Option Bool
  | [], foundIp => some foundIp
  | entry :: rest, foundIp =>
    match entry.2 with
    | Value.list items =>
      match scanInterfaces v items foundIp with
      | none => none
      | some found => scanNetworks v rest found
    | _ => none

/-- The `Flavor` field of `gocmcapiv2.Server`. -/
structure Flavor where
  CPU : Int
  RAM : Int
  OriginalName : String
  deriving DecidableEq, Repr

/-- The record `gocmcapiv2.Server`, with the fields the source reads. -/
structure Server where
  ID : String
  Name : String
  Status : String
  VMState : String
  Addresses : Value
  Flavor : Flavor
  Created : String

/-- The `schema.ResourceData` of the server data source: the identity, the six query fields
and the computed attributes. -/
structure ServerData where
  id : String
  server_id : String
  ip_address : String
  name : String
  status : String
  vm_state : String
  zone : String
  created_at : String
  cpu : Int
  ram : Int
  flavor_name : String
  deriving DecidableEq, Repr

/-- The parameter map of `Server.List`. -/
structure ServerListParams where
  name : String
  status : String
  vm_state : String
  zone : String
  deriving DecidableEq, Repr

/-- The accessor calls of the server data source. -/
inductive ServerCall where
  | get (id : String) (flag : Bool)
  | list (params : ServerListParams)
  deriving DecidableEq, Repr

/-- The accessor `client.Server`, restricted to `Get` and `List`. -/
structure ServerClient (σ : Type) where
  Get : String → Bool → σ → (Server × Option ApiError) × σ
  List : ServerListParams → σ → (List Server × Option ApiError) × σ

/-- The errors returned by the two data sources. -/
inductive QueryError where
  /-- Message `unable to retrieve server [%s]: %s` / `unable to retrieve subnet [%s]: %s` -/
  | unableToRetrieve (id : String) (err : ApiError)
  /-- Message `error when get servers %v` / `error when get subnets %v` -/
  | listing (err : ApiError)
  /-- Message `your query returned no results. Please change your search criteria and try again` -/
  | noResults
  /-- Message `your query returned more than one result. Please try a more specific search
  criteria` -/
  | moreThanOneResult
  deriving DecidableEq, Repr

/-- Result of `dataSourceServerRead`. -/
structure ServerResult (σ : Type) where
  err : Option QueryError
  d : ServerData
  world : World σ ServerCall

/-- Body of the loop `for _, server := range allServers`: `some true` when the server is
appended to `filteredServers`, `some false` when the iteration ends in `continue`, `none` when
a type assertion on `server.Addresses` fails.  `ToLower` is `strings.ToLower`. -/
def serverPasses (ToLower : String → String) (d : ServerData) (server : Server) :
    Option Bool :=
  if d.name ≠ "" ∧ ToLower server.Name ≠ ToLower d.name then some false
  else if d.status ≠ "" ∧
      ¬ strings.Contains (ToLower server.Status) (ToLower d.status) = true then some false
  else if d.vm_state ≠ "" ∧
      ¬ strings.Contains (ToLower server.VMState) (ToLower d.vm_state) = true then some false
  else if d.ip_address ≠ "" then
    match server.Addresses with
    | Value.list _ => some true
    | Value.map m =>
      match scanNetworks d.ip_address m false with
      | none => none
      | some foundIp => some foundIp
    | _ => some true
  else some true

/-- The loop `for _, server := range allServers` with its accumulator `filteredServers`. -/
def filterServers (ToLower : String → String) (d : ServerData) :
    List Server → List Server → Option (List Server)
  | [], filteredServers => some filteredServers
  | server :: rest, filteredServers =>
    match serverPasses ToLower d server with
    | none => none
    | some true => filterServers ToLower d rest (filteredServers ++ [server])
    | some false => filterServers ToLower d rest filteredServers

/-- Function `dataSourceComputeServerAttributes`.  Every `d.Set` writes a key of the schema and
returns `nil`, so `errors.Join` is `nil`; the second `d.Set("status", ...)` overwrites the
first. -/
def dataSourceComputeServerAttributes {σ : Type} (ToLower : String → String)
    (d : ServerData) (server : Server) (w : World σ ServerCall) : ServerResult σ :=
  { err := none
    d := { d with id := server.ID, name := server.Name, vm_state := ToLower server.VMState,
                  status := ToLower server.Status, cpu := server.Flavor.CPU,
                  ram := Int.tdiv server.Flavor.RAM 1024,
                  flavor_name := server.Flavor.OriginalName, created_at := server.Created }
    world := w }

/-- The part of `dataSourceServerRead` after the candidates `allServers` have been gathered.
`none` when the goroutine panics. -/
def dataSourceServerSelect {σ : Type} (ToLower : String → String) (d : ServerData)
    (allServers : List Server) (w : World σ ServerCall) : Option (ServerResult σ) :=
  let filtered : Option (List Server) :=
    if allServers.length > 0 then filterServers ToLower d allServers [] else some allServers
  match filtered with
  | none => none
  | some allServers =>
    if allServers.length < 1 then some { err := some QueryError.noResults, d := d, world := w }
    else if allServers.length > 1 then
      some { err := some QueryError.moreThanOneResult, d := d, world := w }
    else
      match allServers with
      | server :: _ => some (dataSourceComputeServerAttributes ToLower d server w)
      | [] => none

/-- The first statement of `dataSourceServerRead`, which gathers the candidates `allServers`:
by `Server.Get` when `server_id` is set, by `Server.List` otherwise.  `Except.error` is an early
`return`; `Except.ok` hands the candidates to the rest of the function.  When `Get` fails with
an error other than `NotFound` no branch returns, and the value `Get` returned is appended. -/
def gatherServers {σ : Type} (client : ServerClient σ) (d : ServerData)
    (w : World σ ServerCall) : Except (ServerResult σ) (List Server × World σ ServerCall) :=
  let serverId := d.server_id
  if serverId ≠ "" then
    let r := w.invoke (ServerCall.get serverId false) (client.Get serverId false)
    let server := r.1.1
    match r.1.2 with
    | some err =>
      if err.isNotFound then
        Except.error { err := some (QueryError.unableToRetrieve serverId err),
                       d := { d with id := "" }, world := r.2 }
      else Except.ok ([server], r.2)
    | none => Except.ok ([server], r.2)
  else
    let params : ServerListParams :=
      { name := d.name, status := d.status, vm_state := d.vm_state, zone := d.zone }
    let r := w.invoke (ServerCall.list params) (client.List params)
    let servers := r.1.1
    match r.1.2 with
    | some err => Except.error { err := some (QueryError.listing err), d := d, world := r.2 }
    | none => Except.ok (servers, r.2)

/-- Function `dataSourceServerRead`; `none` when the goroutine panics. -/
def dataSourceServerRead {σ : Type} (ToLower : String → String) (client : ServerClient σ)
    (d : ServerData) (w : World σ ServerCall) : Option (ServerResult σ) :=
  match gatherServers client d w with
  | Except.error r => some r
  | Except.ok (allServers, w1) => dataSourceServerSelect ToLower d allServers w1

/-- The record `gocmcapiv2.Subnet`, with the fields the source reads. -/
structure Subnet where
  ID : String
  Name : String
  Cidr : String
  GatewayIP : String
  VpcID : String
  CreatedAt : String
  deriving DecidableEq, Repr

/-- The `schema.ResourceData` of the subnet data source. -/
structure SubnetData where
  id : String
  subnet_id : String
  vpc_id : String
  name : String
  cidr : String
  gateway_ip : String
  created_at : String
  deriving DecidableEq, Repr

/-- The accessor calls of the subnet data source; `list` carries the `vpc_id` parameter. -/
inductive SubnetCall where
  | get (id : String)
  | list (vpc_id : String)
  deriving DecidableEq, Repr

/-- The accessor `client.Subnet`, restricted to `Get` and `List`. -/
structure SubnetClient (σ : Type) where
  Get : String → σ → (Subnet × Option ApiError) × σ
  List : String → σ → (List Subnet × Option ApiError) × σ

/-- Result of `dataSourceSubnetRead`. -/
structure SubnetResult (σ : Type) where
  err : Option QueryError
  d : SubnetData
  world : World σ SubnetCall

/-- Body of the loop `for _, subnet := range allSubnets`: `true` when the subnet is appended to
`filteredSubnets`, `false` when the iteration ends in `continue`. -/
def subnetPasses (ToLower : String → String) (d : SubnetData) (subnet : Subnet) : Bool :=
  if d.cidr ≠ "" ∧ d.cidr ≠ subnet.Cidr then false
  else if d.gateway_ip ≠ "" ∧ subnet.GatewayIP ≠ d.gateway_ip then false
  else if d.name ≠ "" ∧ ToLower subnet.Name ≠ ToLower d.name then false
  else true

/-- The loop `for _, subnet := range allSubnets` with its accumulator `filteredSubnets`. -/
def filterSubnets (ToLower : String → String) (d : SubnetData) :
    List Subnet → List Subnet → List Subnet
  | [], filteredSubnets => filteredSubnets
  | subnet :: rest, filteredSubnets =>
    if subnetPasses ToLower d subnet then
      filterSubnets ToLower d rest (filteredSubnets ++ [subnet])
    else filterSubnets ToLower d rest filteredSubnets

/-- Function `dataSourceComputeSubnetAttributes`.  Every `d.Set` writes a key of the schema and
returns `nil`, so `errors.Join` is `nil`. -/
def dataSourceComputeSubnetAttributes {σ : Type} (d : SubnetData) (subnet : Subnet)
    (w : World σ SubnetCall) : SubnetResult σ :=
  { err := none
    d := { d with id := subnet.ID, name := subnet.Name, cidr := subnet.Cidr,
                  gateway_ip := subnet.GatewayIP, vpc_id := subnet.VpcID,
                  created_at := subnet.CreatedAt }
    world := w }

/-- The part of `dataSourceSubnetRead` after the candidates `allSubnets` have been gathered.
`none` when the goroutine panics. -/
def dataSourceSubnetSelect {σ : Type} (ToLower : String → String) (d : SubnetData)
    (allSubnets : List Subnet) (w : World σ SubnetCall) : Option (SubnetResult σ) :=
  let allSubnets : List Subnet :=
    if allSubnets.length > 0 then filterSubnets ToLower d allSubnets [] else allSubnets
  if allSubnets.length < 1 then some { err := some QueryError.noResults, d := d, world := w }
  else if allSubnets.length > 1 then
    some { err := some QueryError.moreThanOneResult, d := d, world := w }
  else
    match allSubnets with
    | subnet :: _ => some (dataSourceComputeSubnetAttributes d subnet w)
    | [] => none

/-- The first statement of `dataSourceSubnetRead`, which gathers the candidates `allSubnets`:
by `Subnet.Get` when `subnet_id` is set, by `Subnet.List` otherwise.  `Except.error` is an early
`return`; `Except.ok` hands the candidates to the rest of the function.  When `Get` fails with
an error other than `NotFound` no branch returns, and the value `Get` returned is appended. -/
def gatherSubnets {σ : Type} (client : SubnetClient σ) (d : SubnetData)
    (w : World σ SubnetCall) : Except (SubnetResult σ) (List Subnet × World σ SubnetCall) :=
  let subnetId := d.subnet_id
  if subnetId ≠ "" then
    let r := w.invoke (SubnetCall.get subnetId) (client.Get subnetId)
    let subnet := r.1.1
    match r.1.2 with
    | some err =>
      if err.isNotFound then
        Except.error { err := some (QueryError.unableToRetrieve subnetId err),
                       d := { d with id := "" }, world := r.2 }
      else Except.ok ([subnet], r.2)
    | none => Except.ok ([subnet], r.2)
  else
    let r := w.invoke (SubnetCall.list d.vpc_id) (client.List d.vpc_id)
    let subnets := r.1.1
    match r.1.2 with
    | some err => Except.error { err := some (QueryError.listing err), d := d, world := r.2 }
    | none => Except.ok (subnets, r.2)

/-- Function `dataSourceSubnetRead`; `none` when the goroutine panics. -/
def dataSourceSubnetRead {σ : Type} (ToLower : String → String) (client : SubnetClient σ)
    (d : SubnetData) (w : World σ SubnetCall) : Option (SubnetResult σ) :=
  match gatherSubnets client d w with
  | Except.error r => some r
  | Except.ok (allSubnets, w1) => dataSourceSubnetSelect ToLower d allSubnets w1

/-! ## Filter semantics of the data sources, as specified -/

/-- Whether the scan of an `Addresses` value completes without a failing type assertion: every
value of a map is a list, and every element of such a list is a map with a string under
`addr`.  A value that is not a map is never scanned. -/
def addressesWellFormed : Value → Bool
  | Value.map entries =>
    entries.all fun entry =>
      match entry.2 with
      | Value.list items => items.all fun inter => (addrOf inter).isSome
      | _ => false
  | _ => true

/-- Whether some address entry of a map-shaped `Addresses` value has `addr` equal to `v`. -/
def hasAddress (v : String) : Value → Bool
  | Value.map entries =>
    entries.any fun entry =>
      match entry.2 with
      | Value.list items => items.any fun inter => addrOf inter == some v
      | _ => false
  | _ => false

/-- Whether an `Addresses` value is a map. -/
def Value.isMap : Value → Bool
  | Value.map _ => true
  | _ => false

/-- The server filter in the words of the filter semantics: case-insensitive exact match on
the name, case-insensitive substring match on `status` and on `vm_state`; an empty filter value
matches every server. -/
def serverMatchesStated (ToLower : String → String) (d : ServerData) (server : Server) : Bool :=
  decide ((d.name = "" ∨ ToLower server.Name = ToLower d.name) ∧
    (d.status = "" ∨ (ToLower d.status).data <:+: (ToLower server.Status).data) ∧
    (d.vm_state = "" ∨ (ToLower d.vm_state).data <:+: (ToLower server.VMState).data))

/-- The subnet filter in the words of the filter semantics: exact match on the CIDR and on the
gateway address, case-insensitive exact match on the name; an empty filter value matches every
subnet. -/
def subnetMatchesStated (ToLower : String → String) (d : SubnetData) (subnet : Subnet) : Bool :=
  decide ((d.cidr = "" ∨ d.cidr = subnet.Cidr) ∧
    (d.gateway_ip = "" ∨ d.gateway_ip = subnet.GatewayIP) ∧
    (d.name = "" ∨ ToLower subnet.Name = ToLower d.name))

/-! ## Volume attachment resource -/

/-- One element of `volume.Attachments`, with the field the source reads. -/
structure VolumeAttachment where
  ServerID : String
  deriving DecidableEq, Repr

/-- The record returned by `Volume.Get`, with the fields the source reads. -/
structure Volume where
  ID : String
  Attachments : List VolumeAttachment
  deriving DecidableEq, Repr

/-- The record returned by `Server.GetVolumeAttachmentDetail`. -/
structure VolumeAttachmentDetail where
  ServerID : String
  DeleteOnTermination : Bool
  deriving DecidableEq, Repr

/-- The accessor calls of the volume attachment resource. -/
inductive AttachCall where
  | attach (volume_id : String) (server_id : String) (delete_on_termination : Bool)
  | detach (id : String) (server_id : String)
  | volumeGet (id : String)
  | getVolumeAttachmentDetail (server_id : String) (volume_id : String)
  deriving DecidableEq, Repr

/-- The accessors used by the volume attachment resource: `client.Volume.Attach`,
`client.Volume.Detach`, `client.Volume.Get` and `client.Server.GetVolumeAttachmentDetail`. -/
structure VolumeAttachmentClient (σ : Type) where
  Attach : String → String → Bool → σ → (Unit × Option ApiError) × σ
  Detach : String → String → σ → (Unit × Option ApiError) × σ
  VolumeGet : String → σ → (Volume × Option ApiError) × σ
  GetVolumeAttachmentDetail : String → String → σ → (VolumeAttachmentDetail × Option ApiError) × σ

/-- The `schema.ResourceData` of a volume attachment.  `delete_on_terminated` is the key Read
writes; `delete_on_termination` is the key Create reads. -/
structure AttachmentData where
  id : String
  server_id : String
  volume_id : String
  delete_on_termination : Bool
  delete_on_terminated : Bool
  deriving DecidableEq, Repr

/-- The errors returned by the volume attachment operations. -/
inductive AttachError where
  /-- Message `Error when attach Volume %s to Server %s: %s` -/
  | attaching (volume_id : String) (server_id : String) (err : ApiError)
  /-- Message `Error retrieving Volume Attachment %s: %v` -/
  | retrieving (id : String) (err : ApiError)
  /-- Message `[ERROR] Error detaching volume %s from server %s: %v` -/
  | detaching (id : String) (server_id : String) (err : ApiError)
  deriving DecidableEq, Repr

/-- Result of a volume attachment operation. -/
structure AttachResult (σ : Type) where
  err : Option AttachError
  d : AttachmentData
  world : World σ AttachCall

/-- What a `resource.StateRefreshFunc` returns: the record (`nil` is `none`), the status string
and the error. -/
structure RefreshResult where
  result : Option Volume
  state : String
  err : Option ApiError
  deriving DecidableEq, Repr

/-- The struct `resource.StateChangeConf` with the fields the source sets; the three durations
are in seconds. -/
structure StateChangeConf (σ : Type) where
  Pending : List String
  Target : List String
  Refresh : World σ AttachCall → RefreshResult × World σ AttachCall
  Timeout : Nat
  Delay : Nat
  MinTimeout : Nat
  NotFoundChecks : Nat

/-- The failures of a wait: the deadline passed while the status was still pending, a status
outside the pending and target sets was seen, the record stayed absent, or the refresh
failed. -/
inductive WaitError where
  | timeout (lastState : String)
  | unexpectedState (state : String)
  | notFound
  | refresh (err : ApiError)
  deriving DecidableEq, Repr

/-- The type of `(*resource.StateChangeConf).WaitForState`, a method of the plugin SDK: it
polls `Refresh` on the world and returns a record and an error.  The operations below take it
as a parameter. -/
abbrev Poller (σ : Type) : Type :=
  StateChangeConf σ → World σ AttachCall → (Option Volume × Option WaitError) × World σ AttachCall

/-- The loop `for _, attachment := range volume.Attachments` of the refresh function and the
`return` that follows it: the status reported for a volume. -/
def attachedState : List VolumeAttachment → String → String
  | [], _ => "Detached"
  | attachment :: rest, server_id =>
    if attachment.ServerID = server_id then "Attached" else attachedState rest server_id

/-- Function `volumeAttachedStateRefreshfunc`: the closure it returns, run on a world. -/
def volumeAttachedStateRefreshfunc {σ : Type} (client : VolumeAttachmentClient σ)
    (d : AttachmentData) (server_id : String) (w : World σ AttachCall) :
    RefreshResult × World σ AttachCall :=
  let r := w.invoke (AttachCall.volumeGet d.id) (client.VolumeGet d.id)
  let volume := r.1.1
  match r.1.2 with
  | some err => ({ result := none, state := "", err := some err }, r.2)
  | none =>
    ({ result := some volume, state := attachedState volume.Attachments server_id, err := none },
      r.2)

/-- The literal `stateConf` built by `waitUntilVolumeAttachedStateChanged`. -/
def attachedStateConf {σ : Type} (client : VolumeAttachmentClient σ) (d : AttachmentData)
    (server_id : String) (pendingStatus targetStatus : List String) : StateChangeConf σ :=
  { Pending := pendingStatus
    Target := targetStatus
    Refresh := volumeAttachedStateRefreshfunc client d server_id
    Timeout := 30
    Delay := 2
    MinTimeout := 2
    NotFoundChecks := 20 }

/-- Function `waitUntilVolumeAttachedStateChanged`: `stateConf.WaitForState()`. -/
def waitUntilVolumeAttachedStateChanged {σ : Type} (WaitForState : Poller σ)
    (client : VolumeAttachmentClient σ) (d : AttachmentData) (server_id : String)
    (pendingStatus targetStatus : List String) (w : World σ AttachCall) :
    (Option Volume × Option WaitError) × World σ AttachCall :=
  WaitForState (attachedStateConf client d server_id pendingStatus targetStatus) w

/-- Function `resourceVolumeAttachmentRead`. -/
def resourceVolumeAttachmentRead {σ : Type} (client : VolumeAttachmentClient σ)
    (d : AttachmentData) (w : World σ AttachCall) : AttachResult σ :=
  let volumeID := d.id
  let r := w.invoke (AttachCall.getVolumeAttachmentDetail d.server_id volumeID)
    (client.GetVolumeAttachmentDetail d.server_id volumeID)
  let vol := r.1.1
  match r.1.2 with
  | some err => { err := some (AttachError.retrieving d.id err), d := d, world := r.2 }
  | none =>
    { err := none
      d := { d with server_id := vol.ServerID, volume_id := volumeID,
                    delete_on_terminated := vol.DeleteOnTermination }
      world := r.2 }

/-- Function `resourceVolumeAttachmentCreate`.  The pair returned by the wait is discarded. -/
def resourceVolumeAttachmentCreate {σ : Type} (WaitForState : Poller σ)
    (client : VolumeAttachmentClient σ) (d : AttachmentData) (w : World σ AttachCall) :
    AttachResult σ :=
  let server_id := d.server_id
  let r := w.invoke (AttachCall.attach d.volume_id server_id d.delete_on_termination)
    (client.Attach d.volume_id server_id d.delete_on_termination)
  match r.1.2 with
  | some err =>
    { err := some (AttachError.attaching d.volume_id server_id err), d := d, world := r.2 }
  | none =>
    let d1 := { d with id := d.volume_id }
    let waited := waitUntilVolumeAttachedStateChanged WaitForState client d1 server_id
      ["", "Detached"] ["Attached"] r.2
    resourceVolumeAttachmentRead client d1 waited.2

/-- Function `resourceVolumeAttachmentDelete`.  The pair returned by the wait is discarded. -/
def resourceVolumeAttachmentDelete {σ : Type} (WaitForState : Poller σ)
    (client : VolumeAttachmentClient σ) (d : AttachmentData) (w : World σ AttachCall) :
    AttachResult σ :=
  let server_id := d.server_id
  let r := w.invoke (AttachCall.detach d.id server_id) (client.Detach d.id server_id)
  match r.1.2 with
  | some err => { err := some (AttachError.detaching d.id server_id err), d := d, world := r.2 }
  | none =>
    let waited := waitUntilVolumeAttachedStateChanged WaitForState client d server_id
      ["", "Attached"] ["Detached"] r.2
    { err := none, d := d, world := waited.2 }

/-! ## Classification of security group calls -/

/-- Whether an accessor call is `SecurityGroup.DeleteRule`. -/
def SGCall.isDeleteRule : SGCall → Bool
  | SGCall.deleteRule _ => true
  | _ => false

/-- Whether an accessor call is `SecurityGroup.CreateRule`. -/
def SGCall.isCreateRule : SGCall → Bool
  | SGCall.createRule _ _ => true
  | _ => false

/-- The condition under which `checkRuleErrors` is stated to reject a rule: both targets set,
or an inverted range with both bounds non-zero and `cidr` set. -/
def RuleMap.violates (r : RuleMap) : Prop :=
  (r.cidr ≠ "" ∧ r.dest_securitygroup_id ≠ "") ∨
    (r.port_range_min ≠ 0 ∧ r.port_range_max ≠ 0 ∧ r.port_range_min > r.port_range_max ∧
      r.cidr ≠ "")

instance (r : RuleMap) : Decidable r.violates := by
  unfold RuleMap.violates
  exact inferInstance

/-! ## A reference accessor

A small deterministic remote system, used to run the operations on concrete inputs. -/

/-- The remote state of the reference accessor: the rules held by the one security group it
manages, and a counter from which fresh rule identities are drawn. -/
structure RefRemote where
  rules : List RuleMap
  next : Nat
  deriving DecidableEq, Repr

/-- The rule stored by the reference accessor for a `CreateRule` call. -/
def ruleOfParams (id : String) (p : RuleParams) : RuleMap :=
  { id := id
    ether_type := p.ether_type
    direction := p.direction
    protocol := p.protocol
    port_range_min := p.port_range_min
    port_range_max := p.port_range_max
    cidr := p.cidr
    dest_securitygroup_id := p.dest_securitygroup_id
    description := p.description }

/-- The record the reference accessor returns for a stored rule. -/
def recordOfRule (r : RuleMap) : SecurityGroupRule :=
  { ID := r.id
    EtherType := r.ether_type
    Direction := r.direction
    Protocol := r.protocol
    PortRangeMin := r.port_range_min
    PortRangeMax := r.port_range_max
    CIDR := r.cidr
    DestSecuritygroupID := r.dest_securitygroup_id
    Description := r.description }

/-- The reference accessor: `Create` and `Update` always succeed, `Get` returns the stored
rules, `DeleteRule` removes the rule with the given identity (`NotFound` when there is none) and
`CreateRule` stores the rule under a fresh identity. -/
def refClient : SecurityGroupClient RefRemote where
  Create p s :=
    (({ ID := "sg-1", Name := p.name, Description := p.description, Stateful := p.stateful,
        Rules := [] }, none), s)
  Get id s :=
    (({ ID := id, Name := "web", Description := "", Stateful := true,
        Rules := s.rules.map recordOfRule }, none), s)
  Update _ _ s := (((), none), s)
  DeleteRule id s :=
    if s.rules.any (fun r => r.id = id) then
      (((), none), { s with rules := s.rules.filter (fun r => r.id ≠ id) })
    else (((), some ApiError.notFound), s)
  CreateRule _ p s :=
    (((), none),
      { rules := s.rules ++ [ruleOfParams ("rule-" ++ toString s.next) p], next := s.next + 1 })

/-- A rule map with every field at its zero value. -/
def emptyRule : RuleMap :=
  { id := "", ether_type := "", direction := "", protocol := "", port_range_min := 0,
    port_range_max := 0, cidr := "", dest_securitygroup_id := "", description := "" }

/-- A security group resource data with every field at its zero value and no reported
change. -/
def emptyGroupData : SecurityGroupData :=
  { id := "", name := "", description := "", stateful := false, rule := [], ruleOld := [],
    changed := fun _ => false }

/-- The world of the reference accessor before any call. -/
def refWorld (rules : List RuleMap) : World RefRemote SGCall :=
  { remote := { rules := rules, next := 0 }, trace := [] }

/-- A reference auto-backup accessor over a remote state that stores one schedule: `Create`
and `Update` store the time as `hour:minute`, `Get` returns what is stored. -/
def refBackupClient {π : Type} (hourOf minuteOf : π → String) : AutoBackupClient String π where
  Create p _ :=
    (({ ID := "ab-1", Name := "", Time := hourOf p ++ ":" ++ minuteOf p, Interval := 0,
        MaxKeep := 0, IsFullBackup := false, Created := "", LastRun := "", VolumeSize := 0 },
      none), hourOf p ++ ":" ++ minuteOf p)
  Get id s :=
    (({ ID := id, Name := "", Time := s, Interval := 0, MaxKeep := 0, IsFullBackup := false,
        Created := "", LastRun := "", VolumeSize := 0 }, none), s)
  Update _ p _ := (((), none), hourOf p ++ ":" ++ minuteOf p)

/-- The reference accessor for database auto-backups. -/
def refDatabaseBackupClient : AutoBackupClient String DatabaseAutoBackupParams :=
  refBackupClient (fun p => p.hour) (fun p => p.minute)

/-- The reference accessor for volume auto-backups. -/
def refVolumeBackupClient : AutoBackupClient String VolumeAutoBackupParams :=
  refBackupClient (fun p => p.hour) (fun p => p.minute)

/-- An auto-backup resource data with the given schedule time, every other field at its zero
value and no reported change. -/
def backupData (scheduleTime : String) : AutoBackupData :=
  { id := "", name := "", target_id := "", schedule_time := scheduleTime, interval := 0,
    max_keep := 0, incremental := false, created_at := "", last_run := "", volume_size := 0,
    changed := fun _ => false }

/-- The world of a reference auto-backup accessor before any call. -/
def refBackupWorld {π : Type} : World String (BackupCall π) :=
  { remote := "", trace := [] }

/-- Lower-casing of the ASCII letters of a string; stands for `strings.ToLower` when the
operations are run on concrete ASCII inputs. -/
def asciiLower (s : String) : String :=
  String.mk (s.data.map Char.toLower)

/-- A server record with every field at its zero value. -/
def zeroServer : Server :=
  { ID := "", Name := "", Status := "", VMState := "", Addresses := Value.null,
    Flavor := { CPU := 0, RAM := 0, OriginalName := "" }, Created := "" }

/-- A subnet record with every field at its zero value. -/
def zeroSubnet : Subnet :=
  { ID := "", Name := "", Cidr := "", GatewayIP := "", VpcID := "", CreatedAt := "" }

/-- A reference server accessor over a fixed inventory: `Get` returns the server with the given
identity (the zero record and `NotFound` when there is none), `List` returns the inventory. -/
def refServerClient (servers : List Server) : ServerClient Unit where
  Get id _ s :=
    match servers.find? (fun server => server.ID == id) with
    | some server => ((server, none), s)
    | none => ((zeroServer, some ApiError.notFound), s)
  List _ s := ((servers, none), s)

/-- A reference subnet accessor over a fixed inventory. -/
def refSubnetClient (subnets : List Subnet) : SubnetClient Unit where
  Get id s :=
    match subnets.find? (fun subnet => subnet.ID == id) with
    | some subnet => ((subnet, none), s)
    | none => ((zeroSubnet, some ApiError.notFound), s)
  List _ s := ((subnets, none), s)

/-- A server accessor whose every call fails with the given error, returning the zero value
next to it. -/
def failingServerClient (err : ApiError) : ServerClient Unit where
  Get _ _ s := ((zeroServer, some err), s)
  List _ s := (([], some err), s)

/-- A subnet accessor whose every call fails with the given error, returning the zero value
next to it. -/
def failingSubnetClient (err : ApiError) : SubnetClient Unit where
  Get _ s := ((zeroSubnet, some err), s)
  List _ s := (([], some err), s)

/-- A server query with every field at its zero value. -/
def emptyServerQuery : ServerData :=
  { id := "", server_id := "", ip_address := "", name := "", status := "", vm_state := "",
    zone := "", created_at := "", cpu := 0, ram := 0, flavor_name := "" }

/-- A subnet query with every field at its zero value. -/
def emptySubnetQuery : SubnetData :=
  { id := "", subnet_id := "", vpc_id := "", name := "", cidr := "", gateway_ip := "",
    created_at := "" }

/-- The world of a reference data source accessor before any call. -/
def unitWorld {κ : Type} : World Unit κ :=
  { remote := (), trace := [] }

/-- A server of the reference inventory: `srv-1` is named `Web`, is `ACTIVE`, and has one
address `10.0.0.1` on network `net`. -/
def webServer : Server :=
  { ID := "srv-1", Name := "Web", Status := "ACTIVE", VMState := "active",
    Addresses := Value.map [("net", Value.list [Value.map [("addr", Value.string "10.0.0.1")]])],
    Flavor := { CPU := 2, RAM := 4096, OriginalName := "c2.m4" }, Created := "2024-01-01" }

/-- A server of the reference inventory: `srv-2` is named `db`, is `SHUTOFF`, and has an empty
address list. -/
def dbServer : Server :=
  { zeroServer with
    ID := "srv-2", Name := "db", Status := "SHUTOFF", VMState := "stopped",
    Addresses := Value.list [] }

/-- A server whose `Addresses` map holds a string where a list of interfaces is expected. -/
def oddServer : Server :=
  { zeroServer with ID := "srv-3", Addresses := Value.map [("net", Value.string "10.0.0.3")] }

/-- The reference inventory of servers. -/
def sampleServers : List Server :=
  [webServer, dbServer]

/-- Two subnets of a reference inventory. -/
def sampleSubnets : List Subnet :=
  [{ ID := "sub-1", Name := "Front", Cidr := "10.0.0.0/24", GatewayIP := "10.0.0.1",
     VpcID := "vpc-1", CreatedAt := "2024-01-01" },
   { ID := "sub-2", Name := "back", Cidr := "10.0.1.0/24", GatewayIP := "10.0.1.1",
     VpcID := "vpc-1", CreatedAt := "2024-01-02" }]

/-- A reference AZ policy accessor: `Get` and `UpdateAZPolicy` always succeed. -/
def refPolicyClient : AutoScalingPolicyClient Unit where
  Get id s := (({ ID := id, Name := "policy", Zones := ["az-1"] }, none), s)
  UpdateAZPolicy _ _ s := (((), none), s)

/-- An AZ policy resource data with no reported change. -/
def policyData : AZPolicyData :=
  { id := "pol-1", name := "policy", zones := ["az-1"], changed := fun _ => false }

/-- An observed rule collection: two rules with their remote identities. -/
def observedRules : List RuleMap :=
  [{ emptyRule with id := "r-1", direction := "ingress", protocol := "tcp",
                    port_range_min := 22, port_range_max := 22, cidr := "10.0.0.0/8" },
   { emptyRule with id := "r-2", direction := "ingress", protocol := "tcp",
                    port_range_min := 80, port_range_max := 80, cidr := "0.0.0.0/0" }]

/-- A declared rule collection: the first observed rule, and a duplicated new rule. -/
def declaredRules : List RuleMap :=
  [{ emptyRule with direction := "ingress", protocol := "tcp",
                    port_range_min := 22, port_range_max := 22, cidr := "10.0.0.0/8" },
   { emptyRule with direction := "egress", protocol := "udp",
                    port_range_min := 53, port_range_max := 53, cidr := "0.0.0.0/0" },
   { emptyRule with direction := "egress", protocol := "udp",
                    port_range_min := 53, port_range_max := 53, cidr := "0.0.0.0/0" }]

/-- The resource data of an Update that changes the rule set from `observedRules` to
`declaredRules`. -/
def reconcileData : SecurityGroupData :=
  { emptyGroupData with
    id := "sg-1", rule := declaredRules, ruleOld := observedRules,
    changed := fun key => key == "rule" }

/-- A scripted accessor: the remote state is the list of outcomes of the coming sub-item calls.
Each `DeleteRule` or `CreateRule` consumes the first outcome (and succeeds once the script is
exhausted); `Create`, `Get` and `Update` always succeed, `Get` returning a group with the one
default rule `default-1`. -/
def scriptedClient : SecurityGroupClient (List (Option ApiError)) where
  Create p s :=
    (({ ID := "sg-1", Name := p.name, Description := p.description, Stateful := p.stateful,
        Rules := [] }, none), s)
  Get id s :=
    (({ ID := id, Name := "web", Description := "", Stateful := true,
        Rules := [recordOfRule { emptyRule with id := "default-1" }] }, none), s)
  Update _ _ s := (((), none), s)
  DeleteRule _ s := (((), s.headD none), s.tail)
  CreateRule _ _ s := (((), s.headD none), s.tail)

/-- The world of the scripted accessor before any call. -/
def scriptedWorld (script : List (Option ApiError)) : World (List (Option ApiError)) SGCall :=
  { remote := script, trace := [] }

/-- A reference poller: it runs `Refresh` at most `polls` times, stops with the record when the
status is in `Target`, goes on while it is in `Pending`, fails on a refresh error or on any
other status, and fails with a timeout when the polls are used up. -/
def pollState {σ : Type} : Nat → Poller σ
  | 0, _, w => ((none, some (WaitError.timeout "")), w)
  | polls + 1, conf, w =>
    let r := conf.Refresh w
    match r.1.err with
    | some err => ((none, some (WaitError.refresh err)), r.2)
    | none =>
      if r.1.state ∈ conf.Target then ((r.1.result, none), r.2)
      else if r.1.state ∈ conf.Pending then pollState polls conf r.2
      else ((r.1.result, some (WaitError.unexpectedState r.1.state)), r.2)

/-- A reference volume accessor whose remote state is the list of servers the one volume is
attached to.  `Attach` and `Detach` succeed without changing it (the remote system has not
converged yet), `Get` reports it, and the attachment detail is always found. -/
def laggingVolumeClient : VolumeAttachmentClient (List String) where
  Attach _ _ _ s := (((), none), s)
  Detach _ _ s := (((), none), s)
  VolumeGet id s :=
    (({ ID := id, Attachments := s.map fun server => { ServerID := server } }, none), s)
  GetVolumeAttachmentDetail server_id _ s :=
    (({ ServerID := server_id, DeleteOnTermination := false }, none), s)

/-- A volume attachment resource data for volume `vol-1` and server `srv-1`. -/
def attachmentData : AttachmentData :=
  { id := "vol-1", server_id := "srv-1", volume_id := "vol-1", delete_on_termination := false,
    delete_on_terminated := false }

/-- The world of the reference volume accessor before any call. -/
def volumeWorld (servers : List String) : World (List String) AttachCall :=
  { remote := servers, trace := [] }

/-! # Properties -/

/-! ## Rule validation -/

theorem checkRule_index (index : Nat) (r : RuleMap) (e : RuleError)
    (h : checkRule index r = some e) : e.index = index := by
  unfold checkRule at h
  simp only at h
  split_ifs at h <;> cases h <;> rfl

theorem checkRuleErrorsFrom_ne_none_of_mem (rawRules : List RuleMap) (r : RuleMap)
    (hr : r ∈ rawRules) (hbad : ∀ i, checkRule i r ≠ none) :
    ∀ index, checkRuleErrorsFrom index rawRules ≠ none := by
  induction rawRules with
  | nil => cases hr
  | cons a rest ih =>
    intro index
    unfold checkRuleErrorsFrom
    rcases List.mem_cons.mp hr with h | h
    · subst h
      cases hc : checkRule index r with
      | none => exact absurd hc (hbad index)
      | some e => simp
    · cases hc : checkRule index a with
      | none => simpa using ih h (index + 1)
      | some e => simp

/-- C1: a declared rule list containing at least one rule whose `cidr` and
`dest_securitygroup_id` are both non-empty is rejected by `checkRuleErrors` (the result is a
non-nil error), whatever the other rules and the port fields are. -/
theorem checkRuleErrors_rejects_two_targets (rawRules : List RuleMap)
    (h : ∃ r ∈ rawRules, r.cidr ≠ "" ∧ r.dest_securitygroup_id ≠ "") :
    checkRuleErrors rawRules ≠ none := by
  obtain ⟨r, hr, hc, hg⟩ := h
  refine checkRuleErrorsFrom_ne_none_of_mem rawRules r hr ?_ 0
  intro i
  simp [checkRule, hc, hg]

theorem checkRuleErrors_rejects_two_targets_witness :
    (∃ r ∈ [emptyRule, { emptyRule with cidr := "10.0.0.0/8", dest_securitygroup_id := "sg-2" }],
        r.cidr ≠ "" ∧ r.dest_securitygroup_id ≠ "") ∧
      checkRuleErrors
        [emptyRule, { emptyRule with cidr := "10.0.0.0/8", dest_securitygroup_id := "sg-2" }]
        ≠ none :=
  have h : ∃ r ∈ [emptyRule,
      { emptyRule with cidr := "10.0.0.0/8", dest_securitygroup_id := "sg-2" }],
      r.cidr ≠ "" ∧ r.dest_securitygroup_id ≠ "" :=
    ⟨{ emptyRule with cidr := "10.0.0.0/8", dest_securitygroup_id := "sg-2" },
      by simp, by decide, by decide⟩
  ⟨h, checkRuleErrors_rejects_two_targets _ h⟩

/-- C2, as stated, fails: a rule whose range is inverted (`port_range_min` 100 above
`port_range_max` 50) and whose only target is `dest_securitygroup_id` is accepted, and so is a
rule with `cidr` set whose `port_range_max` is zero below `port_range_min` 5. -/
theorem checkRuleErrors_inverted_range_accepted :
    ((100 : Int) > 50 ∧ ("sg-2" : String) ≠ "" ∧
      checkRuleErrors [{ emptyRule with port_range_min := 100, port_range_max := 50,
                                        dest_securitygroup_id := "sg-2" }] = none) ∧
    ((5 : Int) > 0 ∧ ("10.0.0.0/8" : String) ≠ "" ∧
      checkRuleErrors [{ emptyRule with port_range_min := 5, port_range_max := 0,
                                        cidr := "10.0.0.0/8" }] = none) := by
  refine ⟨⟨by decide, by decide, ?_⟩, ⟨by decide, by decide, ?_⟩⟩ <;>
    simp [checkRuleErrors, checkRuleErrorsFrom, checkRule, emptyRule]

/-- C2 (amended): a declared rule list containing a rule whose `port_range_min` and
`port_range_max` are both non-zero, whose `port_range_min` is greater than its
`port_range_max`, and whose `cidr` is non-empty is rejected by `checkRuleErrors`. -/
theorem checkRuleErrors_rejects_inverted_range (rawRules : List RuleMap)
    (h : ∃ r ∈ rawRules, r.port_range_min ≠ 0 ∧ r.port_range_max ≠ 0 ∧
      r.port_range_min > r.port_range_max ∧ r.cidr ≠ "") :
    checkRuleErrors rawRules ≠ none := by
  obtain ⟨r, hr, hmin, hmax, hgt, hc⟩ := h
  refine checkRuleErrorsFrom_ne_none_of_mem rawRules r hr ?_ 0
  intro i
  unfold checkRule
  simp only
  split_ifs <;> simp_all

theorem checkRuleErrors_rejects_inverted_range_witness :
    (∃ r ∈ [{ emptyRule with port_range_min := 100, port_range_max := 50,
                             cidr := "10.0.0.0/8" }],
        r.port_range_min ≠ 0 ∧ r.port_range_max ≠ 0 ∧
          r.port_range_min > r.port_range_max ∧ r.cidr ≠ "") ∧
      checkRuleErrors [{ emptyRule with port_range_min := 100, port_range_max := 50,
                                        cidr := "10.0.0.0/8" }] ≠ none :=
  have h : ∃ r ∈ [{ emptyRule with port_range_min := 100, port_range_max := 50,
                                   cidr := "10.0.0.0/8" }],
      r.port_range_min ≠ 0 ∧ r.port_range_max ≠ 0 ∧
        r.port_range_min > r.port_range_max ∧ r.cidr ≠ "" :=
    ⟨_, List.mem_singleton.mpr rfl, by decide, by decide, by decide, by decide⟩
  ⟨h, checkRuleErrors_rejects_inverted_range _ h⟩

/-! ## Security group: validation before any remote call -/

/-- C3: whenever `checkRuleErrors` rejects the declared rule list, `resourceSecurityGroupCreate`
returns the `Invalid rule` error, the trace of accessor calls and the remote state are exactly
what they were before the operation (no Create, Get, DeleteRule or CreateRule was issued), and
the identity, empty before Create, is still empty. -/
theorem resourceSecurityGroupCreate_invalid_rules {σ : Type} (client : SecurityGroupClient σ)
    (d : SecurityGroupData) (w : World σ SGCall)
    (hid : d.id = "") (h : checkRuleErrors d.rule ≠ none) :
    (∃ e, (resourceSecurityGroupCreate client d w).err = some (SGError.invalidRule e)) ∧
      (resourceSecurityGroupCreate client d w).world.trace = w.trace ∧
      (resourceSecurityGroupCreate client d w).world.remote = w.remote ∧
      (resourceSecurityGroupCreate client d w).d.id = "" := by
  unfold resourceSecurityGroupCreate
  cases hc : checkRuleErrors d.rule with
  | none => exact absurd hc h
  | some e => exact ⟨⟨e, rfl⟩, rfl, rfl, hid⟩

theorem resourceSecurityGroupCreate_invalid_rules_witness :
    (∃ e, (resourceSecurityGroupCreate refClient
        { emptyGroupData with
          rule := [{ emptyRule with cidr := "10.0.0.0/8", dest_securitygroup_id := "sg-2" }] }
        (refWorld [])).err = some (SGError.invalidRule e)) ∧
      (resourceSecurityGroupCreate refClient
        { emptyGroupData with
          rule := [{ emptyRule with cidr := "10.0.0.0/8", dest_securitygroup_id := "sg-2" }] }
        (refWorld [])).world.trace = (refWorld []).trace ∧
      (resourceSecurityGroupCreate refClient
        { emptyGroupData with
          rule := [{ emptyRule with cidr := "10.0.0.0/8", dest_securitygroup_id := "sg-2" }] }
        (refWorld [])).world.remote = (refWorld []).remote ∧
      (resourceSecurityGroupCreate refClient
        { emptyGroupData with
          rule := [{ emptyRule with cidr := "10.0.0.0/8", dest_securitygroup_id := "sg-2" }] }
        (refWorld [])).d.id = "" :=
  resourceSecurityGroupCreate_invalid_rules refClient
    { emptyGroupData with
      rule := [{ emptyRule with cidr := "10.0.0.0/8", dest_securitygroup_id := "sg-2" }] }
    (refWorld []) rfl
    (by simp [checkRuleErrors, checkRuleErrorsFrom, checkRule, emptyRule, emptyGroupData])

/-- C4 (evaluation at the failing input): the stored rule set is empty and the newly declared
set holds one rule with both `cidr` and `dest_securitygroup_id` set, which `checkRuleErrors`
rejects; `resourceSecurityGroupUpdate` nevertheless passes that rule to `CreateRule`, reads the
group back and returns `nil`. -/
theorem resourceSecurityGroupUpdate_skips_validation :
    checkRuleErrors [{ emptyRule with cidr := "10.0.0.0/8", dest_securitygroup_id := "sg-2" }]
        ≠ none ∧
      (resourceSecurityGroupUpdate getDiffSet refClient
        { emptyGroupData with
          id := "sg-1"
          rule := [{ emptyRule with cidr := "10.0.0.0/8", dest_securitygroup_id := "sg-2" }]
          changed := fun key => key == "rule" }
        (refWorld [])).err = none ∧
      (resourceSecurityGroupUpdate getDiffSet refClient
        { emptyGroupData with
          id := "sg-1"
          rule := [{ emptyRule with cidr := "10.0.0.0/8", dest_securitygroup_id := "sg-2" }]
          changed := fun key => key == "rule" }
        (refWorld [])).world.trace =
        [{ call := SGCall.createRule "sg-1"
             (ruleParams { emptyRule with cidr := "10.0.0.0/8", dest_securitygroup_id := "sg-2" })
           err := none },
         { call := SGCall.get "sg-1", err := none }] := by
  refine ⟨?_, ?_, ?_⟩
  · simp [checkRuleErrors, checkRuleErrorsFrom, checkRule, emptyRule]
  · rfl
  · rfl

/-! ## Schedule time -/

theorem splitChars_ne_nil (sep : Char) (l : List Char) : splitChars sep l ≠ [] := by
  cases l with
  | nil => simp [splitChars]
  | cons c cs =>
    unfold splitChars
    split_ifs
    · simp
    · split <;> simp

theorem length_splitChars (sep : Char) (l : List Char) :
    (splitChars sep l).length = l.count sep + 1 := by
  induction l with
  | nil => simp [splitChars]
  | cons c cs ih =>
    unfold splitChars
    by_cases h : c = sep
    · subst h
      simp [ih]
    · have hne : (c == sep) = false := by simpa using h
      rw [if_neg h, List.count_cons, hne]
      cases hs : splitChars sep cs with
      | nil => exact absurd hs (splitChars_ne_nil sep cs)
      | cons p ps =>
        rw [hs] at ih
        simpa using ih

theorem splitChars_eq_singleton (sep : Char) (l b : List Char)
    (h : splitChars sep l = [b]) : l = b ∧ sep ∉ b := by
  induction l generalizing b with
  | nil =>
    simp [splitChars] at h
    subst h
    simp
  | cons c cs ih =>
    unfold splitChars at h
    by_cases hc : c = sep
    · rw [if_pos hc] at h
      simp at h
      exact absurd h.2 (splitChars_ne_nil sep cs)
    · rw [if_neg hc] at h
      cases hs : splitChars sep cs with
      | nil => exact absurd hs (splitChars_ne_nil sep cs)
      | cons p ps =>
        rw [hs] at h
        simp at h
        obtain ⟨h1, h2⟩ := h
        subst h1 h2
        obtain ⟨e1, e2⟩ := ih p hs
        subst e1
        refine ⟨rfl, ?_⟩
        simp
        exact ⟨fun h => hc h.symm, e2⟩

theorem splitChars_eq_pair (sep : Char) (l a b : List Char)
    (h : splitChars sep l = [a, b]) : l = a ++ sep :: b ∧ sep ∉ a ∧ sep ∉ b := by
  induction l generalizing a with
  | nil => simp [splitChars] at h
  | cons c cs ih =>
    unfold splitChars at h
    by_cases hc : c = sep
    · rw [if_pos hc] at h
      simp at h
      obtain ⟨h1, h2⟩ := h
      subst h1
      obtain ⟨e1, e2⟩ := splitChars_eq_singleton sep cs b h2
      subst e1 hc
      simp [e2]
    · rw [if_neg hc] at h
      cases hs : splitChars sep cs with
      | nil => exact absurd hs (splitChars_ne_nil sep cs)
      | cons p ps =>
        rw [hs] at h
        simp at h
        obtain ⟨h1, h2⟩ := h
        subst h1 h2
        obtain ⟨e1, e2, e3⟩ := ih p hs
        refine ⟨by rw [e1]; rfl, ?_, e3⟩
        simp
        exact ⟨fun h => hc h.symm, e2⟩

theorem issued_of_trace {σ κ : Type} (w w' : World σ κ) (evs : List (Event κ))
    (h : w'.trace = w.trace ++ evs) : issued w w' = evs := by
  unfold issued
  rw [h, List.drop_left]

theorem issued_self {σ κ : Type} (w : World σ κ) : issued w w = [] := by
  unfold issued
  simp

theorem splitScheduleTime_eq_none_iff (s : String) :
    splitScheduleTime s = none ↔ s.data.count ':' ≠ 1 := by
  have hlen : (strings.Split s ':').length = s.data.count ':' + 1 := by
    simp [strings.Split, length_splitChars]
  unfold splitScheduleTime
  simp only
  constructor
  · intro h
    split_ifs at h with h2
    · omega
    · push_neg at h2
      match hp : strings.Split s ':', h2 with
      | [a, b], _ => rw [hp] at h; simp at h
  · intro h
    rw [if_pos (by omega)]

theorem splitScheduleTime_eq_some (s hour minute : String)
    (h : splitScheduleTime s = some (hour, minute)) :
    hour ++ ":" ++ minute = s ∧ ':' ∉ hour.data ∧ ':' ∉ minute.data := by
  unfold splitScheduleTime at h
  simp only at h
  split_ifs at h with h2
  have hp : strings.Split s ':' = [hour, minute] := by
    match hq : strings.Split s ':', h with
    | [a, b], h =>
      simp at h
      rw [h.1, h.2]
  unfold strings.Split at hp
  match hq : splitChars ':' s.data, hp with
  | [a, b], hp =>
    simp at hp
    obtain ⟨e1, e2, e3⟩ := splitChars_eq_pair ':' s.data a b hq
    rw [← hp.1, ← hp.2]
    refine ⟨?_, e2, e3⟩
    apply String.ext
    simp [String.data_append, e1]

theorem resourceAutoBackupRead_spec {σ π : Type} (client : AutoBackupClient σ π)
    (d : AutoBackupData) (w : World σ (BackupCall π)) :
    (resourceAutoBackupRead client d w).world.trace =
        w.trace ++ [{ call := BackupCall.get d.id, err := (client.Get d.id w.remote).1.2 }] ∧
      (resourceAutoBackupRead client d w).err =
        ((client.Get d.id w.remote).1.2).map (BackupError.retrieving d.id) := by
  unfold resourceAutoBackupRead World.invoke
  cases h : (client.Get d.id w.remote).1.2 <;> simp [h]

theorem resourceAutoBackupCreate_rejected {σ π : Type} (client : AutoBackupClient σ π)
    (mkParams : String → String → π) (d : AutoBackupData) (w : World σ (BackupCall π))
    (h : splitScheduleTime d.schedule_time = none) :
    (resourceAutoBackupCreate client mkParams d w).err =
        some (BackupError.invalidScheduleTime d.schedule_time) ∧
      issued w (resourceAutoBackupCreate client mkParams d w).world = [] := by
  unfold resourceAutoBackupCreate
  simp only [h]
  exact ⟨trivial, issued_self w⟩

theorem resourceAutoBackupUpdate_rejected {σ π : Type} (client : AutoBackupClient σ π)
    (mkParams : String → String → π) (d : AutoBackupData) (w : World σ (BackupCall π))
    (h : splitScheduleTime d.schedule_time = none) :
    (resourceAutoBackupUpdate client mkParams d w).err =
        some (BackupError.invalidScheduleTime d.schedule_time) ∧
      issued w (resourceAutoBackupUpdate client mkParams d w).world = [] := by
  unfold resourceAutoBackupUpdate
  simp only [h]
  exact ⟨trivial, issued_self w⟩

theorem resourceAutoBackupCreate_accepted {σ π : Type} (client : AutoBackupClient σ π)
    (mkParams : String → String → π) (d : AutoBackupData) (w : World σ (BackupCall π))
    (hour minute : String) (h : splitScheduleTime d.schedule_time = some (hour, minute)) :
    (∀ t, (resourceAutoBackupCreate client mkParams d w).err ≠
        some (BackupError.invalidScheduleTime t)) ∧
      ∃ e rest, issued w (resourceAutoBackupCreate client mkParams d w).world =
          { call := BackupCall.create (mkParams hour minute), err := e } :: rest ∧
        ∀ ev ∈ rest, ∃ id, ev.call = BackupCall.get id := by
  unfold resourceAutoBackupCreate
  simp only [h]
  cases hc : (World.invoke w (BackupCall.create (mkParams hour minute))
      (client.Create (mkParams hour minute))).1.2 with
  | some err =>
    simp only
    refine ⟨fun t => by simp, some err, [], ?_, by simp⟩
    apply issued_of_trace
    simp only [World.invoke] at hc ⊢
    rw [hc]
  | none =>
    simp only
    refine ⟨fun t => ?_, none,
      [{ call := BackupCall.get (client.Create (mkParams hour minute) w.remote).1.1.ID,
         err := (client.Get (client.Create (mkParams hour minute) w.remote).1.1.ID
            (client.Create (mkParams hour minute) w.remote).2).1.2 }], ?_, ?_⟩
    · rw [(resourceAutoBackupRead_spec client _ _).2]
      cases (client.Get _ _).1.2 <;> simp
    · apply issued_of_trace
      rw [(resourceAutoBackupRead_spec client _ _).1]
      simp only [World.invoke] at hc ⊢
      rw [hc, List.append_assoc]
      rfl
    · intro ev hev
      simp only [List.mem_singleton] at hev
      exact ⟨_, by rw [hev]⟩

theorem resourceAutoBackupUpdate_accepted {σ π : Type} (client : AutoBackupClient σ π)
    (mkParams : String → String → π) (d : AutoBackupData) (w : World σ (BackupCall π))
    (hour minute : String) (h : splitScheduleTime d.schedule_time = some (hour, minute)) :
    (∀ t, (resourceAutoBackupUpdate client mkParams d w).err ≠
        some (BackupError.invalidScheduleTime t)) ∧
      ((d.HasChange "name" || d.HasChange "schedule_time" || d.HasChange "interval"
          || d.HasChange "max_keep" || d.HasChange "incremental") = true →
        ∃ e rest, issued w (resourceAutoBackupUpdate client mkParams d w).world =
            { call := BackupCall.update d.id (mkParams hour minute), err := e } :: rest ∧
          ∀ ev ∈ rest, ∃ id, ev.call = BackupCall.get id) ∧
      ((d.HasChange "name" || d.HasChange "schedule_time" || d.HasChange "interval"
          || d.HasChange "max_keep" || d.HasChange "incremental") = false →
        ∃ e, issued w (resourceAutoBackupUpdate client mkParams d w).world =
          [{ call := BackupCall.get d.id, err := e }]) := by
  unfold resourceAutoBackupUpdate
  simp only [h]
  by_cases hch : (d.HasChange "name" || d.HasChange "schedule_time" || d.HasChange "interval"
      || d.HasChange "max_keep" || d.HasChange "incremental") = true
  · rw [if_pos hch]
    cases hc : (World.invoke w (BackupCall.update d.id (mkParams hour minute))
        (client.Update d.id (mkParams hour minute))).1.2 with
    | some err =>
      simp only
      refine ⟨fun t => by simp, fun _ => ⟨some err, [], ?_, by simp⟩, fun hf => ?_⟩
      · apply issued_of_trace
        simp only [World.invoke] at hc ⊢
        rw [hc]
      · rw [hch] at hf
        cases hf
    | none =>
      simp only
      refine ⟨fun t => ?_, fun _ => ⟨none,
        [{ call := BackupCall.get d.id,
           err := (client.Get d.id
              (client.Update d.id (mkParams hour minute) w.remote).2).1.2 }], ?_, ?_⟩,
        fun hf => ?_⟩
      · rw [(resourceAutoBackupRead_spec client _ _).2]
        cases (client.Get _ _).1.2 <;> simp
      · apply issued_of_trace
        rw [(resourceAutoBackupRead_spec client _ _).1]
        simp only [World.invoke] at hc ⊢
        rw [hc, List.append_assoc]
        rfl
      · intro ev hev
        simp only [List.mem_singleton] at hev
        exact ⟨_, by rw [hev]⟩
      · rw [hch] at hf
        cases hf
  · rw [if_neg hch]
    refine ⟨fun t => ?_, fun ht => absurd ht hch,
      fun _ => ⟨(client.Get d.id w.remote).1.2, ?_⟩⟩
    · rw [(resourceAutoBackupRead_spec client _ _).2]
      cases (client.Get _ _).1.2 <;> simp
    · apply issued_of_trace
      rw [(resourceAutoBackupRead_spec client _ _).1]

/-- C5: for every `schedule_time`, Create and Update of the database and of the volume
auto-backup resource accept it exactly when it contains exactly one `:`.  When it does not, each
of the four operations returns the format error and issues no accessor call.  When it does,
there are `hour` and `minute`, free of `:`, with `hour ++ ":" ++ minute = schedule_time`; no
operation returns the format error; the first call of Create is the accessor Create with these
`hour` and `minute`; the first call of Update, when a tracked field changed, is the accessor
Update with these `hour` and `minute` (otherwise Update issues only the Get of Read); every
later call is a Get. -/
theorem autoBackup_schedule_time {σ τ : Type}
    (db : AutoBackupClient σ DatabaseAutoBackupParams)
    (vol : AutoBackupClient τ VolumeAutoBackupParams) (d : AutoBackupData)
    (w : World σ (BackupCall DatabaseAutoBackupParams))
    (v : World τ (BackupCall VolumeAutoBackupParams)) :
    (d.schedule_time.data.count ':' ≠ 1 →
      ((resourceDatabaseAutoBackupCreate db d w).err =
          some (BackupError.invalidScheduleTime d.schedule_time) ∧
        issued w (resourceDatabaseAutoBackupCreate db d w).world = []) ∧
      ((resourceDatabaseAutoBackupUpdate db d w).err =
          some (BackupError.invalidScheduleTime d.schedule_time) ∧
        issued w (resourceDatabaseAutoBackupUpdate db d w).world = []) ∧
      ((resourceVolumeAutoBackupCreate vol d v).err =
          some (BackupError.invalidScheduleTime d.schedule_time) ∧
        issued v (resourceVolumeAutoBackupCreate vol d v).world = []) ∧
      ((resourceVolumeAutoBackupUpdate vol d v).err =
          some (BackupError.invalidScheduleTime d.schedule_time) ∧
        issued v (resourceVolumeAutoBackupUpdate vol d v).world = [])) ∧
    (d.schedule_time.data.count ':' = 1 →
      ∃ hour minute : String,
        hour ++ ":" ++ minute = d.schedule_time ∧ ':' ∉ hour.data ∧ ':' ∉ minute.data ∧
        ((∀ t, (resourceDatabaseAutoBackupCreate db d w).err ≠
            some (BackupError.invalidScheduleTime t)) ∧
          ∃ e rest, issued w (resourceDatabaseAutoBackupCreate db d w).world =
              { call := BackupCall.create
                  { name := d.name, instance_id := some d.target_id, hour := hour,
                    minute := minute, interval := d.interval, max_keep := d.max_keep,
                    is_full_backup := !d.incremental }
                err := e } :: rest ∧
            ∀ ev ∈ rest, ∃ id, ev.call = BackupCall.get id) ∧
        ((∀ t, (resourceVolumeAutoBackupCreate vol d v).err ≠
            some (BackupError.invalidScheduleTime t)) ∧
          ∃ e rest, issued v (resourceVolumeAutoBackupCreate vol d v).world =
              { call := BackupCall.create
                  { name := d.name, volume_id := some d.target_id, hour := hour,
                    minute := minute, interval := d.interval, max_keep := d.max_keep,
                    incremental := d.incremental }
                err := e } :: rest ∧
            ∀ ev ∈ rest, ∃ id, ev.call = BackupCall.get id) ∧
        ((∀ t, (resourceDatabaseAutoBackupUpdate db d w).err ≠
            some (BackupError.invalidScheduleTime t)) ∧
          ((d.HasChange "name" || d.HasChange "schedule_time" || d.HasChange "interval"
              || d.HasChange "max_keep" || d.HasChange "incremental") = true →
            ∃ e rest, issued w (resourceDatabaseAutoBackupUpdate db d w).world =
                { call := BackupCall.update d.id
                    { name := d.name, instance_id := none, hour := hour, minute := minute,
                      interval := d.interval, max_keep := d.max_keep,
                      is_full_backup := !d.incremental }
                  err := e } :: rest ∧
              ∀ ev ∈ rest, ∃ id, ev.call = BackupCall.get id) ∧
          ((d.HasChange "name" || d.HasChange "schedule_time" || d.HasChange "interval"
              || d.HasChange "max_keep" || d.HasChange "incremental") = false →
            ∃ e, issued w (resourceDatabaseAutoBackupUpdate db d w).world =
              [{ call := BackupCall.get d.id, err := e }])) ∧
        ((∀ t, (resourceVolumeAutoBackupUpdate vol d v).err ≠
            some (BackupError.invalidScheduleTime t)) ∧
          ((d.HasChange "name" || d.HasChange "schedule_time" || d.HasChange "interval"
              || d.HasChange "max_keep" || d.HasChange "incremental") = true →
            ∃ e rest, issued v (resourceVolumeAutoBackupUpdate vol d v).world =
                { call := BackupCall.update d.id
                    { name := d.name, volume_id := none, hour := hour, minute := minute,
                      interval := d.interval, max_keep := d.max_keep,
                      incremental := d.incremental }
                  err := e } :: rest ∧
              ∀ ev ∈ rest, ∃ id, ev.call = BackupCall.get id) ∧
          ((d.HasChange "name" || d.HasChange "schedule_time" || d.HasChange "interval"
              || d.HasChange "max_keep" || d.HasChange "incremental") = false →
            ∃ e, issued v (resourceVolumeAutoBackupUpdate vol d v).world =
              [{ call := BackupCall.get d.id, err := e }]))) := by
  constructor
  · intro h
    have hs := (splitScheduleTime_eq_none_iff d.schedule_time).mpr h
    exact ⟨resourceAutoBackupCreate_rejected db _ d w hs,
      resourceAutoBackupUpdate_rejected db _ d w hs,
      resourceAutoBackupCreate_rejected vol _ d v hs,
      resourceAutoBackupUpdate_rejected vol _ d v hs⟩
  · intro h
    cases hs : splitScheduleTime d.schedule_time with
    | none => exact absurd h ((splitScheduleTime_eq_none_iff d.schedule_time).mp hs)
    | some hm =>
      obtain ⟨hour, minute⟩ := hm
      obtain ⟨e1, e2, e3⟩ := splitScheduleTime_eq_some d.schedule_time hour minute hs
      exact ⟨hour, minute, e1, e2, e3,
        resourceAutoBackupCreate_accepted db (databaseCreateParams d) d w hour minute hs,
        resourceAutoBackupCreate_accepted vol (volumeCreateParams d) d v hour minute hs,
        resourceAutoBackupUpdate_accepted db (databaseUpdateParams d) d w hour minute hs,
        resourceAutoBackupUpdate_accepted vol (volumeUpdateParams d) d v hour minute hs⟩

theorem autoBackup_schedule_time_witness :
    ((resourceDatabaseAutoBackupCreate refDatabaseBackupClient (backupData "1905")
          refBackupWorld).err = some (BackupError.invalidScheduleTime "1905") ∧
      issued refBackupWorld (resourceDatabaseAutoBackupCreate refDatabaseBackupClient
          (backupData "1905") refBackupWorld).world = []) ∧
    ∃ hour minute : String, hour ++ ":" ++ minute = "19:05" ∧
      ∃ e rest, issued refBackupWorld (resourceDatabaseAutoBackupCreate
          refDatabaseBackupClient (backupData "19:05") refBackupWorld).world =
        { call := BackupCall.create
            { name := "", instance_id := some "", hour := hour, minute := minute,
              interval := 0, max_keep := 0, is_full_backup := true }
          err := e } :: rest :=
  ⟨((autoBackup_schedule_time refDatabaseBackupClient refVolumeBackupClient (backupData "1905")
      refBackupWorld refBackupWorld).1 (by decide)).1,
    match (autoBackup_schedule_time refDatabaseBackupClient refVolumeBackupClient
      (backupData "19:05") refBackupWorld refBackupWorld).2 (by decide) with
    | ⟨hour, minute, h, _, _, ⟨_, e, rest, hcall, _⟩, _⟩ => ⟨hour, minute, h, e, rest, hcall⟩⟩

/-- The two examples of the schedule field convention: `19:05` splits into hour `19` and
minute `05`, and `1905` is not accepted. -/
theorem splitScheduleTime_examples :
    splitScheduleTime "19:05" = some ("19", "05") ∧ splitScheduleTime "1905" = none := by
  constructor <;> rfl

/-! ## Data sources: read by query -/

theorem filterSubnets_eq (ToLower : String → String) (d : SubnetData) (l acc : List Subnet) :
    filterSubnets ToLower d l acc = acc ++ l.filter (subnetPasses ToLower d) := by
  induction l generalizing acc with
  | nil => simp [filterSubnets]
  | cons a rest ih =>
    unfold filterSubnets
    by_cases h : subnetPasses ToLower d a = true
    · rw [if_pos h, ih, List.filter_cons_of_pos h]
      simp
    · rw [if_neg h, ih, List.filter_cons_of_neg h]

theorem filterServers_acc (ToLower : String → String) (d : ServerData) (l acc : List Server) :
    filterServers ToLower d l acc = (filterServers ToLower d l []).map (acc ++ ·) := by
  induction l generalizing acc with
  | nil => simp [filterServers]
  | cons a rest ih =>
    unfold filterServers
    cases h : serverPasses ToLower d a with
    | none => rfl
    | some b =>
      cases b with
      | true =>
        simp only
        rw [ih (acc ++ [a]), ih ([] ++ [a])]
        cases filterServers ToLower d rest [] <;> simp
      | false =>
        simp only
        rw [ih acc]

theorem filterServers_eq (ToLower : String → String) (d : ServerData) (l : List Server)
    (h : ∀ server ∈ l, serverPasses ToLower d server ≠ none) :
    filterServers ToLower d l [] =
      some (l.filter fun server => serverPasses ToLower d server == some true) := by
  induction l with
  | nil => rfl
  | cons a rest ih =>
    have ih2 := ih (fun server hs => h server (List.mem_cons_of_mem a hs))
    unfold filterServers
    cases hp : serverPasses ToLower d a with
    | none => exact absurd hp (h a (List.mem_cons_self a rest))
    | some b =>
      cases b with
      | true =>
        simp only
        rw [filterServers_acc, ih2]
        simp [hp]
      | false =>
        simp only
        rw [ih2]
        simp [hp]

theorem dataSourceServerSelect_eq {σ : Type} (ToLower : String → String) (d : ServerData)
    (allServers M : List Server) (w : World σ ServerCall)
    (hM : filterServers ToLower d allServers [] = some M) :
    dataSourceServerSelect ToLower d allServers w =
      some (match M with
        | [] => { err := some QueryError.noResults, d := d, world := w }
        | [server] => dataSourceComputeServerAttributes ToLower d server w
        | _ :: _ :: _ => { err := some QueryError.moreThanOneResult, d := d, world := w }) := by
  have hf : (if allServers.length > 0 then filterServers ToLower d allServers []
      else some allServers) = some M := by
    cases allServers with
    | nil => simpa [filterServers] using hM
    | cons a rest => simpa using hM
  unfold dataSourceServerSelect
  simp only [hf]
  match M with
  | [] => simp
  | [server] => simp
  | _ :: _ :: _ => simp

theorem dataSourceSubnetSelect_eq {σ : Type} (ToLower : String → String) (d : SubnetData)
    (allSubnets : List Subnet) (w : World σ SubnetCall) :
    dataSourceSubnetSelect ToLower d allSubnets w =
      some (match filterSubnets ToLower d allSubnets [] with
        | [] => { err := some QueryError.noResults, d := d, world := w }
        | [subnet] => dataSourceComputeSubnetAttributes d subnet w
        | _ :: _ :: _ => { err := some QueryError.moreThanOneResult, d := d, world := w }) := by
  have hf : (if allSubnets.length > 0 then filterSubnets ToLower d allSubnets []
      else allSubnets) = filterSubnets ToLower d allSubnets [] := by
    cases allSubnets with
    | nil => simp [filterSubnets]
    | cons a rest => simp
  unfold dataSourceSubnetSelect
  simp only [hf]
  match filterSubnets ToLower d allSubnets [] with
  | [] => simp
  | [subnet] => simp
  | _ :: _ :: _ => simp

/-- C6: let `M` be the candidates that pass the filter (the candidates being what the gathering
step of the read hands over).  For `dataSourceServerRead` and for `dataSourceSubnetRead`: if `M`
is empty the read returns the "no results" error; if `M` has two or more elements it returns
the "more than one result" error; if `M` is one record the read succeeds, the identity is that
record's `ID` and every exported attribute is computed from that record. -/
theorem dataSourceRead_by_match_count {σ τ : Type} (ToLower : String → String)
    (sc : ServerClient σ) (nc : SubnetClient τ) (d : ServerData) (q : SubnetData)
    (w w1 : World σ ServerCall) (v v1 : World τ SubnetCall)
    (allServers M : List Server) (allSubnets : List Subnet)
    (hs : gatherServers sc d w = Except.ok (allServers, w1))
    (hM : filterServers ToLower d allServers [] = some M)
    (hn : gatherSubnets nc q v = Except.ok (allSubnets, v1)) :
    (M = [] → dataSourceServerRead ToLower sc d w =
        some { err := some QueryError.noResults, d := d, world := w1 }) ∧
    (2 ≤ M.length → dataSourceServerRead ToLower sc d w =
        some { err := some QueryError.moreThanOneResult, d := d, world := w1 }) ∧
    (∀ server, M = [server] → dataSourceServerRead ToLower sc d w =
        some { err := none
               d := { d with id := server.ID, name := server.Name,
                             status := ToLower server.Status,
                             vm_state := ToLower server.VMState, cpu := server.Flavor.CPU,
                             ram := Int.tdiv server.Flavor.RAM 1024,
                             flavor_name := server.Flavor.OriginalName,
                             created_at := server.Created }
               world := w1 }) ∧
    (filterSubnets ToLower q allSubnets [] = [] → dataSourceSubnetRead ToLower nc q v =
        some { err := some QueryError.noResults, d := q, world := v1 }) ∧
    (2 ≤ (filterSubnets ToLower q allSubnets []).length → dataSourceSubnetRead ToLower nc q v =
        some { err := some QueryError.moreThanOneResult, d := q, world := v1 }) ∧
    (∀ subnet, filterSubnets ToLower q allSubnets [] = [subnet] →
      dataSourceSubnetRead ToLower nc q v =
        some { err := none
               d := { q with id := subnet.ID, name := subnet.Name, cidr := subnet.Cidr,
                             gateway_ip := subnet.GatewayIP, vpc_id := subnet.VpcID,
                             created_at := subnet.CreatedAt }
               world := v1 }) := by
  have hsr : dataSourceServerRead ToLower sc d w =
      dataSourceServerSelect ToLower d allServers w1 := by
    unfold dataSourceServerRead
    rw [hs]
  have hnr : dataSourceSubnetRead ToLower nc q v =
      dataSourceSubnetSelect ToLower q allSubnets v1 := by
    unfold dataSourceSubnetRead
    rw [hn]
  rw [hsr, hnr, dataSourceServerSelect_eq ToLower d allServers M w1 hM,
    dataSourceSubnetSelect_eq ToLower q allSubnets v1]
  refine ⟨?_, ?_, ?_, ?_, ?_, ?_⟩
  · intro h
    subst h
    rfl
  · intro h
    match M, h with
    | _ :: _ :: _, _ => rfl
  · intro server h
    subst h
    rfl
  · intro h
    rw [h]
  · intro h
    match filterSubnets ToLower q allSubnets [], h with
    | _ :: _ :: _, _ => rfl
  · intro subnet h
    rw [h]
    rfl

theorem dataSourceRead_by_match_count_witness :
    (dataSourceServerRead asciiLower (refServerClient sampleServers)
        { emptyServerQuery with name := "web" } unitWorld).map
      (fun r => (r.err, r.d.id, r.d.status, r.d.cpu, r.d.ram)) =
        some (none, "srv-1", "active", 2, 4) ∧
    (dataSourceSubnetRead asciiLower (refSubnetClient sampleSubnets)
        { emptySubnetQuery with vpc_id := "vpc-1" } unitWorld).map (fun r => r.err) =
        some (some QueryError.moreThanOneResult) :=
  have h := dataSourceRead_by_match_count asciiLower (refServerClient sampleServers)
    (refSubnetClient sampleSubnets) { emptyServerQuery with name := "web" }
    { emptySubnetQuery with vpc_id := "vpc-1" } unitWorld
    { remote := (), trace := [{ call := ServerCall.list ⟨"web", "", "", ""⟩, err := none }] }
    unitWorld
    { remote := (), trace := [{ call := SubnetCall.list "vpc-1", err := none }] }
    sampleServers (sampleServers.take 1) sampleSubnets rfl rfl rfl
  ⟨by rw [h.2.2.1 _ rfl]; rfl, by rw [h.2.2.2.2.1 (by decide)]; rfl⟩

/-! ## Data sources: the filter predicate -/

theorem scanInterfaces_eq (v : String) (items : List Value) (found : Bool)
    (h : (items.all fun inter => (addrOf inter).isSome) = true) :
    scanInterfaces v items found =
      some (found || items.any fun inter => addrOf inter == some v) := by
  induction items generalizing found with
  | nil => simp [scanInterfaces]
  | cons a rest ih =>
    simp only [List.all_cons, Bool.and_eq_true] at h
    unfold scanInterfaces
    cases ha : addrOf a with
    | none => simp [ha] at h
    | some ip =>
      simp only
      rw [ih _ h.2]
      by_cases hv : ip = v
      · simp [hv, ha]
      · have hb : (ip == v) = false := by simpa using hv
        simp [hv, ha, hb]

theorem scanNetworks_eq (v : String) (m : List (String × Value)) (found : Bool)
    (h : addressesWellFormed (Value.map m) = true) :
    scanNetworks v m found = some (found || hasAddress v (Value.map m)) := by
  induction m generalizing found with
  | nil => simp [scanNetworks, hasAddress]
  | cons a rest ih =>
    simp only [addressesWellFormed, List.all_cons, Bool.and_eq_true] at h ih
    unfold scanNetworks
    cases ha : a.2 with
    | list items =>
      simp only [ha] at h
      simp only
      rw [scanInterfaces_eq v items found h.1]
      simp only
      rw [ih _ h.2]
      simp [hasAddress, ha, Bool.or_assoc]
    | null => simp [ha] at h
    | bool b => simp [ha] at h
    | number n => simp [ha] at h
    | string s => simp [ha] at h
    | map es => simp [ha] at h

theorem serverPasses_eq (ToLower : String → String) (d : ServerData) (server : Server)
    (h : d.ip_address = "" ∨ addressesWellFormed server.Addresses = true) :
    serverPasses ToLower d server =
      some (serverMatchesStated ToLower d server &&
        (decide (d.ip_address = "") || !server.Addresses.isMap ||
          hasAddress d.ip_address server.Addresses)) := by
  unfold serverPasses serverMatchesStated strings.Contains
  by_cases h1 : d.name ≠ "" ∧ ToLower server.Name ≠ ToLower d.name
  · rw [if_pos h1]
    have : ¬ (d.name = "" ∨ ToLower server.Name = ToLower d.name) := by tauto
    simp [this]
  · rw [if_neg h1]
    have h1b : d.name = "" ∨ ToLower server.Name = ToLower d.name := by tauto
    by_cases h2 : d.status ≠ "" ∧
        ¬ decide ((ToLower d.status).data <:+: (ToLower server.Status).data) = true
    · rw [if_pos h2]
      have : ¬ (d.status = "" ∨ (ToLower d.status).data <:+: (ToLower server.Status).data) := by
        simp only [decide_eq_true_eq] at h2
        tauto
      simp [this]
    · rw [if_neg h2]
      have h2b : d.status = "" ∨ (ToLower d.status).data <:+: (ToLower server.Status).data := by
        simp only [decide_eq_true_eq] at h2
        tauto
      by_cases h3 : d.vm_state ≠ "" ∧
          ¬ decide ((ToLower d.vm_state).data <:+: (ToLower server.VMState).data) = true
      · rw [if_pos h3]
        have : ¬ (d.vm_state = "" ∨
            (ToLower d.vm_state).data <:+: (ToLower server.VMState).data) := by
          simp only [decide_eq_true_eq] at h3
          tauto
        simp [this]
      · rw [if_neg h3]
        have h3b : d.vm_state = "" ∨
            (ToLower d.vm_state).data <:+: (ToLower server.VMState).data := by
          simp only [decide_eq_true_eq] at h3
          tauto
        have hst : decide ((d.name = "" ∨ ToLower server.Name = ToLower d.name) ∧
            (d.status = "" ∨ (ToLower d.status).data <:+: (ToLower server.Status).data) ∧
            (d.vm_state = "" ∨
              (ToLower d.vm_state).data <:+: (ToLower server.VMState).data)) = true :=
          decide_eq_true ⟨h1b, h2b, h3b⟩
        rw [hst]
        by_cases h4 : d.ip_address = ""
        · simp [h4]
        · rw [if_pos h4]
          have hwf : addressesWellFormed server.Addresses = true := by
            rcases h with h | h
            · exact absurd h h4
            · exact h
          cases ha : server.Addresses with
          | map m =>
            rw [ha] at hwf
            simp only
            rw [scanNetworks_eq _ m false hwf]
            simp [h4, Value.isMap]
          | null => simp [h4, Value.isMap]
          | bool b => simp [h4, Value.isMap]
          | number n => simp [h4, Value.isMap]
          | string s => simp [h4, Value.isMap]
          | list l => simp [h4, Value.isMap]

theorem subnetPasses_eq (ToLower : String → String) (d : SubnetData) (subnet : Subnet) :
    subnetPasses ToLower d subnet = subnetMatchesStated ToLower d subnet := by
  unfold subnetPasses subnetMatchesStated
  by_cases h1 : d.cidr ≠ "" ∧ d.cidr ≠ subnet.Cidr
  · rw [if_pos h1]
    have : ¬ (d.cidr = "" ∨ d.cidr = subnet.Cidr) := by tauto
    simp [this]
  · rw [if_neg h1]
    have h1b : d.cidr = "" ∨ d.cidr = subnet.Cidr := by tauto
    by_cases h2 : d.gateway_ip ≠ "" ∧ subnet.GatewayIP ≠ d.gateway_ip
    · rw [if_pos h2]
      have : ¬ (d.gateway_ip = "" ∨ d.gateway_ip = subnet.GatewayIP) := by
        rintro (h | h)
        · exact h2.1 h
        · exact h2.2 h.symm
      simp [this]
    · rw [if_neg h2]
      have h2b : d.gateway_ip = "" ∨ d.gateway_ip = subnet.GatewayIP := by
        by_cases hg : d.gateway_ip = ""
        · exact Or.inl hg
        · right
          by_contra hne
          exact h2 ⟨hg, fun h => hne h.symm⟩
      by_cases h3 : d.name ≠ "" ∧ ToLower subnet.Name ≠ ToLower d.name
      · rw [if_pos h3]
        have : ¬ (d.name = "" ∨ ToLower subnet.Name = ToLower d.name) := by tauto
        simp [this]
      · rw [if_neg h3]
        have h3b : d.name = "" ∨ ToLower subnet.Name = ToLower d.name := by tauto
        exact (decide_eq_true ⟨h1b, h2b, h3b⟩).symm

/-- C7, as stated, fails for servers: with the filter `ip_address = 10.0.0.2` and no other
filter value, the server `srv-1` (whose only address is `10.0.0.1`) satisfies the stated
predicate on name, status and vm_state but is excluded, so the filtered inventory is `srv-2`
alone; and for a server whose `Addresses` map holds a string where a list is expected the stated
predicate holds while the filter loop produces no list at all. -/
theorem serverFilter_ip_address_excludes :
    serverMatchesStated asciiLower { emptyServerQuery with ip_address := "10.0.0.2" } webServer
        = true ∧
      serverPasses asciiLower { emptyServerQuery with ip_address := "10.0.0.2" } webServer
        = some false ∧
      (filterServers asciiLower { emptyServerQuery with ip_address := "10.0.0.2" }
          sampleServers []).map (List.map fun server => server.ID) = some ["srv-2"] ∧
      serverMatchesStated asciiLower { emptyServerQuery with ip_address := "10.0.0.2" } oddServer
        = true ∧
      serverPasses asciiLower { emptyServerQuery with ip_address := "10.0.0.2" } oddServer
        = none ∧
      filterServers asciiLower { emptyServerQuery with ip_address := "10.0.0.2" }
          [oddServer] [] = none := by
  refine ⟨by decide, rfl, rfl, by decide, rfl, rfl⟩

/-- C7 (amended): provided no type assertion on an `Addresses` value can fail (the `ip_address`
filter is empty, or every candidate's `Addresses` is well formed), a server passes iff
(name filter empty or lower(server.Name) = lower(name)) and (status filter empty or
lower(status) is a substring of lower(server.Status)) and (vm_state filter empty or
lower(vm_state) is a substring of lower(server.VMState)) and (ip_address filter empty or
server.Addresses is not a map or one of its address entries has addr equal to ip_address); a
subnet passes iff (cidr filter empty or cidr = subnet.Cidr) and (gateway_ip filter empty or
gateway_ip = subnet.GatewayIP) and (name filter empty or lower(subnet.Name) = lower(name)).
The filtered list is exactly the sub-list of the candidates that pass, in the original order. -/
theorem dataSource_filter_semantics (ToLower : String → String) (d : ServerData)
    (q : SubnetData) (allServers : List Server) (allSubnets : List Subnet)
    (hwf : d.ip_address = "" ∨
      ∀ server ∈ allServers, addressesWellFormed server.Addresses = true) :
    (∀ server ∈ allServers,
      serverPasses ToLower d server = some (decide (
        (d.name = "" ∨ ToLower server.Name = ToLower d.name) ∧
        (d.status = "" ∨ (ToLower d.status).data <:+: (ToLower server.Status).data) ∧
        (d.vm_state = "" ∨ (ToLower d.vm_state).data <:+: (ToLower server.VMState).data) ∧
        (d.ip_address = "" ∨ server.Addresses.isMap = false ∨
          hasAddress d.ip_address server.Addresses = true)))) ∧
    filterServers ToLower d allServers [] =
      some (allServers.filter fun server => serverPasses ToLower d server == some true) ∧
    (∀ subnet : Subnet,
      subnetPasses ToLower q subnet = decide (
        (q.cidr = "" ∨ q.cidr = subnet.Cidr) ∧
        (q.gateway_ip = "" ∨ q.gateway_ip = subnet.GatewayIP) ∧
        (q.name = "" ∨ ToLower subnet.Name = ToLower q.name))) ∧
    filterSubnets ToLower q allSubnets [] = allSubnets.filter (subnetPasses ToLower q) := by
  have hs : ∀ server ∈ allServers,
      d.ip_address = "" ∨ addressesWellFormed server.Addresses = true := by
    intro server hmem
    rcases hwf with h | h
    · exact Or.inl h
    · exact Or.inr (h server hmem)
  refine ⟨?_, ?_, ?_, ?_⟩
  · intro server hmem
    rw [serverPasses_eq ToLower d server (hs server hmem)]
    unfold serverMatchesStated
    congr 1
    rw [Bool.eq_iff_iff]
    simp only [Bool.and_eq_true, Bool.or_eq_true, decide_eq_true_eq, Bool.not_eq_true']
    tauto
  · apply filterServers_eq
    intro server hmem
    rw [serverPasses_eq ToLower d server (hs server hmem)]
    simp
  · intro subnet
    rw [subnetPasses_eq]
    rfl
  · rw [filterSubnets_eq]
    simp

theorem dataSource_filter_semantics_witness :
    (filterServers asciiLower { emptyServerQuery with ip_address := "10.0.0.1", status := "act" }
        sampleServers []).map (List.map fun server => server.ID) = some ["srv-1"] ∧
      (filterSubnets asciiLower { emptySubnetQuery with name := "FRONT" } sampleSubnets []).map
        (fun subnet => subnet.ID) = ["sub-1"] :=
  have h := dataSource_filter_semantics asciiLower
    { emptyServerQuery with ip_address := "10.0.0.1", status := "act" }
    { emptySubnetQuery with name := "FRONT" } sampleServers sampleSubnets
    (Or.inr (by
      intro server hmem
      simp only [sampleServers, List.mem_cons, List.mem_singleton, List.not_mem_nil,
        or_false] at hmem
      rcases hmem with h | h <;> subst h <;> rfl))
  ⟨by rw [h.2.1]; rfl, by rw [h.2.2.2]; rfl⟩

/-- C8 (evaluation at the failing input): `server_id` / `subnet_id` is set, no filter value is
set, and the accessor `Get` fails with an error that is not `NotFound`.  Both reads issue that
one failed `Get` and then return `nil`, with the identity and the attributes taken from the
zero record that came with the error. -/
theorem dataSourceRead_get_error_not_surfaced :
    (dataSourceServerRead asciiLower (failingServerClient (ApiError.other "timeout"))
        { emptyServerQuery with server_id := "srv-1" } unitWorld).map
      (fun r => (r.err, r.d.id, r.d.name, r.world.trace)) =
        some (none, "", "",
          [{ call := ServerCall.get "srv-1" false, err := some (ApiError.other "timeout") }]) ∧
    (dataSourceSubnetRead asciiLower (failingSubnetClient (ApiError.other "timeout"))
        { emptySubnetQuery with subnet_id := "sub-1" } unitWorld).map
      (fun r => (r.err, r.d.id, r.d.cidr, r.world.trace)) =
        some (none, "", "",
          [{ call := SubnetCall.get "sub-1", err := some (ApiError.other "timeout") }]) := by
  constructor <;> rfl

/-! ## Update with an unchanged configuration -/

theorem resourceSecurityGroupRead_spec {σ : Type} (client : SecurityGroupClient σ)
    (d : SecurityGroupData) (w : World σ SGCall) :
    (resourceSecurityGroupRead client d w).world.trace =
        w.trace ++ [{ call := SGCall.get d.id, err := (client.Get d.id w.remote).1.2 }] ∧
      (resourceSecurityGroupRead client d w).world.remote = (client.Get d.id w.remote).2 ∧
      (resourceSecurityGroupRead client d w).err =
        ((client.Get d.id w.remote).1.2).map (SGError.receiving d.id) := by
  unfold resourceSecurityGroupRead World.invoke
  cases h : (client.Get d.id w.remote).1.2 <;> simp [h]

theorem resourceAutoScalingAZPolicyRead_spec {σ : Type} (client : AutoScalingPolicyClient σ)
    (d : AZPolicyData) (w : World σ AZPolicyCall) :
    (resourceAutoScalingAZPolicyRead client d w).world.trace =
        w.trace ++ [{ call := AZPolicyCall.get d.id, err := (client.Get d.id w.remote).1.2 }] ∧
      (resourceAutoScalingAZPolicyRead client d w).err =
        ((client.Get d.id w.remote).1.2).map (AZPolicyError.retrieving d.id) := by
  unfold resourceAutoScalingAZPolicyRead World.invoke
  cases h : (client.Get d.id w.remote).1.2 <;> simp [h]

theorem resourceAutoBackupUpdate_unchanged {σ π : Type} (client : AutoBackupClient σ π)
    (mkParams : String → String → π) (d : AutoBackupData) (w : World σ (BackupCall π))
    (hb : ∀ key, d.HasChange key = false) (hv : d.schedule_time.data.count ':' = 1) :
    issued w (resourceAutoBackupUpdate client mkParams d w).world =
        [{ call := BackupCall.get d.id, err := (client.Get d.id w.remote).1.2 }] ∧
      (resourceAutoBackupUpdate client mkParams d w).err =
        ((client.Get d.id w.remote).1.2).map (BackupError.retrieving d.id) := by
  unfold resourceAutoBackupUpdate
  cases hs : splitScheduleTime d.schedule_time with
  | none => exact absurd hv ((splitScheduleTime_eq_none_iff d.schedule_time).mp hs)
  | some hm =>
    simp only [hs, hb, Bool.or_self, Bool.false_eq_true, if_false]
    exact ⟨issued_of_trace _ _ _ (resourceAutoBackupRead_spec client d w).1,
      (resourceAutoBackupRead_spec client d w).2⟩

/-- C9, as stated, fails for the auto-backup kinds: Update of a database auto-backup whose
configuration is unchanged and whose `schedule_time` is `1905` returns the format error and
issues no accessor call at all, so no Read is performed. -/
theorem resourceAutoBackupUpdate_unchanged_without_read :
    (∀ key, (backupData "1905").HasChange key = false) ∧
      (resourceDatabaseAutoBackupUpdate refDatabaseBackupClient (backupData "1905")
          refBackupWorld).err = some (BackupError.invalidScheduleTime "1905") ∧
      issued refBackupWorld (resourceDatabaseAutoBackupUpdate refDatabaseBackupClient
          (backupData "1905") refBackupWorld).world = [] ∧
      (resourceVolumeAutoBackupUpdate refVolumeBackupClient (backupData "1905")
          refBackupWorld).err = some (BackupError.invalidScheduleTime "1905") ∧
      issued refBackupWorld (resourceVolumeAutoBackupUpdate refVolumeBackupClient
          (backupData "1905") refBackupWorld).world = [] := by
  refine ⟨fun _ => rfl, rfl, rfl, rfl, rfl⟩

/-- C9 (amended): Update called with an unchanged configuration (no tracked field reports a
change) issues exactly one accessor call, the `Get` of Read, and returns `nil` when that `Get`
succeeds and the Read error wrapping its error otherwise: no accessor Update and no sub-item
call is issued.  This holds for the autoscaling AZ policy and the security group always, and for
the database and volume auto-backup when `schedule_time` contains exactly one `:`. -/
theorem update_unchanged_reads_once {σ₁ σ₂ σ₃ σ₄ : Type}
    (getDiffSet : List RuleMap → List RuleMap → List RuleMap × List RuleMap)
    (az : AutoScalingPolicyClient σ₁) (db : AutoBackupClient σ₂ DatabaseAutoBackupParams)
    (vol : AutoBackupClient σ₃ VolumeAutoBackupParams) (sg : SecurityGroupClient σ₄)
    (p : AZPolicyData) (b : AutoBackupData) (g : SecurityGroupData)
    (w₁ : World σ₁ AZPolicyCall) (w₂ : World σ₂ (BackupCall DatabaseAutoBackupParams))
    (w₃ : World σ₃ (BackupCall VolumeAutoBackupParams)) (w₄ : World σ₄ SGCall)
    (hp : ∀ key, p.HasChange key = false) (hb : ∀ key, b.HasChange key = false)
    (hg : ∀ key, g.HasChange key = false) (hv : b.schedule_time.data.count ':' = 1) :
    (issued w₁ (resourceAutoScalingAZPolicyUpdate az p w₁).world =
        [{ call := AZPolicyCall.get p.id, err := (az.Get p.id w₁.remote).1.2 }] ∧
      (resourceAutoScalingAZPolicyUpdate az p w₁).err =
        ((az.Get p.id w₁.remote).1.2).map (AZPolicyError.retrieving p.id)) ∧
    (issued w₂ (resourceDatabaseAutoBackupUpdate db b w₂).world =
        [{ call := BackupCall.get b.id, err := (db.Get b.id w₂.remote).1.2 }] ∧
      (resourceDatabaseAutoBackupUpdate db b w₂).err =
        ((db.Get b.id w₂.remote).1.2).map (BackupError.retrieving b.id)) ∧
    (issued w₃ (resourceVolumeAutoBackupUpdate vol b w₃).world =
        [{ call := BackupCall.get b.id, err := (vol.Get b.id w₃.remote).1.2 }] ∧
      (resourceVolumeAutoBackupUpdate vol b w₃).err =
        ((vol.Get b.id w₃.remote).1.2).map (BackupError.retrieving b.id)) ∧
    (issued w₄ (resourceSecurityGroupUpdate getDiffSet sg g w₄).world =
        [{ call := SGCall.get g.id, err := (sg.Get g.id w₄.remote).1.2 }] ∧
      (resourceSecurityGroupUpdate getDiffSet sg g w₄).err =
        ((sg.Get g.id w₄.remote).1.2).map (SGError.receiving g.id)) := by
  refine ⟨?_, resourceAutoBackupUpdate_unchanged db _ b w₂ hb hv,
    resourceAutoBackupUpdate_unchanged vol _ b w₃ hb hv, ?_⟩
  · unfold resourceAutoScalingAZPolicyUpdate
    simp only [hp, Bool.false_eq_true, if_false]
    exact ⟨issued_of_trace _ _ _ (resourceAutoScalingAZPolicyRead_spec az p w₁).1,
      (resourceAutoScalingAZPolicyRead_spec az p w₁).2⟩
  · unfold resourceSecurityGroupUpdate updateGroupRules updateGroupFields
    simp only [hg, Bool.or_self, Bool.false_eq_true, if_false]
    exact ⟨issued_of_trace _ _ _ (resourceSecurityGroupRead_spec sg g w₄).1,
      (resourceSecurityGroupRead_spec sg g w₄).2.2⟩

theorem update_unchanged_reads_once_witness :
    issued unitWorld (resourceAutoScalingAZPolicyUpdate refPolicyClient policyData
        unitWorld).world = [{ call := AZPolicyCall.get "pol-1", err := none }] ∧
      issued refBackupWorld (resourceDatabaseAutoBackupUpdate refDatabaseBackupClient
        (backupData "19:05") refBackupWorld).world =
          [{ call := BackupCall.get "", err := none }] ∧
      (resourceSecurityGroupUpdate getDiffSet refClient { emptyGroupData with id := "sg-1" }
        (refWorld [])).err = none :=
  have h := update_unchanged_reads_once getDiffSet refPolicyClient refDatabaseBackupClient
    refVolumeBackupClient refClient policyData (backupData "19:05")
    { emptyGroupData with id := "sg-1" } unitWorld refBackupWorld refBackupWorld (refWorld [])
    (fun _ => rfl) (fun _ => rfl) (fun _ => rfl) (by decide)
  ⟨h.1.1, h.2.1.1, h.2.2.2.2⟩

/-! ## Set reconciler -/

theorem filter_sublist_perm {α ι : Type} [DecidableEq ι] (f : α → ι) (O R : List α)
    (hnd : (O.map f).Nodup) (hsub : List.Sublist R O) :
    List.Perm ((O.filter fun x => decide (f x ∉ R.map f)) ++ R) O := by
  induction hsub with
  | slnil => simp
  | @cons R O' a h ih =>
    simp only [List.map_cons, List.nodup_cons] at hnd
    have hna : f a ∉ R.map f := fun hm => hnd.1 ((h.map f).subset hm)
    rw [List.filter_cons_of_pos (by simpa using hna)]
    exact (ih hnd.2).cons a
  | @cons₂ R' O' a h ih =>
    simp only [List.map_cons, List.nodup_cons] at hnd
    rw [List.filter_cons_of_neg (by simp)]
    have hc : (O'.filter fun x => decide (f x ∉ (a :: R').map f)) =
        O'.filter fun x => decide (f x ∉ R'.map f) := by
      apply List.filter_congr
      intro x hx
      have hne : f x ≠ f a := fun he => hnd.1 (he ▸ List.mem_map_of_mem f hx)
      simp [hne]
    rw [hc]
    exact List.perm_middle.trans ((ih hnd.2).cons a)

theorem keys_converge {β : Type} [DecidableEq β] (A B K : List β)
    (h : List.Perm (K ++ A.diff B) A) : List.Perm (K ++ B.diff A) B := by
  rw [← Multiset.coe_eq_coe] at h ⊢
  rw [← Multiset.coe_add, ← Multiset.coe_sub] at h ⊢
  ext k
  have hk := congrArg (Multiset.count k) h
  simp only [Multiset.count_add, Multiset.count_sub] at hk ⊢
  omega

theorem eraseStructural_sublist (key : RuleParams) (l : List RuleMap) :
    List.Sublist (eraseStructural key l) l := by
  induction l with
  | nil => exact List.Sublist.slnil
  | cons a rest ih =>
    unfold eraseStructural
    split_ifs
    · exact List.sublist_cons_self a rest
    · exact ih.cons₂ a

theorem map_eraseStructural (key : RuleParams) (l : List RuleMap) :
    (eraseStructural key l).map ruleParams = (l.map ruleParams).erase key := by
  induction l with
  | nil => rfl
  | cons a rest ih =>
    unfold eraseStructural
    by_cases h : ruleParams a = key
    · rw [if_pos h, List.map_cons, List.erase_cons, if_pos (by simpa using h)]
    · rw [if_neg h, List.map_cons, List.map_cons, List.erase_cons, if_neg (by simpa using h), ih]

theorem structuralDiff_cons (xs ys : List RuleMap) (y : RuleMap) :
    structuralDiff xs (y :: ys) = structuralDiff (eraseStructural (ruleParams y) xs) ys := rfl

theorem structuralDiff_sublist (xs ys : List RuleMap) :
    List.Sublist (structuralDiff xs ys) xs := by
  induction ys generalizing xs with
  | nil => exact List.Sublist.refl xs
  | cons y rest ih =>
    rw [structuralDiff_cons]
    exact (ih _).trans (eraseStructural_sublist _ xs)

theorem map_structuralDiff (xs ys : List RuleMap) :
    (structuralDiff xs ys).map ruleParams = (xs.map ruleParams).diff (ys.map ruleParams) := by
  induction ys generalizing xs with
  | nil => simp [structuralDiff]
  | cons y rest ih =>
    rw [structuralDiff_cons, ih, map_eraseStructural, List.map_cons, List.diff_cons]

theorem invoke_trace {σ κ α : Type} (w : World σ κ) (call : κ)
    (f : σ → (α × Option ApiError) × σ) :
    (w.invoke call f).2.trace = w.trace ++ [{ call := call, err := (w.invoke call f).1.2 }] ∧
      (w.invoke call f).2.remote = (f w.remote).2 ∧ (w.invoke call f).1 = (f w.remote).1 :=
  ⟨rfl, rfl, rfl⟩

theorem removeRules_spec {σ : Type} (client : SecurityGroupClient σ)
    (rulesOf : σ → List RuleMap) (id : String)
    (hDelete : ∀ rid s, (client.DeleteRule rid s).1.2 = none →
      rulesOf (client.DeleteRule rid s).2 = (rulesOf s).filter fun r => decide (r.id ≠ rid))
    (rm : List RuleMap) (w : World σ SGCall) :
    ∃ evs, (removeRules client id rm w).2.trace = w.trace ++ evs ∧
      ((∀ ev ∈ evs, ev.err = none) →
        (removeRules client id rm w).1 = none ∧
          rulesOf (removeRules client id rm w).2.remote =
            (rulesOf w.remote).filter fun r => decide (r.id ∉ rm.map fun x => x.id)) := by
  induction rm generalizing w with
  | nil => exact ⟨[], by simp [removeRules], fun _ => by simp [removeRules]⟩
  | cons a rest ih =>
    obtain ⟨ht, hr, hv⟩ := invoke_trace w (SGCall.deleteRule a.id) (client.DeleteRule a.id)
    unfold removeRules
    simp only
    cases he : (w.invoke (SGCall.deleteRule a.id) (client.DeleteRule a.id)).1.2 with
    | some err =>
      rw [he] at ht
      have hbad : ∀ evs : List (Event SGCall),
          ¬ ∀ ev ∈ ({ call := SGCall.deleteRule a.id, err := some err } :: evs : List _),
            ev.err = none := by
        intro evs hall
        have := hall _ (List.mem_cons_self _ _)
        simp at this
      by_cases hnf : err.isNotFound = true
      · simp only [hnf, if_true]
        obtain ⟨evs, hevs, _⟩ := ih (w.invoke (SGCall.deleteRule a.id) (client.DeleteRule a.id)).2
        refine ⟨_ :: evs, ?_, fun hall => absurd hall (hbad evs)⟩
        rw [hevs, ht, List.append_assoc]
        rfl
      · simp only [hnf, if_false]
        exact ⟨[_], ht, fun hall => absurd hall (hbad [])⟩
    | none =>
      rw [he] at ht
      simp only
      obtain ⟨evs, hevs, hok⟩ := ih (w.invoke (SGCall.deleteRule a.id) (client.DeleteRule a.id)).2
      refine ⟨{ call := SGCall.deleteRule a.id, err := none } :: evs, ?_, fun hall => ?_⟩
      · rw [hevs, ht, List.append_assoc]
        rfl
      · obtain ⟨h1, h2⟩ := hok (fun ev hev => hall ev (List.mem_cons_of_mem _ hev))
        refine ⟨h1, ?_⟩
        rw [h2, hr, hDelete a.id w.remote (by rw [← hv]; exact he), List.filter_filter]
        apply List.filter_congr
        intro x _
        rw [Bool.eq_iff_iff]
        simp [not_or, and_comm]

theorem addRules_spec {σ : Type} (client : SecurityGroupClient σ)
    (rulesOf : σ → List RuleMap) (id : String)
    (hCreate : ∀ gid p s, (client.CreateRule gid p s).1.2 = none →
      ∃ newId, rulesOf (client.CreateRule gid p s).2 = rulesOf s ++ [ruleOfParams newId p])
    (add : List RuleMap) (w : World σ SGCall) :
    ∃ evs, (addRules client id add w).2.trace = w.trace ++ evs ∧
      ((∀ ev ∈ evs, ev.err = none) →
        (addRules client id add w).1 = none ∧
          ∃ created, rulesOf (addRules client id add w).2.remote = rulesOf w.remote ++ created ∧
            created.map ruleParams = add.map ruleParams) := by
  induction add generalizing w with
  | nil => exact ⟨[], by simp [addRules], fun _ => ⟨rfl, [], by simp [addRules], rfl⟩⟩
  | cons a rest ih =>
    obtain ⟨ht, hr, hv⟩ := invoke_trace w (SGCall.createRule id (ruleParams a))
      (client.CreateRule id (ruleParams a))
    unfold addRules
    simp only
    cases he : (w.invoke (SGCall.createRule id (ruleParams a))
        (client.CreateRule id (ruleParams a))).1.2 with
    | some err =>
      rw [he] at ht
      refine ⟨[_], ht, fun hall => ?_⟩
      have := hall _ (List.mem_singleton.mpr rfl)
      simp at this
    | none =>
      rw [he] at ht
      simp only
      obtain ⟨evs, hevs, hok⟩ := ih (w.invoke (SGCall.createRule id (ruleParams a))
        (client.CreateRule id (ruleParams a))).2
      refine ⟨{ call := SGCall.createRule id (ruleParams a), err := none } :: evs, ?_,
        fun hall => ?_⟩
      · rw [hevs, ht, List.append_assoc]
        rfl
      · obtain ⟨h1, created, h2, h3⟩ := hok (fun ev hev => hall ev (List.mem_cons_of_mem _ hev))
        obtain ⟨newId, hnew⟩ := hCreate id (ruleParams a) w.remote (by rw [← hv]; exact he)
        refine ⟨h1, ruleOfParams newId (ruleParams a) :: created, ?_, ?_⟩
        · rw [h2, hr, hnew, List.append_assoc]
          rfl
        · rw [List.map_cons, List.map_cons, h3]
          rfl

theorem reconcileRules_spec {σ : Type} (client : SecurityGroupClient σ)
    (rulesOf : σ → List RuleMap) (id : String)
    (hDelete : ∀ rid s, (client.DeleteRule rid s).1.2 = none →
      rulesOf (client.DeleteRule rid s).2 = (rulesOf s).filter fun r => decide (r.id ≠ rid))
    (hCreate : ∀ gid p s, (client.CreateRule gid p s).1.2 = none →
      ∃ newId, rulesOf (client.CreateRule gid p s).2 = rulesOf s ++ [ruleOfParams newId p])
    (rm add : List RuleMap) (w : World σ SGCall) :
    ∃ evs, (reconcileRules client id rm add w).2.trace = w.trace ++ evs ∧
      ((∀ ev ∈ evs, ev.err = none) →
        (reconcileRules client id rm add w).1 = none ∧
          ∃ created, rulesOf (reconcileRules client id rm add w).2.remote =
              ((rulesOf w.remote).filter fun r => decide (r.id ∉ rm.map fun x => x.id))
                ++ created ∧
            created.map ruleParams = add.map ruleParams) := by
  obtain ⟨evs1, ht1, hok1⟩ := removeRules_spec client rulesOf id hDelete rm w
  unfold reconcileRules
  simp only
  cases h : (removeRules client id rm w).1 with
  | some err =>
    refine ⟨evs1, ht1, fun hall => ?_⟩
    rw [(hok1 hall).1] at h
    cases h
  | none =>
    simp only
    obtain ⟨evs2, ht2, hok2⟩ :=
      addRules_spec client rulesOf id hCreate add (removeRules client id rm w).2
    refine ⟨evs1 ++ evs2, by rw [ht2, ht1, List.append_assoc], fun hall => ?_⟩
    obtain ⟨_, hrm⟩ := hok1 (fun ev hev => hall ev (List.mem_append_left _ hev))
    obtain ⟨hadd, created, hc1, hc2⟩ :=
      hok2 (fun ev hev => hall ev (List.mem_append_right _ hev))
    exact ⟨hadd, created, by rw [hc1, hrm], hc2⟩

theorem structural_convergence (O D created : List RuleMap)
    (hIds : (O.map fun r => r.id).Nodup)
    (hc : created.map ruleParams = (getDiffSet O D).2.map ruleParams) :
    List.Perm
      (((O.filter fun r => decide (r.id ∉ (getDiffSet O D).1.map fun x => x.id))
        ++ created).map ruleParams)
      (D.map ruleParams) := by
  have hp := (filter_sublist_perm (fun r : RuleMap => r.id) O (getDiffSet O D).1 hIds
    (structuralDiff_sublist O D)).map ruleParams
  rw [List.map_append] at hp ⊢
  rw [hc]
  simp only [getDiffSet, map_structuralDiff] at hp ⊢
  exact keys_converge _ _ _ hp

/-- C10: let `O = d.ruleOld` be the observed and `D = d.rule` the declared rule collection, the
remote system holding `O` and the identities in `O` being distinct.  If the accessor behaves as
a rule store (a successful `DeleteRule` removes the rule with that identity, a successful
`CreateRule` adds the rule under some identity, `Update` and `Get` leave the rules alone) and
every call issued by `resourceSecurityGroupUpdate` succeeds, then Update returns `nil` and the
rules held by the remote system afterwards are, once the identity is dropped, a permutation of
`D` with the identity dropped: equal to `D` as a multiset under structural equality. -/
theorem resourceSecurityGroupUpdate_converges {σ : Type} (client : SecurityGroupClient σ)
    (rulesOf : σ → List RuleMap) (d : SecurityGroupData) (w : World σ SGCall)
    (hUpdate : ∀ id p s, rulesOf (client.Update id p s).2 = rulesOf s)
    (hGet : ∀ id s, rulesOf (client.Get id s).2 = rulesOf s)
    (hDelete : ∀ rid s, (client.DeleteRule rid s).1.2 = none →
      rulesOf (client.DeleteRule rid s).2 = (rulesOf s).filter fun r => decide (r.id ≠ rid))
    (hCreate : ∀ gid p s, (client.CreateRule gid p s).1.2 = none →
      ∃ newId, rulesOf (client.CreateRule gid p s).2 = rulesOf s ++ [ruleOfParams newId p])
    (hChange : d.HasChange "rule" = true)
    (hObserved : rulesOf w.remote = d.ruleOld)
    (hIds : (d.ruleOld.map fun r => r.id).Nodup)
    (hOk : ∀ ev ∈ issued w (resourceSecurityGroupUpdate getDiffSet client d w).world,
      ev.err = none) :
    (resourceSecurityGroupUpdate getDiffSet client d w).err = none ∧
      List.Perm
        ((rulesOf (resourceSecurityGroupUpdate getDiffSet client d w).world.remote).map
          ruleParams)
        (d.rule.map ruleParams) := by
  -- first block: the accessor Update
  have h1 : ∃ evs, (updateGroupFields client d w).2.trace = w.trace ++ evs ∧
      rulesOf (updateGroupFields client d w).2.remote = rulesOf w.remote ∧
      ((∀ ev ∈ evs, ev.err = none) → (updateGroupFields client d w).1 = none) := by
    unfold updateGroupFields
    split_ifs
    · refine ⟨[_], rfl, hUpdate _ _ _, fun hall => ?_⟩
      exact hall _ (List.mem_singleton.mpr rfl)
    · exact ⟨[], by simp, rfl, fun _ => rfl⟩
  obtain ⟨evs1, ht1, hr1, hok1⟩ := h1
  -- second block: the reconciliation
  obtain ⟨evs2, ht2, hok2⟩ := reconcileRules_spec client rulesOf d.id hDelete hCreate
    (getDiffSet d.ruleOld d.rule).1 (getDiffSet d.ruleOld d.rule).2
    (updateGroupFields client d w).2
  have hrules : updateGroupRules getDiffSet client d (updateGroupFields client d w).2 =
      reconcileRules client d.id (getDiffSet d.ruleOld d.rule).1 (getDiffSet d.ruleOld d.rule).2
        (updateGroupFields client d w).2 := by
    unfold updateGroupRules
    rw [if_pos hChange]
  unfold resourceSecurityGroupUpdate at hOk ⊢
  simp only [hrules] at hOk ⊢
  cases he1 : (updateGroupFields client d w).1 with
  | some err =>
    simp only [he1] at hOk
    rw [issued_of_trace _ _ _ ht1] at hOk
    rw [hok1 hOk] at he1
    cases he1
  | none =>
    simp only [he1] at hOk ⊢
    cases he2 : (reconcileRules client d.id (getDiffSet d.ruleOld d.rule).1
        (getDiffSet d.ruleOld d.rule).2 (updateGroupFields client d w).2).1 with
    | some err =>
      simp only [he2] at hOk
      rw [issued_of_trace w _ (evs1 ++ evs2) (by rw [ht2, ht1, List.append_assoc])] at hOk
      rw [(hok2 (fun ev hev => hOk ev (List.mem_append_right _ hev))).1] at he2
      cases he2
    | none =>
      simp only [he2] at hOk ⊢
      obtain ⟨ht3, hr3, herr3⟩ := resourceSecurityGroupRead_spec client d
        (reconcileRules client d.id (getDiffSet d.ruleOld d.rule).1
          (getDiffSet d.ruleOld d.rule).2 (updateGroupFields client d w).2).2
      rw [issued_of_trace w _ (evs1 ++ evs2 ++ [_])
        (by rw [ht3, ht2, ht1, List.append_assoc, List.append_assoc, List.append_assoc])] at hOk
      have hget := hOk _ (List.mem_append_right _ (List.mem_singleton.mpr rfl))
      simp only at hget
      obtain ⟨_, created, hc1, hc2⟩ := hok2 (fun ev hev =>
        hOk ev (List.mem_append_left _ (List.mem_append_right _ hev)))
      refine ⟨by rw [herr3, hget]; rfl, ?_⟩
      rw [hr3, hGet, hc1, hr1, hObserved]
      exact structural_convergence d.ruleOld d.rule created hIds hc2

theorem resourceSecurityGroupUpdate_converges_witness :
    (resourceSecurityGroupUpdate getDiffSet refClient reconcileData
        (refWorld observedRules)).err = none ∧
      List.Perm
        ((resourceSecurityGroupUpdate getDiffSet refClient reconcileData
          (refWorld observedRules)).world.remote.rules.map ruleParams)
        (declaredRules.map ruleParams) :=
  resourceSecurityGroupUpdate_converges refClient RefRemote.rules reconcileData
    (refWorld observedRules) (fun _ _ _ => rfl) (fun _ _ => rfl)
    (by
      intro rid s h
      simp only [refClient] at h ⊢
      split_ifs at h ⊢
      rfl)
    (fun _ p s _ => ⟨"rule-" ++ toString s.next, rfl⟩)
    rfl rfl (by decide) (by decide)

/-- The run behind the example above: one deletion (`r-2`), then the two creations, then the
Get of Read. -/
theorem resourceSecurityGroupUpdate_example_trace :
    (resourceSecurityGroupUpdate getDiffSet refClient reconcileData
        (refWorld observedRules)).world.trace.map (fun ev => ev.err) = [none, none, none, none] ∧
      ((resourceSecurityGroupUpdate getDiffSet refClient reconcileData
        (refWorld observedRules)).world.trace.head?).map (fun ev => ev.call) =
          some (SGCall.deleteRule "r-2") := by
  constructor <;> rfl

/-! ## Security group: order and failures of the sub-item calls -/

theorem removeRules_trace {σ : Type} (client : SecurityGroupClient σ) (id : String)
    (rm : List RuleMap) (w : World σ SGCall) :
    ∃ evs, (removeRules client id rm w).2.trace = w.trace ++ evs ∧
      (∀ ev ∈ evs, ev.call.isDeleteRule = true) ∧
      (((removeRules client id rm w).1 = none ∧
          evs.map (fun ev => ev.call) = rm.map (fun r => SGCall.deleteRule r.id) ∧
          ∀ ev ∈ evs, ∀ e, ev.err = some e → e.isNotFound = true) ∨
        ∃ i rule e pre, rm[i]? = some rule ∧ e.isNotFound = false ∧
          (removeRules client id rm w).1 = some (SGError.removingRule rule.id id e) ∧
          evs = pre ++ [{ call := SGCall.deleteRule rule.id, err := some e }] ∧
          pre.map (fun ev => ev.call) = (rm.take i).map (fun r => SGCall.deleteRule r.id) ∧
          ∀ ev ∈ pre, ∀ e, ev.err = some e → e.isNotFound = true) := by
  induction rm generalizing w with
  | nil => exact ⟨[], by simp [removeRules], by simp, Or.inl (by simp [removeRules])⟩
  | cons a rest ih =>
    obtain ⟨ht, -, -⟩ := invoke_trace w (SGCall.deleteRule a.id) (client.DeleteRule a.id)
    obtain ⟨evs, hevs, hdel, hcases⟩ :=
      ih (w.invoke (SGCall.deleteRule a.id) (client.DeleteRule a.id)).2
    have hrec : ∀ o : Option ApiError,
        (w.invoke (SGCall.deleteRule a.id) (client.DeleteRule a.id)).1.2 = o →
        (∀ e, o = some e → e.isNotFound = true) →
        removeRules client id (a :: rest) w =
          removeRules client id rest
            (w.invoke (SGCall.deleteRule a.id) (client.DeleteRule a.id)).2 := by
      intro o ho hnf
      conv_lhs => unfold removeRules
      simp only [ho]
      cases o with
      | none => rfl
      | some e => simp [hnf e rfl]
    by_cases hskip : ∀ e, (w.invoke (SGCall.deleteRule a.id) (client.DeleteRule a.id)).1.2
        = some e → e.isNotFound = true
    · rw [hrec _ rfl hskip]
      refine ⟨{ call := SGCall.deleteRule a.id,
                err := (w.invoke (SGCall.deleteRule a.id) (client.DeleteRule a.id)).1.2 } :: evs,
        ?_, ?_, ?_⟩
      · rw [hevs, ht, List.append_assoc]
        rfl
      · intro ev hev
        rcases List.mem_cons.mp hev with h | h
        · rw [h]
          rfl
        · exact hdel ev h
      · rcases hcases with ⟨h1, h2, h3⟩ | ⟨i, rule, e, pre, h1, h2, h3, h4, h5, h6⟩
        · refine Or.inl ⟨h1, by simp [h2], ?_⟩
          intro ev hev
          rcases List.mem_cons.mp hev with h | h
          · rw [h]
            exact hskip
          · exact h3 ev h
        · refine Or.inr ⟨i + 1, rule, e, _ :: pre, by simpa using h1, h2, h3, by rw [h4]; rfl,
            by simp [h5], ?_⟩
          intro ev hev
          rcases List.mem_cons.mp hev with h | h
          · rw [h]
            exact hskip
          · exact h6 ev h
    · push_neg at hskip
      obtain ⟨e, he, hnf⟩ := hskip
      have hnf2 : e.isNotFound = false := by simpa using hnf
      have hres : removeRules client id (a :: rest) w =
          (some (SGError.removingRule a.id id e),
            (w.invoke (SGCall.deleteRule a.id) (client.DeleteRule a.id)).2) := by
        conv_lhs => unfold removeRules
        simp [he, hnf2]
      rw [hres]
      refine ⟨[{ call := SGCall.deleteRule a.id, err := some e }], by rw [ht, he], ?_, ?_⟩
      · intro ev hev
        rw [List.mem_singleton.mp hev]
        rfl
      · exact Or.inr ⟨0, a, e, [], by simp, hnf2, rfl, rfl, rfl, by simp⟩

theorem addRules_trace {σ : Type} (client : SecurityGroupClient σ) (id : String)
    (add : List RuleMap) (w : World σ SGCall) :
    ∃ evs, (addRules client id add w).2.trace = w.trace ++ evs ∧
      (∀ ev ∈ evs, ev.call.isCreateRule = true) ∧
      (((addRules client id add w).1 = none ∧
          evs = add.map (fun r =>
            { call := SGCall.createRule id (ruleParams r), err := none })) ∨
        ∃ i rule e, add[i]? = some rule ∧
          (addRules client id add w).1 = some (SGError.creatingRule rule e) ∧
          evs = (add.take i).map (fun r =>
              { call := SGCall.createRule id (ruleParams r), err := none })
            ++ [{ call := SGCall.createRule id (ruleParams rule), err := some e }]) := by
  induction add generalizing w with
  | nil => exact ⟨[], by simp [addRules], by simp, Or.inl (by simp [addRules])⟩
  | cons a rest ih =>
    obtain ⟨ht, -, -⟩ := invoke_trace w (SGCall.createRule id (ruleParams a))
      (client.CreateRule id (ruleParams a))
    cases he : (w.invoke (SGCall.createRule id (ruleParams a))
        (client.CreateRule id (ruleParams a))).1.2 with
    | some e =>
      have hres : addRules client id (a :: rest) w =
          (some (SGError.creatingRule a e),
            (w.invoke (SGCall.createRule id (ruleParams a))
              (client.CreateRule id (ruleParams a))).2) := by
        conv_lhs => unfold addRules
        simp [he]
      rw [hres]
      refine ⟨[{ call := SGCall.createRule id (ruleParams a), err := some e }],
        by rw [ht, he], ?_, Or.inr ⟨0, a, e, by simp, rfl, rfl⟩⟩
      intro ev hev
      rw [List.mem_singleton.mp hev]
      rfl
    | none =>
      have hres : addRules client id (a :: rest) w =
          addRules client id rest
            (w.invoke (SGCall.createRule id (ruleParams a))
              (client.CreateRule id (ruleParams a))).2 := by
        conv_lhs => unfold addRules
        simp [he]
      rw [hres]
      obtain ⟨evs, hevs, hcr, hcases⟩ := ih (w.invoke (SGCall.createRule id (ruleParams a))
        (client.CreateRule id (ruleParams a))).2
      refine ⟨{ call := SGCall.createRule id (ruleParams a), err := none } :: evs, ?_, ?_, ?_⟩
      · rw [hevs, ht, he, List.append_assoc]
        rfl
      · intro ev hev
        rcases List.mem_cons.mp hev with h | h
        · rw [h]
          rfl
        · exact hcr ev h
      · rcases hcases with ⟨h1, h2⟩ | ⟨i, rule, e, h1, h2, h3⟩
        · exact Or.inl ⟨h1, by rw [h2]; rfl⟩
        · exact Or.inr ⟨i + 1, rule, e, by simpa using h1, h2, by rw [h3]; rfl⟩

theorem isCreateRule_of_isDeleteRule (c : SGCall) (h : c.isDeleteRule = true) :
    c.isCreateRule = false := by
  cases c <;> simp_all [SGCall.isDeleteRule, SGCall.isCreateRule]

theorem isDeleteRule_of_isCreateRule (c : SGCall) (h : c.isCreateRule = true) :
    c.isDeleteRule = false := by
  cases c <;> simp_all [SGCall.isDeleteRule, SGCall.isCreateRule]

theorem updateGroupFields_trace {σ : Type} (client : SecurityGroupClient σ)
    (d : SecurityGroupData) (w : World σ SGCall) :
    ∃ ups, (updateGroupFields client d w).2.trace = w.trace ++ ups ∧
      (((updateGroupFields client d w).1 = none ∧
          ∀ ev ∈ ups, ev.call.isDeleteRule = false ∧ ev.call.isCreateRule = false ∧
            ev.err = none) ∨
        ∃ p e, (updateGroupFields client d w).1 = some e ∧
          ups = [{ call := SGCall.update d.id p, err := some e }]) := by
  unfold updateGroupFields
  split_ifs
  · simp only
    cases he : (w.invoke (SGCall.update d.id
        { name := d.name, description := d.description, stateful := d.stateful,
          default_rules := none })
        (client.Update d.id
          { name := d.name, description := d.description, stateful := d.stateful,
            default_rules := none })).1.2 with
    | none =>
      refine ⟨[_], (invoke_trace w _ _).1, Or.inl ⟨rfl, ?_⟩⟩
      intro ev hev
      rw [List.mem_singleton.mp hev]
      exact ⟨rfl, rfl, he⟩
    | some e =>
      refine ⟨[_], (invoke_trace w _ _).1, Or.inr
        ⟨{ name := d.name, description := d.description, stateful := d.stateful,
           default_rules := none }, e, rfl, ?_⟩⟩
      rw [he]
  · exact ⟨[], by simp, Or.inl ⟨rfl, by simp⟩⟩

theorem updateGroupRules_trace {σ : Type}
    (getDiffSet : List RuleMap → List RuleMap → List RuleMap × List RuleMap)
    (client : SecurityGroupClient σ) (d : SecurityGroupData) (w : World σ SGCall) :
    ∃ dels adds,
      (∀ ev ∈ dels, ev.call.isDeleteRule = true ∧ ∀ e, ev.err = some e → e.isNotFound = true) ∧
      (∀ ev ∈ adds, ev.call.isCreateRule = true ∧ ev.err = none) ∧
      (((updateGroupRules getDiffSet client d w).1 = none ∧
          (updateGroupRules getDiffSet client d w).2.trace = w.trace ++ dels ++ adds) ∨
        (∃ rule e, rule ∈ (getDiffSet d.ruleOld d.rule).1 ∧ e.isNotFound = false ∧ adds = [] ∧
          (updateGroupRules getDiffSet client d w).1 =
            some (SGError.removingRule rule.id d.id e) ∧
          (updateGroupRules getDiffSet client d w).2.trace =
            w.trace ++ dels ++ adds ++ [{ call := SGCall.deleteRule rule.id, err := some e }]) ∨
        (∃ rule e, rule ∈ (getDiffSet d.ruleOld d.rule).2 ∧
          (updateGroupRules getDiffSet client d w).1 = some (SGError.creatingRule rule e) ∧
          (updateGroupRules getDiffSet client d w).2.trace =
            w.trace ++ dels ++ adds ++
              [{ call := SGCall.createRule d.id (ruleParams rule), err := some e }])) := by
  unfold updateGroupRules
  split_ifs
  · simp only
    unfold reconcileRules
    simp only
    obtain ⟨evs1, ht1, hd1, hc1⟩ :=
      removeRules_trace client d.id (getDiffSet d.ruleOld d.rule).1 w
    rcases hc1 with ⟨h1, -, h3⟩ | ⟨i, rule, e, pre, h1, h2, h3, h4, -, h6⟩
    · simp only [h1]
      obtain ⟨evs2, ht2, hd2, hc2⟩ := addRules_trace client d.id (getDiffSet d.ruleOld d.rule).2
        (removeRules client d.id (getDiffSet d.ruleOld d.rule).1 w).2
      rcases hc2 with ⟨g1, g2⟩ | ⟨j, rule, e, g1, g2, g3⟩
      · refine ⟨evs1, evs2, fun ev hev => ⟨hd1 ev hev, h3 ev hev⟩, ?_,
          Or.inl ⟨g1, by rw [ht2, ht1]⟩⟩
        intro ev hev
        refine ⟨hd2 ev hev, ?_⟩
        rw [g2] at hev
        obtain ⟨r, -, hr⟩ := List.mem_map.mp hev
        rw [← hr]
      · refine ⟨evs1, (List.take j (getDiffSet d.ruleOld d.rule).2).map (fun r =>
            { call := SGCall.createRule d.id (ruleParams r), err := none }),
          fun ev hev => ⟨hd1 ev hev, h3 ev hev⟩, ?_,
          Or.inr (Or.inr ⟨rule, e, List.getElem?_mem g1, g2, ?_⟩)⟩
        · intro ev hev
          obtain ⟨r, -, hr⟩ := List.mem_map.mp hev
          rw [← hr]
          exact ⟨rfl, rfl⟩
        · rw [ht2, ht1, g3, List.append_assoc, List.append_assoc, List.append_assoc]
    · simp only [h3]
      refine ⟨pre, [], ?_, by simp, Or.inr (Or.inl ⟨rule, e, List.getElem?_mem h1, h2, rfl,
        rfl, ?_⟩)⟩
      · intro ev hev
        exact ⟨hd1 ev (by rw [h4]; exact List.mem_append_left _ hev), h6 ev hev⟩
      · rw [ht1, h4]
        simp
  · exact ⟨[], [], by simp, by simp, Or.inl ⟨rfl, by simp⟩⟩

/-- The shape of every run of `resourceSecurityGroupUpdate`: the calls issued are successful
Update calls (at most one), then deletions that succeeded or were skipped on `NotFound`, then
successful creations, then one last call, which is a failed Update, a failed deletion, a failed
creation or the Get of Read; the returned error is the one of that last call. -/
theorem resourceSecurityGroupUpdate_trace {σ : Type}
    (getDiffSet : List RuleMap → List RuleMap → List RuleMap × List RuleMap)
    (client : SecurityGroupClient σ) (d : SecurityGroupData) (w : World σ SGCall) :
    ∃ ups dels adds last,
      issued w (resourceSecurityGroupUpdate getDiffSet client d w).world =
        ups ++ dels ++ adds ++ [last] ∧
      (∀ ev ∈ ups, ev.call.isDeleteRule = false ∧ ev.call.isCreateRule = false ∧
        ev.err = none) ∧
      (∀ ev ∈ dels, ev.call.isDeleteRule = true ∧ ∀ e, ev.err = some e → e.isNotFound = true) ∧
      (∀ ev ∈ adds, ev.call.isCreateRule = true ∧ ev.err = none) ∧
      ((∃ p e, last = { call := SGCall.update d.id p, err := some e } ∧ ups = [] ∧ dels = [] ∧
          adds = [] ∧
          (resourceSecurityGroupUpdate getDiffSet client d w).err = some (SGError.updating e)) ∨
        (∃ rule e, rule ∈ (getDiffSet d.ruleOld d.rule).1 ∧ e.isNotFound = false ∧ adds = [] ∧
          last = { call := SGCall.deleteRule rule.id, err := some e } ∧
          (resourceSecurityGroupUpdate getDiffSet client d w).err =
            some (SGError.removingRule rule.id d.id e)) ∨
        (∃ rule e, rule ∈ (getDiffSet d.ruleOld d.rule).2 ∧
          last = { call := SGCall.createRule d.id (ruleParams rule), err := some e } ∧
          (resourceSecurityGroupUpdate getDiffSet client d w).err =
            some (SGError.creatingRule rule e)) ∨
        (∃ e, last = { call := SGCall.get d.id, err := e } ∧
          (resourceSecurityGroupUpdate getDiffSet client d w).err =
            e.map (SGError.receiving d.id))) := by
  obtain ⟨ups, htu, hu⟩ := updateGroupFields_trace client d w
  unfold resourceSecurityGroupUpdate
  simp only
  rcases hu with ⟨hu1, hu2⟩ | ⟨p, e, hu1, hu2⟩
  · simp only [hu1]
    obtain ⟨dels, adds, hd, ha, hr⟩ :=
      updateGroupRules_trace getDiffSet client d (updateGroupFields client d w).2
    rcases hr with ⟨hr1, hr2⟩ | ⟨rule, e, hr1, hr2, hr3, hr4, hr5⟩ | ⟨rule, e, hr1, hr2, hr3⟩
    · simp only [hr1]
      obtain ⟨ht, -, herr⟩ := resourceSecurityGroupRead_spec client d
        (updateGroupRules getDiffSet client d (updateGroupFields client d w).2).2
      refine ⟨ups, dels, adds, _, issued_of_trace _ _ _ ?_, hu2, hd, ha,
        Or.inr (Or.inr (Or.inr ⟨_, rfl, herr⟩))⟩
      rw [ht, hr2, htu]
      simp only [List.append_assoc]
    · simp only [hr4]
      refine ⟨ups, dels, adds, _, issued_of_trace _ _ _ ?_, hu2, hd, ha,
        Or.inr (Or.inl ⟨rule, e, hr1, hr2, hr3, rfl, rfl⟩)⟩
      rw [hr5, htu]
      simp only [List.append_assoc]
    · simp only [hr2]
      refine ⟨ups, dels, adds, _, issued_of_trace _ _ _ ?_, hu2, hd, ha,
        Or.inr (Or.inr (Or.inl ⟨rule, e, hr1, rfl, rfl⟩))⟩
      rw [hr3, htu]
      simp only [List.append_assoc]
  · simp only [hu1]
    refine ⟨[], [], [], _, issued_of_trace _ _ _ ?_, by simp, by simp, by simp,
      Or.inl ⟨p, e, rfl, rfl, rfl, rfl, rfl⟩⟩
    rw [htu, hu2]
    rfl

theorem pairwise_deletes_before_creates (A B : List (Event SGCall))
    (hA : ∀ a ∈ A, a.call.isCreateRule = false) (hB : ∀ b ∈ B, b.call.isDeleteRule = false) :
    List.Pairwise (fun a b => ¬ (a.call.isCreateRule = true ∧ b.call.isDeleteRule = true))
      (A ++ B) := by
  rw [List.pairwise_append]
  refine ⟨List.pairwise_of_forall_mem_list fun a ha b _ => ?_,
    List.pairwise_of_forall_mem_list fun a _ b hb => ?_, fun a ha b _ => ?_⟩
  · simp [hA a ha]
  · simp [hB b hb]
  · simp [hA a ha]

/-- C11: in every execution of `resourceSecurityGroupUpdate`, whatever the accessor and the
diff helper do, no `DeleteRule` call is issued after a `CreateRule` call (in the list of calls
issued by Update, no creation stands before a deletion), and if some `DeleteRule` call fails
with an error other than `NotFound` then no `CreateRule` call is issued at all. -/
theorem resourceSecurityGroupUpdate_deletes_before_creates {σ : Type}
    (getDiffSet : List RuleMap → List RuleMap → List RuleMap × List RuleMap)
    (client : SecurityGroupClient σ) (d : SecurityGroupData) (w : World σ SGCall) :
    List.Pairwise (fun a b => ¬ (a.call.isCreateRule = true ∧ b.call.isDeleteRule = true))
        (issued w (resourceSecurityGroupUpdate getDiffSet client d w).world) ∧
      ((∃ ev ∈ issued w (resourceSecurityGroupUpdate getDiffSet client d w).world,
          ev.call.isDeleteRule = true ∧ ∃ e, ev.err = some e ∧ e.isNotFound = false) →
        ∀ ev ∈ issued w (resourceSecurityGroupUpdate getDiffSet client d w).world,
          ev.call.isCreateRule = false) := by
  obtain ⟨ups, dels, adds, last, hiss, hu, hd, ha, hlast⟩ :=
    resourceSecurityGroupUpdate_trace getDiffSet client d w
  rw [hiss]
  have hAB : ∀ a ∈ ups ++ dels, a.call.isCreateRule = false := by
    intro a hmem
    rcases List.mem_append.mp hmem with h | h
    · exact (hu a h).2.1
    · exact isCreateRule_of_isDeleteRule _ (hd a h).1
  have hadds : ∀ b ∈ adds, b.call.isDeleteRule = false := fun b hb =>
    isDeleteRule_of_isCreateRule _ (ha b hb).1
  have hsplit : ups ++ dels ++ adds ++ [last] = (ups ++ dels) ++ (adds ++ [last]) := by
    simp only [List.append_assoc]
  rcases hlast with ⟨p, e, hl, -, -, hadd, -⟩ | ⟨rule, e, -, hnf, hadd, hl, -⟩ |
      ⟨rule, e, -, hl, -⟩ | ⟨e, hl, -⟩
  · -- the accessor Update failed: no sub-item call at all
    subst hadd
    have hall : ∀ a ∈ ups ++ dels ++ [] ++ [last], a.call.isCreateRule = false := by
      intro a hmem
      simp only [List.append_nil, List.mem_append, List.mem_singleton] at hmem
      rcases hmem with h | h
      · exact hAB a (List.mem_append.mpr h)
      · rw [h, hl]
        rfl
    refine ⟨?_, fun _ => hall⟩
    have := pairwise_deletes_before_creates (ups ++ dels ++ [] ++ [last]) [] hall (by simp)
    simpa using this
  · -- a deletion failed: no creation at all
    subst hadd
    have hall : ∀ a ∈ ups ++ dels ++ [] ++ [last], a.call.isCreateRule = false := by
      intro a hmem
      simp only [List.append_nil, List.mem_append, List.mem_singleton] at hmem
      rcases hmem with h | h
      · exact hAB a (List.mem_append.mpr h)
      · rw [h, hl]
        rfl
    refine ⟨?_, fun _ => hall⟩
    have := pairwise_deletes_before_creates (ups ++ dels ++ [] ++ [last]) [] hall (by simp)
    simpa using this
  · -- a creation failed
    have hB : ∀ b ∈ adds ++ [last], b.call.isDeleteRule = false := by
      intro b hmem
      rcases List.mem_append.mp hmem with h | h
      · exact hadds b h
      · rw [List.mem_singleton.mp h, hl]
        rfl
    rw [hsplit]
    refine ⟨pairwise_deletes_before_creates _ _ hAB hB, ?_⟩
    rintro ⟨ev, hmem, hdel, e', he', hnf'⟩
    exfalso
    rcases List.mem_append.mp hmem with h | h
    · rcases List.mem_append.mp h with h | h
      · rw [(hu ev h).1] at hdel
        cases hdel
      · rw [(hd ev h).2 e' he'] at hnf'
        cases hnf'
    · rw [hB ev h] at hdel
      cases hdel
  · -- every sub-item call went through; the last call is the Get of Read
    have hB : ∀ b ∈ adds ++ [last], b.call.isDeleteRule = false := by
      intro b hmem
      rcases List.mem_append.mp hmem with h | h
      · exact hadds b h
      · rw [List.mem_singleton.mp h, hl]
        rfl
    rw [hsplit]
    refine ⟨pairwise_deletes_before_creates _ _ hAB hB, ?_⟩
    rintro ⟨ev, hmem, hdel, e', he', hnf'⟩
    exfalso
    rcases List.mem_append.mp hmem with h | h
    · rcases List.mem_append.mp h with h | h
      · rw [(hu ev h).1] at hdel
        cases hdel
      · rw [(hd ev h).2 e' he'] at hnf'
        cases hnf'
    · rw [hB ev h] at hdel
      cases hdel

/-- A run with one deletion skipped on `NotFound` and two creations: the deletion comes first,
the Get of Read last; and a run whose deletion fails with another error: it is the only call. -/
theorem resourceSecurityGroupUpdate_order_examples :
    (resourceSecurityGroupUpdate getDiffSet scriptedClient reconcileData
        (scriptedWorld [some ApiError.notFound])).world.trace.map (fun ev => ev.call) =
      [SGCall.deleteRule "r-2",
       SGCall.createRule "sg-1" (ruleParams
         { emptyRule with direction := "egress", protocol := "udp", port_range_min := 53,
                          port_range_max := 53, cidr := "0.0.0.0/0" }),
       SGCall.createRule "sg-1" (ruleParams
         { emptyRule with direction := "egress", protocol := "udp", port_range_min := 53,
                          port_range_max := 53, cidr := "0.0.0.0/0" }),
       SGCall.get "sg-1"] ∧
    (resourceSecurityGroupUpdate getDiffSet scriptedClient reconcileData
        (scriptedWorld [some (ApiError.other "boom")])).world.trace.map (fun ev => ev.call) =
      [SGCall.deleteRule "r-2"] := by
  constructor <;> rfl

/-- C12, as stated, fails: when the one deletion of the reconciliation fails with `NotFound`,
Update goes on with the two creations and the Read and returns `nil`, so that failure is not
surfaced; and the errors that are surfaced are qualified by the identity of the rule (for a
deletion) or by the rule (for a creation), not by an index. -/
theorem resourceSecurityGroupUpdate_notFound_not_surfaced :
    (resourceSecurityGroupUpdate getDiffSet scriptedClient reconcileData
        (scriptedWorld [some ApiError.notFound])).world.trace.map (fun ev => ev.err) =
      [some ApiError.notFound, none, none, none] ∧
    (resourceSecurityGroupUpdate getDiffSet scriptedClient reconcileData
        (scriptedWorld [some ApiError.notFound])).err = none ∧
    (resourceSecurityGroupUpdate getDiffSet scriptedClient reconcileData
        (scriptedWorld [some (ApiError.other "boom")])).err =
      some (SGError.removingRule "r-2" "sg-1" (ApiError.other "boom")) ∧
    (resourceSecurityGroupUpdate getDiffSet scriptedClient reconcileData
        (scriptedWorld [none, some (ApiError.other "quota")])).err =
      some (SGError.creatingRule
        { emptyRule with direction := "egress", protocol := "udp", port_range_min := 53,
                         port_range_max := 53, cidr := "0.0.0.0/0" }
        (ApiError.other "quota")) := by
  refine ⟨rfl, rfl, rfl, rfl⟩

/-- C12 (amended): in every execution of `resourceSecurityGroupUpdate`, every call before the
last one either succeeded or is a `DeleteRule` that failed with `NotFound` (which the loop
skips).  Hence a `DeleteRule` failing with another error, or a failing `CreateRule`, is the last
call Update issues: no further sub-item call, no Read and no call undoing the completed ones
follows.  Update then returns the error naming the failing item: the identity of the rule and of
the group for a deletion, the declared rule for a creation. -/
theorem resourceSecurityGroupUpdate_failure_surfaced {σ : Type}
    (getDiffSet : List RuleMap → List RuleMap → List RuleMap × List RuleMap)
    (client : SecurityGroupClient σ) (d : SecurityGroupData) (w : World σ SGCall) :
    (∀ ev ∈ (issued w (resourceSecurityGroupUpdate getDiffSet client d w).world).dropLast,
        ev.err = none ∨
          (ev.call.isDeleteRule = true ∧ ∃ e, ev.err = some e ∧ e.isNotFound = true)) ∧
      (∀ rid e,
        (issued w (resourceSecurityGroupUpdate getDiffSet client d w).world).getLast? =
            some { call := SGCall.deleteRule rid, err := some e } →
          e.isNotFound = false ∧
            (resourceSecurityGroupUpdate getDiffSet client d w).err =
              some (SGError.removingRule rid d.id e)) ∧
      (∀ gid p e,
        (issued w (resourceSecurityGroupUpdate getDiffSet client d w).world).getLast? =
            some { call := SGCall.createRule gid p, err := some e } →
          gid = d.id ∧ ∃ rawRule ∈ (getDiffSet d.ruleOld d.rule).2, ruleParams rawRule = p ∧
            (resourceSecurityGroupUpdate getDiffSet client d w).err =
              some (SGError.creatingRule rawRule e)) := by
  obtain ⟨ups, dels, adds, last, hiss, hu, hd, ha, hlast⟩ :=
    resourceSecurityGroupUpdate_trace getDiffSet client d w
  rw [hiss, List.dropLast_concat, List.getLast?_concat]
  refine ⟨?_, ?_, ?_⟩
  · intro ev hmem
    rcases List.mem_append.mp hmem with h | h
    · rcases List.mem_append.mp h with h | h
      · exact Or.inl (hu ev h).2.2
      · cases hev : ev.err with
        | none => exact Or.inl rfl
        | some e => exact Or.inr ⟨(hd ev h).1, e, rfl, (hd ev h).2 e hev⟩
    · exact Or.inl (ha ev h).2
  · intro rid e hl
    rw [Option.some.injEq] at hl
    rcases hlast with ⟨p, e', hl', -⟩ | ⟨rule, e', -, hnf, -, hl', herr⟩ |
        ⟨rule, e', -, hl', -⟩ | ⟨e', hl', -⟩
    · rw [hl'] at hl
      simp at hl
    · rw [hl'] at hl
      simp only [Event.mk.injEq, SGCall.deleteRule.injEq, Option.some.injEq] at hl
      rw [← hl.1, ← hl.2]
      exact ⟨hnf, herr⟩
    · rw [hl'] at hl
      simp at hl
    · rw [hl'] at hl
      simp at hl
  · intro gid p e hl
    rw [Option.some.injEq] at hl
    rcases hlast with ⟨p', e', hl', -⟩ | ⟨rule, e', -, -, -, hl', -⟩ |
        ⟨rule, e', hmem, hl', herr⟩ | ⟨e', hl', -⟩
    · rw [hl'] at hl
      simp at hl
    · rw [hl'] at hl
      simp at hl
    · rw [hl'] at hl
      simp only [Event.mk.injEq, SGCall.createRule.injEq, Option.some.injEq] at hl
      obtain ⟨⟨h1, h2⟩, h3⟩ := hl
      exact ⟨h1.symm, rule, hmem, h2, by rw [← h3]; exact herr⟩
    · rw [hl'] at hl
      simp at hl

/-! ## Security group: creation of the declared rules -/

theorem deleteDefaultRules_trace {σ : Type} (client : SecurityGroupClient σ)
    (rules : List SecurityGroupRule) (w : World σ SGCall) :
    ∃ evs, (deleteDefaultRules client rules w).trace = w.trace ++ evs ∧
      evs.map (fun ev => ev.call) = rules.map (fun rule => SGCall.deleteRule rule.ID) := by
  induction rules generalizing w with
  | nil => exact ⟨[], by simp [deleteDefaultRules], rfl⟩
  | cons a rest ih =>
    obtain ⟨evs, hevs, hcalls⟩ :=
      ih (w.invoke (SGCall.deleteRule a.ID) (client.DeleteRule a.ID)).2
    unfold deleteDefaultRules
    simp only
    refine ⟨{ call := SGCall.deleteRule a.ID,
              err := (w.invoke (SGCall.deleteRule a.ID) (client.DeleteRule a.ID)).1.2 } :: evs,
      ?_, ?_⟩
    · rw [hevs, (invoke_trace w _ _).1, List.append_assoc]
      rfl
    · simp [hcalls]

theorem createDeclaredRules_trace {σ : Type} (client : SecurityGroupClient σ)
    (groupID : String) (start : Nat) (rules : List RuleMap) (w : World σ SGCall) :
    ∃ evs, (createDeclaredRules client groupID start rules w).2.trace = w.trace ++ evs ∧
      (((createDeclaredRules client groupID start rules w).1 = none ∧
          evs = rules.map (fun r =>
            { call := SGCall.createRule groupID (ruleParams r), err := none })) ∨
        ∃ i rule e, rules[i]? = some rule ∧
          (createDeclaredRules client groupID start rules w).1 =
            some (SGError.creatingRuleIndex (start + i + 1) e) ∧
          evs = (rules.take i).map (fun r =>
              { call := SGCall.createRule groupID (ruleParams r), err := none })
            ++ [{ call := SGCall.createRule groupID (ruleParams rule), err := some e }]) := by
  induction rules generalizing w start with
  | nil => exact ⟨[], by simp [createDeclaredRules], Or.inl (by simp [createDeclaredRules])⟩
  | cons a rest ih =>
    obtain ⟨ht, -, -⟩ := invoke_trace w (SGCall.createRule groupID (ruleParams a))
      (client.CreateRule groupID (ruleParams a))
    cases he : (w.invoke (SGCall.createRule groupID (ruleParams a))
        (client.CreateRule groupID (ruleParams a))).1.2 with
    | some e =>
      have hres : createDeclaredRules client groupID start (a :: rest) w =
          (some (SGError.creatingRuleIndex (start + 1) e),
            (w.invoke (SGCall.createRule groupID (ruleParams a))
              (client.CreateRule groupID (ruleParams a))).2) := by
        conv_lhs => unfold createDeclaredRules
        simp [he]
      rw [hres]
      exact ⟨[{ call := SGCall.createRule groupID (ruleParams a), err := some e }],
        by rw [ht, he], Or.inr ⟨0, a, e, by simp, rfl, rfl⟩⟩
    | none =>
      have hres : createDeclaredRules client groupID start (a :: rest) w =
          createDeclaredRules client groupID (start + 1) rest
            (w.invoke (SGCall.createRule groupID (ruleParams a))
              (client.CreateRule groupID (ruleParams a))).2 := by
        conv_lhs => unfold createDeclaredRules
        simp [he]
      rw [hres]
      obtain ⟨evs, hevs, hcases⟩ := ih (start + 1)
        (w.invoke (SGCall.createRule groupID (ruleParams a))
          (client.CreateRule groupID (ruleParams a))).2
      refine ⟨{ call := SGCall.createRule groupID (ruleParams a), err := none } :: evs, ?_, ?_⟩
      · rw [hevs, ht, he, List.append_assoc]
        rfl
      · rcases hcases with ⟨h1, h2⟩ | ⟨i, rule, e, h1, h2, h3⟩
        · exact Or.inl ⟨h1, by rw [h2]; rfl⟩
        · refine Or.inr ⟨i + 1, rule, e, by simpa using h1, ?_, by rw [h3]; rfl⟩
          rw [h2]
          congr 2
          omega

/-- C13: let the declared rules pass validation, the accessor Create succeed with `group` and
the following Get succeed with `sg`.  `resourceSecurityGroupCreate` then issues Create, Get, one
`DeleteRule` per rule of `sg`, and `CreateRule` for the declared rules in the order of the list.
Either every `CreateRule` succeeds: there is exactly one per declared rule, followed by the Get
of Read, whose outcome is returned.  Or the call for the rule at 0-based position `i` is the
first to fail: the `CreateRule` calls issued are the successful ones for positions `0..i-1`
followed by the failed one, which is the last call (no further `CreateRule`, no Read), and the
returned error names rule index `i + 1`.  In both cases the identity is the created group's
id. -/
theorem resourceSecurityGroupCreate_rules_in_order {σ : Type} (client : SecurityGroupClient σ)
    (d : SecurityGroupData) (w : World σ SGCall)
    (group sg : SecurityGroup) (s1 s2 : σ)
    (hvalid : checkRuleErrors d.rule = none)
    (hcreate : client.Create ⟨d.name, d.description, d.stateful, some "false"⟩ w.remote = ((group, none), s1))
    (hget : client.Get group.ID s1 = ((sg, none), s2)) :
    ∃ dels : List (Event SGCall),
      dels.map (fun ev => ev.call) = sg.Rules.map (fun rule => SGCall.deleteRule rule.ID) ∧
      (resourceSecurityGroupCreate client d w).d.id = group.ID ∧
      ((∃ e, issued w (resourceSecurityGroupCreate client d w).world =
            [{ call := SGCall.create ⟨d.name, d.description, d.stateful, some "false"⟩, err := none },
              { call := SGCall.get group.ID, err := none }]
            ++ dels
            ++ d.rule.map (fun r =>
                { call := SGCall.createRule group.ID (ruleParams r), err := none })
            ++ [{ call := SGCall.get group.ID, err := e }] ∧
          (resourceSecurityGroupCreate client d w).err = e.map (SGError.receiving group.ID)) ∨
        (∃ i rule e, d.rule[i]? = some rule ∧
          issued w (resourceSecurityGroupCreate client d w).world =
            [{ call := SGCall.create ⟨d.name, d.description, d.stateful, some "false"⟩, err := none },
              { call := SGCall.get group.ID, err := none }]
            ++ dels
            ++ (d.rule.take i).map (fun r =>
                { call := SGCall.createRule group.ID (ruleParams r), err := none })
            ++ [{ call := SGCall.createRule group.ID (ruleParams rule), err := some e }] ∧
          (resourceSecurityGroupCreate client d w).err =
            some (SGError.creatingRuleIndex (i + 1) e))) := by
  unfold resourceSecurityGroupCreate
  simp only [hvalid, World.invoke, hcreate, hget]
  obtain ⟨dels, htd, hcalls⟩ := deleteDefaultRules_trace client sg.Rules
    { remote := s2,
      trace := (w.trace ++ [{ call := SGCall.create ⟨d.name, d.description, d.stateful, some "false"⟩, err := none }])
        ++ [{ call := SGCall.get group.ID, err := none }] }
  obtain ⟨evs, hte, hcases⟩ := createDeclaredRules_trace client group.ID 0 d.rule
    (deleteDefaultRules client sg.Rules
      { remote := s2,
        trace := (w.trace ++ [{ call := SGCall.create ⟨d.name, d.description, d.stateful, some "false"⟩, err := none }])
          ++ [{ call := SGCall.get group.ID, err := none }] })
  refine ⟨dels, hcalls, ?_⟩
  rcases hcases with ⟨h1, h2⟩ | ⟨i, rule, e, h1, h2, h3⟩
  · simp only [h1]
    obtain ⟨htr, -, herr⟩ := resourceSecurityGroupRead_spec client
      { d with id := group.ID }
      (createDeclaredRules client group.ID 0 d.rule
        (deleteDefaultRules client sg.Rules
          { remote := s2,
            trace := (w.trace ++ [{ call := SGCall.create ⟨d.name, d.description, d.stateful, some "false"⟩, err := none }])
              ++ [{ call := SGCall.get group.ID, err := none }] })).2
    refine ⟨?_, Or.inl ⟨_, issued_of_trace _ _ _ ?_, herr⟩⟩
    · unfold resourceSecurityGroupRead
      simp only
      split <;> rfl
    · rw [htr, hte, htd, h2]
      simp only [List.append_assoc, List.cons_append, List.nil_append]
  · simp only [h2]
    refine ⟨trivial, Or.inr ⟨i, rule, e, h1, issued_of_trace _ _ _ ?_, ?_⟩⟩
    · rw [hte, htd, h3]
      simp only [List.append_assoc, List.cons_append, List.nil_append]
    · simp

theorem resourceSecurityGroupCreate_rules_in_order_witness :
    (resourceSecurityGroupCreate scriptedClient { emptyGroupData with rule := declaredRules }
        (scriptedWorld [none, none, some (ApiError.other "quota")])).d.id = "sg-1" ∧
      (resourceSecurityGroupCreate scriptedClient { emptyGroupData with rule := declaredRules }
        (scriptedWorld [none, none, some (ApiError.other "quota")])).err =
          some (SGError.creatingRuleIndex 2 (ApiError.other "quota")) ∧
      (resourceSecurityGroupCreate scriptedClient { emptyGroupData with rule := declaredRules }
        (scriptedWorld [none, none, some (ApiError.other "quota")])).world.trace.map
          (fun ev => ev.err) = [none, none, none, none, some (ApiError.other "quota")] :=
  ⟨(resourceSecurityGroupCreate_rules_in_order scriptedClient
      { emptyGroupData with rule := declaredRules }
      (scriptedWorld [none, none, some (ApiError.other "quota")])
      { ID := "sg-1", Name := "", Description := "", Stateful := false, Rules := [] }
      { ID := "sg-1", Name := "web", Description := "", Stateful := true,
        Rules := [recordOfRule { emptyRule with id := "default-1" }] }
      [none, none, some (ApiError.other "quota")] [none, none, some (ApiError.other "quota")]
      (by decide) rfl rfl).elim fun _ h => h.2.1,
    rfl, rfl⟩

/-! ## Rule validation: exact characterisation -/

theorem checkRule_eq_none_iff (index : Nat) (r : RuleMap) :
    checkRule index r = none ↔ ¬ r.violates := by
  unfold checkRule RuleMap.violates
  simp only
  split_ifs with h1 h2 h3
  · simp only [reduceCtorEq, false_iff, not_not]
    exact Or.inl h1
  · simp only [reduceCtorEq, false_iff, not_not]
    exact Or.inl ⟨h2.2, h2.1⟩
  · simp only [reduceCtorEq, false_iff, not_not]
    exact Or.inr h3
  · simp only [true_iff]
    rintro (h | h)
    · exact h1 h
    · exact h3 h

theorem checkRuleErrorsFrom_eq_none_iff (start : Nat) (rawRules : List RuleMap) :
    checkRuleErrorsFrom start rawRules = none ↔ ∀ r ∈ rawRules, ¬ r.violates := by
  induction rawRules generalizing start with
  | nil => simp [checkRuleErrorsFrom]
  | cons a rest ih =>
    unfold checkRuleErrorsFrom
    cases hc : checkRule start a with
    | none =>
      have ha := (checkRule_eq_none_iff start a).mp hc
      simp only [ih (start + 1), List.mem_cons, forall_eq_or_imp]
      exact ⟨fun h => ⟨ha, h⟩, fun h => h.2⟩
    | some e =>
      have ha : ¬ ¬ a.violates := fun hn => by
        rw [(checkRule_eq_none_iff start a).mpr hn] at hc
        cases hc
      simp only [reduceCtorEq, false_iff, List.mem_cons, forall_eq_or_imp, not_and]
      exact fun hn => absurd hn ha

theorem checkRuleErrorsFrom_eq_some (start : Nat) (rawRules : List RuleMap) (e : RuleError)
    (h : checkRuleErrorsFrom start rawRules = some e) :
    ∃ i r, e.index = start + i ∧ rawRules[i]? = some r ∧ r.violates ∧
      ∀ j r', j < i → rawRules[j]? = some r' → ¬ r'.violates := by
  induction rawRules generalizing start with
  | nil => simp [checkRuleErrorsFrom] at h
  | cons a rest ih =>
    unfold checkRuleErrorsFrom at h
    cases hc : checkRule start a with
    | none =>
      rw [hc] at h
      obtain ⟨i, r, h1, h2, h3, h4⟩ := ih (start + 1) h
      refine ⟨i + 1, r, by omega, by simpa using h2, h3, ?_⟩
      intro j r' hj hr'
      cases j with
      | zero =>
        simp only [List.getElem?_cons_zero, Option.some.injEq] at hr'
        rw [← hr']
        exact (checkRule_eq_none_iff start a).mp hc
      | succ j =>
        simp only [List.getElem?_cons_succ] at hr'
        exact h4 j r' (by omega) hr'
    | some e' =>
      rw [hc] at h
      simp only [Option.some.injEq] at h
      subst h
      refine ⟨0, a, by rw [checkRule_index start a e' hc]; rfl, by simp, ?_, ?_⟩
      · by_contra hn
        rw [(checkRule_eq_none_iff start a).mpr hn] at hc
        cases hc
      · intro j r' hj
        omega

/-- C14: `checkRuleErrors` returns `nil` iff no rule of the list has both `cidr` and
`dest_securitygroup_id` non-empty and no rule has `port_range_min != 0`, `port_range_max != 0`,
`port_range_min > port_range_max` and `cidr` non-empty.  When it returns an error, the index it
names is the 0-based position of the first rule of the list that violates either condition.
In particular a rule with `cidr` empty (so also one with an inverted range and only
`dest_securitygroup_id` set), and a rule with `port_range_max = 0` that does not set both
targets, is accepted. -/
theorem checkRuleErrors_characterisation (rawRules : List RuleMap) :
    (checkRuleErrors rawRules = none ↔
      ∀ r ∈ rawRules,
        ¬ ((r.cidr ≠ "" ∧ r.dest_securitygroup_id ≠ "") ∨
          (r.port_range_min ≠ 0 ∧ r.port_range_max ≠ 0 ∧
            r.port_range_min > r.port_range_max ∧ r.cidr ≠ ""))) ∧
    (∀ e, checkRuleErrors rawRules = some e →
      (∃ r, rawRules[e.index]? = some r ∧ r.violates) ∧
        ∀ j r, j < e.index → rawRules[j]? = some r → ¬ r.violates) ∧
    (∀ r : RuleMap, r.cidr = "" → checkRuleErrors [r] = none) ∧
    (∀ r : RuleMap, r.port_range_max = 0 → ¬ (r.cidr ≠ "" ∧ r.dest_securitygroup_id ≠ "") →
      checkRuleErrors [r] = none) := by
  refine ⟨checkRuleErrorsFrom_eq_none_iff 0 rawRules, ?_, ?_, ?_⟩
  · intro e he
    obtain ⟨i, r, h1, h2, h3, h4⟩ := checkRuleErrorsFrom_eq_some 0 rawRules e he
    have hi : e.index = i := by omega
    rw [hi]
    exact ⟨⟨r, h2, h3⟩, h4⟩
  · intro r hr
    refine (checkRuleErrorsFrom_eq_none_iff 0 [r]).mpr ?_
    intro r' hr'
    rw [List.mem_singleton.mp hr']
    unfold RuleMap.violates
    simp [hr]
  · intro r hr hn
    refine (checkRuleErrorsFrom_eq_none_iff 0 [r]).mpr ?_
    intro r' hr'
    rw [List.mem_singleton.mp hr']
    unfold RuleMap.violates
    simp only [not_or]
    exact ⟨hn, fun h => h.2.1 hr⟩

/-- An instance of the characterisation: the first rule is valid, the second has an inverted
range with `cidr` set, the third sets both targets; the error names index 1. -/
theorem checkRuleErrors_index_example :
    checkRuleErrors
      [{ emptyRule with cidr := "10.0.0.0/8", port_range_min := 22, port_range_max := 22 },
       { emptyRule with cidr := "10.0.0.0/8", port_range_min := 90, port_range_max := 80 },
       { emptyRule with cidr := "10.0.0.0/8", dest_securitygroup_id := "sg-2" }] =
      some (RuleError.portRange 1) ∧
    (RuleError.portRange 1).message = "rule.1: port_range_max must be >= port_range_min" := by
  constructor
  · simp [checkRuleErrors, checkRuleErrorsFrom, checkRule, emptyRule]
  · decide

/-! ## Volume attachment: the refresh function and the wait -/

theorem attachedState_eq_attached_iff (attachments : List VolumeAttachment)
    (server_id : String) :
    attachedState attachments server_id = "Attached" ↔
      ∃ a ∈ attachments, a.ServerID = server_id := by
  induction attachments with
  | nil => simp [attachedState]
  | cons a rest ih =>
    unfold attachedState
    by_cases h : a.ServerID = server_id
    · rw [if_pos h]
      exact ⟨fun _ => ⟨a, List.mem_cons_self a rest, h⟩, fun _ => rfl⟩
    · rw [if_neg h, ih]
      simp [h]

theorem attachedState_cases (attachments : List VolumeAttachment) (server_id : String) :
    attachedState attachments server_id = "Attached" ∨
      attachedState attachments server_id = "Detached" := by
  induction attachments with
  | nil => exact Or.inr rfl
  | cons a rest ih =>
    unfold attachedState
    split_ifs
    · exact Or.inl rfl
    · exact ih

/-- C15: when `Volume.Get` returns a volume without error, `volumeAttachedStateRefreshfunc`
returns that volume without error, with status `Attached` iff some element of
`volume.Attachments` has `ServerID` equal to `server_id`, and `Detached` otherwise.  So for the
wait of Create (pending `""`, `Detached`; target `Attached`) and for the wait of Delete (pending
`""`, `Attached`; target `Detached`) the status of a successful refresh lies in the pending or
in the target set; and in both waits no status is at once pending and target. -/
theorem volumeAttachedStateRefreshfunc_status {σ : Type} (client : VolumeAttachmentClient σ)
    (d : AttachmentData) (server_id : String) (w : World σ AttachCall)
    (h : (client.VolumeGet d.id w.remote).1.2 = none) :
    (volumeAttachedStateRefreshfunc client d server_id w).1.err = none ∧
      (volumeAttachedStateRefreshfunc client d server_id w).1.result =
        some (client.VolumeGet d.id w.remote).1.1 ∧
      ((volumeAttachedStateRefreshfunc client d server_id w).1.state = "Attached" ↔
        ∃ a ∈ (client.VolumeGet d.id w.remote).1.1.Attachments, a.ServerID = server_id) ∧
      ((volumeAttachedStateRefreshfunc client d server_id w).1.state = "Detached" ↔
        ¬ ∃ a ∈ (client.VolumeGet d.id w.remote).1.1.Attachments, a.ServerID = server_id) ∧
      (((attachedStateConf client d server_id ["", "Detached"] ["Attached"]).Refresh w).1.state ∈
          (attachedStateConf client d server_id ["", "Detached"] ["Attached"]).Pending ++
            (attachedStateConf client d server_id ["", "Detached"] ["Attached"]).Target) ∧
      (((attachedStateConf client d server_id ["", "Attached"] ["Detached"]).Refresh w).1.state ∈
          (attachedStateConf client d server_id ["", "Attached"] ["Detached"]).Pending ++
            (attachedStateConf client d server_id ["", "Attached"] ["Detached"]).Target) ∧
      (∀ status,
        ¬ (status ∈ (attachedStateConf client d server_id ["", "Detached"] ["Attached"]).Pending ∧
          status ∈ (attachedStateConf client d server_id ["", "Detached"] ["Attached"]).Target)) ∧
      (∀ status,
        ¬ (status ∈ (attachedStateConf client d server_id ["", "Attached"] ["Detached"]).Pending ∧
          status ∈ (attachedStateConf client d server_id ["", "Attached"] ["Detached"]).Target)) := by
  have hr : (volumeAttachedStateRefreshfunc client d server_id w).1 =
      { result := some (client.VolumeGet d.id w.remote).1.1
        state := attachedState (client.VolumeGet d.id w.remote).1.1.Attachments server_id
        err := none } := by
    unfold volumeAttachedStateRefreshfunc World.invoke
    simp only [h]
  have hiff := attachedState_eq_attached_iff
    (client.VolumeGet d.id w.remote).1.1.Attachments server_id
  have hcases := attachedState_cases (client.VolumeGet d.id w.remote).1.1.Attachments server_id
  simp only [attachedStateConf, hr]
  refine ⟨trivial, trivial, hiff, ?_, ?_, ?_, ?_, ?_⟩
  · rw [← hiff]
    rcases hcases with hc | hc <;> rw [hc] <;> decide
  · rcases hcases with hc | hc <;> rw [hc] <;> decide
  · rcases hcases with hc | hc <;> rw [hc] <;> decide
  · intro status
    simp only [List.mem_cons, List.mem_singleton, List.not_mem_nil, or_false]
    rintro ⟨h1 | h1, h2⟩ <;> rw [h1] at h2 <;> exact absurd h2 (by decide)
  · intro status
    simp only [List.mem_cons, List.mem_singleton, List.not_mem_nil, or_false]
    rintro ⟨h1 | h1, h2⟩ <;> rw [h1] at h2 <;> exact absurd h2 (by decide)

theorem volumeAttachedStateRefreshfunc_status_witness :
    (volumeAttachedStateRefreshfunc laggingVolumeClient attachmentData "srv-1"
        (volumeWorld ["srv-0", "srv-1"])).1.state = "Attached" ∧
      (volumeAttachedStateRefreshfunc laggingVolumeClient attachmentData "srv-1"
        (volumeWorld ["srv-0"])).1.state = "Detached" :=
  ⟨(volumeAttachedStateRefreshfunc_status laggingVolumeClient attachmentData "srv-1"
      (volumeWorld ["srv-0", "srv-1"]) rfl).2.2.1.mpr
      ⟨{ ServerID := "srv-1" }, by decide, rfl⟩,
    (volumeAttachedStateRefreshfunc_status laggingVolumeClient attachmentData "srv-1"
      (volumeWorld ["srv-0"]) rfl).2.2.2.1.mpr (by decide)⟩

/-- C16: whatever `WaitForState` does and returns, `resourceVolumeAttachmentDelete` returns
`nil` when the accessor Detach succeeds, and `resourceVolumeAttachmentCreate`, when the accessor
Attach succeeds, returns exactly the result of `resourceVolumeAttachmentRead` run, with the
identity set to the volume id, on the world the wait leaves behind; two pollers that leave the
same world behind give the same result of Create, whatever record and error they return. -/
theorem resourceVolumeAttachment_ignores_wait {σ : Type} (WaitForState : Poller σ)
    (client : VolumeAttachmentClient σ) (d : AttachmentData) (w : World σ AttachCall)
    (hDetach : (client.Detach d.id d.server_id w.remote).1.2 = none)
    (hAttach : (client.Attach d.volume_id d.server_id d.delete_on_termination w.remote).1.2
      = none) :
    (resourceVolumeAttachmentDelete WaitForState client d w).err = none ∧
      resourceVolumeAttachmentCreate WaitForState client d w =
        resourceVolumeAttachmentRead client { d with id := d.volume_id }
          (WaitForState
            (attachedStateConf client { d with id := d.volume_id } d.server_id
              ["", "Detached"] ["Attached"])
            (w.invoke (AttachCall.attach d.volume_id d.server_id d.delete_on_termination)
              (client.Attach d.volume_id d.server_id d.delete_on_termination)).2).2 ∧
      (∀ other : Poller σ, (∀ conf v, (other conf v).2 = (WaitForState conf v).2) →
        resourceVolumeAttachmentCreate other client d w =
            resourceVolumeAttachmentCreate WaitForState client d w ∧
          (resourceVolumeAttachmentDelete other client d w).err = none) := by
  have hc : ∀ P : Poller σ, resourceVolumeAttachmentCreate P client d w =
      resourceVolumeAttachmentRead client { d with id := d.volume_id }
        (P (attachedStateConf client { d with id := d.volume_id } d.server_id
            ["", "Detached"] ["Attached"])
          (w.invoke (AttachCall.attach d.volume_id d.server_id d.delete_on_termination)
            (client.Attach d.volume_id d.server_id d.delete_on_termination)).2).2 := by
    intro P
    unfold resourceVolumeAttachmentCreate waitUntilVolumeAttachedStateChanged
    simp only [World.invoke, hAttach]
  have hd : ∀ P : Poller σ, (resourceVolumeAttachmentDelete P client d w).err = none := by
    intro P
    unfold resourceVolumeAttachmentDelete
    simp only [World.invoke, hDetach]
  refine ⟨hd WaitForState, hc WaitForState, fun other hsame => ⟨?_, hd other⟩⟩
  rw [hc other, hc WaitForState, hsame]

theorem resourceVolumeAttachment_ignores_wait_witness :
    (pollState 3 (attachedStateConf laggingVolumeClient attachmentData "srv-1"
        ["", "Attached"] ["Detached"]) (volumeWorld ["srv-1"])).1.2 =
        some (WaitError.timeout "") ∧
      (resourceVolumeAttachmentDelete (pollState 3) laggingVolumeClient attachmentData
        (volumeWorld ["srv-1"])).err = none ∧
      (resourceVolumeAttachmentCreate (pollState 3) laggingVolumeClient attachmentData
        (volumeWorld [])).err = none :=
  have h := resourceVolumeAttachment_ignores_wait (pollState 3) laggingVolumeClient
    attachmentData (volumeWorld ["srv-1"]) rfl rfl
  have h2 := resourceVolumeAttachment_ignores_wait (pollState 3) laggingVolumeClient
    attachmentData (volumeWorld []) rfl rfl
  ⟨rfl, h.1, by rw [h2.2.1]; rfl⟩

/-! ## Server data source: the ip_address filter -/

theorem scanInterfaces_wellFormed (v : String) (items : List Value) (found b : Bool)
    (h : scanInterfaces v items found = some b) :
    (items.all fun inter => (addrOf inter).isSome) = true := by
  induction items generalizing found with
  | nil => rfl
  | cons a rest ih =>
    unfold scanInterfaces at h
    cases ha : addrOf a with
    | none => simp [ha] at h
    | some ip =>
      simp only [ha] at h
      simp only [List.all_cons, ha, Option.isSome_some, Bool.true_and]
      exact ih _ h

theorem scanNetworks_wellFormed (v : String) (m : List (String × Value)) (found b : Bool)
    (h : scanNetworks v m found = some b) : addressesWellFormed (Value.map m) = true := by
  induction m generalizing found with
  | nil => rfl
  | cons a rest ih =>
    unfold scanNetworks at h
    cases ha : a.2 with
    | list items =>
      simp only [ha] at h
      cases hs : scanInterfaces v items found with
      | none => simp [hs] at h
      | some f =>
        simp only [hs] at h
        have h1 := scanInterfaces_wellFormed v items found f hs
        have h2 := ih f h
        simp only [addressesWellFormed, List.all_cons, Bool.and_eq_true] at h2 ⊢
        exact ⟨by simp only [ha]; exact h1, h2⟩
    | null => simp [ha] at h
    | bool x => simp [ha] at h
    | number n => simp [ha] at h
    | string x => simp [ha] at h
    | map es => simp [ha] at h

theorem serverPasses_of_matches (ToLower : String → String) (d : ServerData) (server : Server)
    (hm : serverMatchesStated ToLower d server = true) (hip : d.ip_address ≠ "") :
    serverPasses ToLower d server =
      match server.Addresses with
      | Value.list _ => some true
      | Value.map m => scanNetworks d.ip_address m false
      | _ => some true := by
  unfold serverMatchesStated at hm
  simp only [decide_eq_true_eq] at hm
  obtain ⟨h1, h2, h3⟩ := hm
  unfold serverPasses strings.Contains
  rw [if_neg (by tauto), if_neg (by simp only [decide_eq_true_eq]; tauto),
    if_neg (by simp only [decide_eq_true_eq]; tauto), if_pos hip]
  cases server.Addresses with
  | map m =>
    simp only
    cases hs : scanNetworks d.ip_address m false <;> rfl
  | null => rfl
  | bool b => rfl
  | number n => rfl
  | string x => rfl
  | list l => rfl

/-- C17: in the filter loop of `dataSourceServerRead` with a non-empty `ip_address` filter, a
server that passes the name, status and vm_state filters is excluded only when its `Addresses`
value is a map none of whose address entries has `addr` equal to the filter; and a server whose
`Addresses` value is not a map (a list, the empty list included, or any other shape) passes the
`ip_address` filter whatever the filter value: it is kept exactly when it passes the three other
filters. -/
theorem serverFilter_ip_address (ToLower : String → String) (d : ServerData) (server : Server)
    (hip : d.ip_address ≠ "") :
    (serverMatchesStated ToLower d server = true →
      serverPasses ToLower d server = some false →
        server.Addresses.isMap = true ∧ hasAddress d.ip_address server.Addresses = false) ∧
    (server.Addresses.isMap = false →
      serverPasses ToLower d server = some (serverMatchesStated ToLower d server)) ∧
    (∀ items, server.Addresses = Value.list items →
      serverPasses ToLower d server = some (serverMatchesStated ToLower d server)) := by
  have hnonmap : server.Addresses.isMap = false →
      serverPasses ToLower d server = some (serverMatchesStated ToLower d server) := by
    intro hmap
    have hwf : addressesWellFormed server.Addresses = true := by
      cases ha : server.Addresses with
      | map m => rw [ha] at hmap; cases hmap
      | null => rfl
      | bool b => rfl
      | number n => rfl
      | string x => rfl
      | list l => rfl
    rw [serverPasses_eq ToLower d server (Or.inr hwf), hmap]
    simp
  refine ⟨?_, hnonmap, ?_⟩
  · intro hm hex
    cases ha : server.Addresses with
    | map m =>
      rw [serverPasses_of_matches ToLower d server hm hip] at hex
      simp only [ha] at hex
      have hwf := scanNetworks_wellFormed d.ip_address m false false hex
      rw [scanNetworks_eq d.ip_address m false hwf] at hex
      simp only [Bool.false_or, Option.some.injEq] at hex
      exact ⟨rfl, hex⟩
    | null =>
      rw [hnonmap (by rw [ha]; rfl), hm] at hex
      cases hex
    | bool b =>
      rw [hnonmap (by rw [ha]; rfl), hm] at hex
      cases hex
    | number n =>
      rw [hnonmap (by rw [ha]; rfl), hm] at hex
      cases hex
    | string x =>
      rw [hnonmap (by rw [ha]; rfl), hm] at hex
      cases hex
    | list l =>
      rw [hnonmap (by rw [ha]; rfl), hm] at hex
      cases hex
  · intro items ha
    exact hnonmap (by rw [ha]; rfl)

theorem serverFilter_ip_address_witness :
    serverPasses asciiLower { emptyServerQuery with ip_address := "10.9.9.9" } dbServer =
        some true ∧
      (serverPasses asciiLower { emptyServerQuery with ip_address := "10.9.9.9" } webServer =
          some false →
        webServer.Addresses.isMap = true ∧ hasAddress "10.9.9.9" webServer.Addresses = false) :=
  ⟨((serverFilter_ip_address asciiLower { emptyServerQuery with ip_address := "10.9.9.9" }
      dbServer (by decide)).2.2 [] rfl).trans rfl,
    (serverFilter_ip_address asciiLower { emptyServerQuery with ip_address := "10.9.9.9" }
      webServer (by decide)).1 (by decide)⟩

end Cmccloudv2
